import Mathlib

/-!
Shallow embedding of the bunny-dns reconciliation tool (src/bunny_client.py,
src/bunny_dns/dns_manager.py, src/bunny_dns/pullzone_manager.py,
src/bunny_dns/edge_rules_manager.py) together with proofs about the
frozen behavioural claims of its specification.

Conventions used throughout:
  * Python `None`-able values become `Option`.
  * Python exceptions become `Except` values / explicit error components.
  * Remote HTTP calls are modelled through explicit behaviour records
    (an oracle deciding, per call, whether the remote fails) and every
    mutating call issued is recorded in an explicit trace.
  * Machine floats only appear as retry delays `base * 2 ^ attempt`;
    these are powers of two scaled by the base, exact in binary floating
    point, so they are modelled as rationals.
-/

namespace BunnyDns

/-! ## Low-level client: `bunny_client.py` -/

/-- Error taxonomy of `bunny_client.py` (`BunnyValidationError`,
`BunnyAuthError`, `BunnyForbiddenError`, `BunnyNotFoundError`,
`BunnyRateLimitError`, base `BunnyAPIError` used as the generic kind).
Each carries the message built by `_handle_response`; the generic kind
also carries the raw status code. -/
inductive ApiError where
  | validation (msg : String)
  | auth (msg : String)
  | forbidden (msg : String)
  | notFound (msg : String)
  | rateLimit (msg : String)
  | generic (status : Nat) (msg : String)
  deriving DecidableEq, Repr

/-- `isinstance(e, BunnyRateLimitError)`, the only error class caught by
the retry loop of `_request`. -/
def ApiError.isRateLimit : ApiError → Bool
  | .rateLimit _ => true
  | _ => false

/-- An HTTP response as `_handle_response` sees it: the status code, the
raw text, and `data`, the parsed JSON body (`None` when the text is empty
or fails to parse).  The parsed body is kept abstract as a `String`
rendering. -/
structure HttpResponse where
  status : Nat
  text : String
  data : Option String
  deriving DecidableEq, Repr

/-- Python truthiness fallback `data or response.text` used when building
error messages: the parsed body when present and non-empty (emptiness
standing in for falsy parsed values), otherwise the raw text. -/
def dataOrText (data : Option String) (text : String) : String :=
  match data with
  | some d => if d = "" then text else d
  | none => text

/-- `BunnyClient._handle_response`: 200/201 return the parsed body,
204 returns `None`, 400/401/403/404/429 raise their dedicated error,
every other status raises the generic `BunnyAPIError`. -/
def handleResponse (r : HttpResponse) : Except ApiError (Option String) :=
  if r.status = 200 ∨ r.status = 201 then
    .ok r.data
  else if r.status = 204 then
    .ok none
  else if r.status = 400 then
    .error (.validation ("Validation failed: " ++ dataOrText r.data r.text))
  else if r.status = 401 then
    .error (.auth "Authentication failed. Check your API key.")
  else if r.status = 403 then
    .error (.forbidden ("Action forbidden: " ++ dataOrText r.data r.text))
  else if r.status = 404 then
    .error (.notFound ("Resource not found: " ++ dataOrText r.data r.text))
  else if r.status = 429 then
    .error (.rateLimit "Rate limit exceeded")
  else
    .error (.generic r.status ("API error (" ++ toString r.status ++ "): " ++
      dataOrText r.data r.text))

/-- The retry loop of `BunnyClient._request`, iteration of
`for attempt in range(self.max_retries + 1)` starting at `attempt`.
`responses` gives the remote's answer to the attempt with that index.
Returns the durations passed to `time.sleep` (in order) and the final
outcome.  Only `BunnyRateLimitError` is caught; before each retry the
client sleeps `retry_delay * 2 ** attempt`. -/
def requestAux (responses : Nat → HttpResponse) (maxRetries : Nat)
    (retryDelay : ℚ) (attempt : Nat) : List ℚ × Except ApiError (Option String) :=
  match handleResponse (responses attempt) with
  | .ok v => ([], .ok v)
  | .error e =>
    if e.isRateLimit then
      if attempt < maxRetries then
        let rest := requestAux responses maxRetries retryDelay (attempt + 1)
        (retryDelay * 2 ^ attempt :: rest.1, rest.2)
      else ([], .error e)
    else ([], .error e)
  termination_by maxRetries - attempt

/-- `BunnyClient._request`: run the retry loop from attempt 0 (defaults:
`max_retries = 3`, `retry_delay = 1.0`). -/
def request (responses : Nat → HttpResponse) (maxRetries : Nat)
    (retryDelay : ℚ) : List ℚ × Except ApiError (Option String) :=
  requestAux responses maxRetries retryDelay 0

lemma handleResponse_throttle {r : HttpResponse} (h : r.status = 429) :
    handleResponse r = .error (.rateLimit "Rate limit exceeded") := by
  simp [handleResponse, h]

lemma requestAux_throttle_step (responses : Nat → HttpResponse)
    (maxRetries : Nat) (retryDelay : ℚ) (attempt : Nat)
    (h : (responses attempt).status = 429) (hlt : attempt < maxRetries) :
    requestAux responses maxRetries retryDelay attempt =
      (retryDelay * 2 ^ attempt ::
        (requestAux responses maxRetries retryDelay (attempt + 1)).1,
       (requestAux responses maxRetries retryDelay (attempt + 1)).2) := by
  rw [requestAux, handleResponse_throttle h]
  simp [ApiError.isRateLimit, hlt]

lemma requestAux_throttle_last (responses : Nat → HttpResponse)
    (maxRetries : Nat) (retryDelay : ℚ) (attempt : Nat)
    (h : (responses attempt).status = 429) (hge : ¬ attempt < maxRetries) :
    requestAux responses maxRetries retryDelay attempt =
      ([], .error (.rateLimit "Rate limit exceeded")) := by
  rw [requestAux, handleResponse_throttle h]
  simp [ApiError.isRateLimit, hge]

lemma requestAux_success (responses : Nat → HttpResponse)
    (maxRetries : Nat) (retryDelay : ℚ) (attempt : Nat) (v : Option String)
    (h : handleResponse (responses attempt) = .ok v) :
    requestAux responses maxRetries retryDelay attempt = ([], .ok v) := by
  rw [requestAux, h]

/-- Throttling for the first `k` attempts followed by a successful parse on
attempt `k` yields sleeps `base * 2 ^ i` for the shifted indices. -/
lemma requestAux_run (responses : Nat → HttpResponse) (maxRetries : Nat)
    (retryDelay : ℚ) (v : Option String) :
    ∀ (k attempt : Nat),
      (∀ i, i < k → (responses (attempt + i)).status = 429) →
      attempt + k ≤ maxRetries →
      handleResponse (responses (attempt + k)) = .ok v →
      requestAux responses maxRetries retryDelay attempt =
        ((List.range k).map (fun i => retryDelay * 2 ^ (attempt + i)), .ok v)
  | 0, attempt, _, _, hok => by
      simpa using requestAux_success responses maxRetries retryDelay attempt v hok
  | (k + 1), attempt, hthr, hle, hok => by
      have h0 : (responses attempt).status = 429 := by
        simpa using hthr 0 (Nat.succ_pos k)
      have hlt : attempt < maxRetries := by omega
      have ih := requestAux_run responses maxRetries retryDelay v k (attempt + 1)
        (fun i hi => by
          have := hthr (i + 1) (by omega)
          simpa [Nat.add_assoc, Nat.add_comm 1 i] using this)
        (by omega)
        (by
          have : attempt + 1 + k = attempt + (k + 1) := by omega
          rw [this]; exact hok)
      rw [requestAux_throttle_step responses maxRetries retryDelay attempt h0 hlt, ih]
      simp [List.range_succ_eq_map, Function.comp_def]
      exact fun a _ => Or.inl (by omega)

/-- Throttling on every attempt exhausts the retries. -/
lemma requestAux_exhaust (responses : Nat → HttpResponse) (maxRetries : Nat)
    (retryDelay : ℚ) :
    ∀ (k attempt : Nat),
      attempt + k = maxRetries →
      (∀ i, attempt ≤ i → i ≤ maxRetries → (responses i).status = 429) →
      requestAux responses maxRetries retryDelay attempt =
        ((List.range k).map (fun i => retryDelay * 2 ^ (attempt + i)),
         .error (.rateLimit "Rate limit exceeded"))
  | 0, attempt, hk, hthr => by
      have h0 : (responses attempt).status = 429 := hthr attempt (le_refl _) (by omega)
      simpa using requestAux_throttle_last responses maxRetries retryDelay attempt h0 (by omega)
  | (k + 1), attempt, hk, hthr => by
      have h0 : (responses attempt).status = 429 := hthr attempt (le_refl _) (by omega)
      have hlt : attempt < maxRetries := by omega
      have ih := requestAux_exhaust responses maxRetries retryDelay k (attempt + 1)
        (by omega) (fun i h1 h2 => hthr i (by omega) h2)
      rw [requestAux_throttle_step responses maxRetries retryDelay attempt h0 hlt, ih]
      simp [List.range_succ_eq_map, Function.comp_def]
      exact fun a _ => Or.inl (by omega)

/-- C4.  Retry policy: when the remote throttles, the client retries up to
the configured limit, sleeping `base * 2 ^ attempt` before each retry; a
success on attempt `k ≤ maxRetries` returns the successful payload after
recording exactly the sleeps `base * 2 ^ 0, …, base * 2 ^ (k-1)`; throttling
on every attempt raises the throttling error only after exhausting the
`maxRetries` retries. -/
theorem claim_retry_policy (responses : Nat → HttpResponse)
    (maxRetries k : Nat) (retryDelay : ℚ) (v : Option String) :
    ((∀ i, i < k → (responses i).status = 429) → k ≤ maxRetries →
      handleResponse (responses k) = .ok v →
      request responses maxRetries retryDelay =
        ((List.range k).map (fun i => retryDelay * 2 ^ i), .ok v)) ∧
    ((∀ i, i ≤ maxRetries → (responses i).status = 429) →
      request responses maxRetries retryDelay =
        ((List.range maxRetries).map (fun i => retryDelay * 2 ^ i),
         .error (.rateLimit "Rate limit exceeded"))) := by
  constructor
  · intro hthr hle hok
    have h := requestAux_run responses maxRetries retryDelay v k 0
      (fun i hi => by simpa using hthr i hi) (by omega) (by simpa using hok)
    simpa [request] using h
  · intro hthr
    have h := requestAux_exhaust responses maxRetries retryDelay maxRetries 0
      (by omega) (fun i _ h2 => hthr i h2)
    simpa [request] using h

/-- C4 witness: the spec scenario — throttling on the first two attempts
then success with base delay 1 records sleeps `[1, 2]` and returns the
successful payload. -/
theorem claim_retry_policy_witness :
    request (fun i => if i < 2 then ⟨429, "", none⟩ else ⟨200, "p", some "payload"⟩)
        3 1 = ([1, 2], .ok (some "payload")) := by
  have h := (claim_retry_policy
      (fun i => if i < 2 then ⟨429, "", none⟩ else ⟨200, "p", some "payload"⟩)
      3 2 1 (some "payload")).1 (by decide) (by omega) (by rfl)
  rw [h]
  norm_num [List.range_succ]

/-- C5 counterexample: status 202 is a 2xx success status, yet
`_handle_response` maps it to the generic error instead of returning the
parsed body — refuting "a success (2xx) status … never an error". -/
theorem claim_status_mapping_counterexample :
    (200 ≤ 202 ∧ 202 ≤ 299) ∧
      handleResponse ⟨202, "accepted", some "body"⟩ =
        .error (.generic 202 "API error (202): body") := by
  exact ⟨⟨by norm_num, by norm_num⟩, rfl⟩

/-- C5 (amended).  Status-to-error mapping: the success statuses are
exactly 200 and 201 (yielding the parsed body, which is empty when the body
is empty) and 204 (yielding an empty result); every other status — other
2xx statuses such as 202 included — maps immediately, without any retry, to
its error kind (400 validation, 401 authentication, 403 forbidden, 404
not-found, 429 throttling, anything else generic); only the throttling
status is retried. -/
theorem claim_status_mapping (r : HttpResponse)
    (responses : Nat → HttpResponse) (maxRetries : Nat) (retryDelay : ℚ)
    (e : ApiError) :
    (r.status = 200 ∨ r.status = 201 → handleResponse r = .ok r.data) ∧
    (r.status = 204 → handleResponse r = .ok none) ∧
    (r.status = 400 → handleResponse r =
      .error (.validation ("Validation failed: " ++ dataOrText r.data r.text))) ∧
    (r.status = 401 → handleResponse r =
      .error (.auth "Authentication failed. Check your API key.")) ∧
    (r.status = 403 → handleResponse r =
      .error (.forbidden ("Action forbidden: " ++ dataOrText r.data r.text))) ∧
    (r.status = 404 → handleResponse r =
      .error (.notFound ("Resource not found: " ++ dataOrText r.data r.text))) ∧
    (r.status = 429 → handleResponse r =
      .error (.rateLimit "Rate limit exceeded")) ∧
    (r.status ∉ ([200, 201, 204, 400, 401, 403, 404, 429] : List Nat) →
      handleResponse r = .error (.generic r.status
        ("API error (" ++ toString r.status ++ "): " ++ dataOrText r.data r.text))) ∧
    (handleResponse (responses 0) = .error e → e.isRateLimit = false →
      request responses maxRetries retryDelay = ([], .error e)) := by
  refine ⟨?_, ?_, ?_, ?_, ?_, ?_, ?_, ?_, ?_⟩
  · intro h; simp [handleResponse, h]
  · intro h; simp [handleResponse, h]
  · intro h; simp [handleResponse, h]
  · intro h; simp [handleResponse, h]
  · intro h; simp [handleResponse, h]
  · intro h; simp [handleResponse, h]
  · intro h; simp [handleResponse, h]
  · intro h
    simp only [List.mem_cons, List.not_mem_nil, or_false] at h
    push_neg at h
    obtain ⟨h1, h2, h3, h4, h5, h6, h7, h8⟩ := h
    simp [handleResponse, h1, h2, h3, h4, h5, h6, h7, h8]
  · intro hresp hrl
    rw [request, requestAux, hresp]
    simp [hrl]

/-- C5 witness: a 400 response maps to the validation error, and a
non-throttling failure (404) returns immediately with no sleeps. -/
theorem claim_status_mapping_witness :
    handleResponse ⟨400, "t", some "oops"⟩ =
      .error (.validation "Validation failed: oops") ∧
    request (fun _ => ⟨404, "t", none⟩) 3 1 =
      ([], .error (.notFound "Resource not found: t")) := by
  constructor
  · exact (claim_status_mapping ⟨400, "t", some "oops"⟩ (fun _ => ⟨404, "t", none⟩)
      3 1 (.notFound "Resource not found: t")).2.2.1 rfl
  · exact (claim_status_mapping ⟨400, "t", some "oops"⟩ (fun _ => ⟨404, "t", none⟩)
      3 1 (.notFound "Resource not found: t")).2.2.2.2.2.2.2.2 rfl rfl

/-! ## Edge rules: `edge_rules_manager.py` -/

/-- Python truthiness fallback `o or d` for optional strings (`""` and
`None` are both falsy). -/
def pyOrStr (o : Option String) (d : String) : String :=
  match o with
  | some s => if s = "" then d else s
  | none => d

/-- Python `int(s)` applied to the string with fallback `d` when the value
is falsy, as in `int(self.parameter1) if self.parameter1 else 0`.
(Python raises on a malformed numeral; that case, unreachable on codec
output, is modelled as 0.) -/
def pyIntOr (o : Option String) (d : Int) : Int :=
  match o with
  | some s => if s = "" then d else (s.toInt?).getD 0
  | none => d

/-- `EdgeRuleTrigger` dataclass.  The Python field `match` is called
`matchMode` here because `match` is a Lean keyword. -/
structure EdgeRuleTrigger where
  type : String
  patterns : List String
  matchMode : String
  parameter : Option String
  deriving DecidableEq, Repr

/-- A trigger in config-dict format, the output of
`EdgeRuleTrigger.to_config_dict` (the `parameter` key is present only when
the field is truthy). -/
structure TriggerConfig where
  type : String
  patterns : List String
  matchMode : String
  parameter : Option String
  deriving DecidableEq, Repr

/-- `EdgeRuleTrigger.to_config_dict`. -/
def EdgeRuleTrigger.to_config_dict (t : EdgeRuleTrigger) : TriggerConfig :=
  { type := t.type
    patterns := t.patterns
    matchMode := t.matchMode
    parameter := match t.parameter with
      | some s => if s = "" then none else some s
      | none => none }

/-- `EdgeRuleAction` dataclass. -/
structure EdgeRuleAction where
  type : String
  parameter1 : Option String
  parameter2 : Option String
  deriving DecidableEq, Repr

/-- An action in config-dict format: the `type` key plus whichever
type-specific keys `EdgeRuleAction.to_config_dict` emits. -/
structure ActionConfig where
  type : String
  header : Option String := none
  value : Option String := none
  url : Option String := none
  status_code : Option String := none
  seconds : Option Int := none
  code : Option Int := none
  deriving DecidableEq, Repr

/-- `EdgeRuleAction.to_config_dict`. -/
def EdgeRuleAction.to_config_dict (a : EdgeRuleAction) : ActionConfig :=
  if a.type = "set_response_header" ∨ a.type = "set_request_header" then
    { type := a.type
      header := some (pyOrStr a.parameter1 "")
      value := some (pyOrStr a.parameter2 "") }
  else if a.type = "redirect" then
    { type := a.type
      url := some (pyOrStr a.parameter1 "")
      status_code := some (pyOrStr a.parameter2 "301") }
  else if a.type = "origin_url" then
    { type := a.type, url := some (pyOrStr a.parameter1 "") }
  else if a.type = "override_cache_time" then
    { type := a.type, seconds := some (pyIntOr a.parameter1 0) }
  else if a.type = "set_status_code" then
    { type := a.type, code := some (pyIntOr a.parameter1 200) }
  else
    { type := a.type }

/-- `EdgeRule` dataclass: one remote rule entity — a single description,
enabled flag, shared trigger list, action list (a singleton for entities
decoded from the API), trigger-combination mode and optional GUID. -/
structure EdgeRule where
  description : String
  enabled : Bool
  triggers : List EdgeRuleTrigger
  actions : List EdgeRuleAction
  trigger_match : String
  guid : Option String
  deriving DecidableEq, Repr

/-- One logical rule of the configuration, with its triggers and actions
already parsed (`parse_trigger_from_config` / `parse_action_from_config`):
the form `parse_rule_from_config` holds just before it splits the rule into
one entity per action. -/
structure LogicalRule where
  description : String
  enabled : Bool
  trigger_match : String
  triggers : List EdgeRuleTrigger
  actions : List EdgeRuleAction
  deriving DecidableEq, Repr

/-- A logical rule in config-dict format, the element type of
`group_api_rules_to_config`'s result list. -/
structure ConfigRule where
  description : String
  enabled : Bool
  trigger_match : String
  triggers : List TriggerConfig
  actions : List ActionConfig
  deriving DecidableEq, Repr

/-- Decimal digits of a natural number, least significant last, with
explicit fuel (`n + 1` always suffices since the argument shrinks by a
factor of ten per step). -/
def decDigitsAux : Nat → Nat → List Char
  | 0, _ => []
  | fuel + 1, n =>
    if n < 10 then [Char.ofNat (48 + n)]
    else decDigitsAux fuel (n / 10) ++ [Char.ofNat (48 + n % 10)]

/-- Decimal digits of a natural number — the rendering Python's f-string
applies to the 1-based action ordinal. -/
def decDigits (n : Nat) : List Char := decDigitsAux (n + 1) n

/-- Python `str(n)` for a natural number. -/
def natStr (n : Nat) : String := String.mk (decDigits n)

/-- The entity-splitting loop of `parse_rule_from_config` (lines 276-288):
one entity per action, the 1-based ordinal suffix appended to the
description when the rule has more than one action.  `i` is the
`enumerate` index. -/
def encodeEntities (r : LogicalRule) : Nat → List EdgeRuleAction → List EdgeRule
  | _, [] => []
  | i, a :: rest =>
    { description :=
        if r.actions.length > 1 then
          r.description ++ " (action " ++ natStr (i + 1) ++ ")"
        else r.description
      enabled := r.enabled
      triggers := r.triggers
      actions := [a]
      trigger_match := r.trigger_match
      guid := none } :: encodeEntities r (i + 1) rest

/-- Encode: `parse_rule_from_config` restricted to an already-parsed
logical rule — emit one remote entity per action. -/
def encodeRule (r : LogicalRule) : List EdgeRule :=
  encodeEntities r 0 r.actions

/-- Reverse of the literal `" (action "`. -/
def revActionMarker : List Char := [' ', 'n', 'o', 'i', 't', 'c', 'a', '(', ' ']

/-- Match the regex `" \(action \d+\)$"` on a reversed character list:
a closing parenthesis, at least one ASCII digit, then `" (action "`;
returns the reversed remainder when it matches. -/
def stripSuffixRev : List Char → Option (List Char)
  | ')' :: rest =>
    let ds := rest.takeWhile Char.isDigit
    let rest2 := rest.dropWhile Char.isDigit
    if ds.isEmpty then none
    else if revActionMarker.isPrefixOf rest2 then some (rest2.drop 9)
    else none
  | _ => none

/-- `action_suffix_re.sub("", description)`: strip one trailing
`" (action N)"` ordinal suffix, if present. -/
def stripActionSuffix (s : String) : String :=
  match stripSuffixRev s.data.reverse with
  | some cs => String.mk cs.reverse
  | none => s

/-- Does the description itself end in the ordinal-suffix pattern? -/
def endsWithActionMarker (s : String) : Bool :=
  (stripSuffixRev s.data.reverse).isSome

/-- The grouping key tuple of `group_api_rules_to_config`:
`(base_description, enabled, trigger_match, triggers_repr)` where the
triggers are rendered as an order-sensitive tuple with `t.parameter or ""`. -/
structure GroupKey where
  baseDesc : String
  enabled : Bool
  trigger_match : String
  triggersRepr : List (String × List String × String × String)
  deriving DecidableEq, Repr

/-- Compute the grouping key of one remote entity. -/
def groupKeyOf (r : EdgeRule) : GroupKey :=
  { baseDesc := stripActionSuffix r.description
    enabled := r.enabled
    trigger_match := r.trigger_match
    triggersRepr :=
      r.triggers.map fun t => (t.type, t.patterns, t.matchMode, pyOrStr t.parameter "") }

/-- Insertion-ordered dictionary update backing
`groups.setdefault(key, []).append(rule)`. -/
def groupInsert (k : GroupKey) (r : EdgeRule) :
    List (GroupKey × List EdgeRule) → List (GroupKey × List EdgeRule)
  | [] => [(k, [r])]
  | (k', rs) :: rest =>
    if k' = k then (k', rs ++ [r]) :: rest else (k', rs) :: groupInsert k r rest

/-- `group_api_rules_to_config`: group entities by suffix-stripped
description, enabled flag, trigger-combination mode and trigger tuple, then
rebuild one config rule per group, concatenating actions in entity order
and taking the triggers of the group's first entity. -/
def groupApiRulesToConfig (rules : List EdgeRule) : List ConfigRule :=
  let groups := rules.foldl (fun gs r => groupInsert (groupKeyOf r) r gs) []
  groups.map fun kg =>
    { description := kg.1.baseDesc
      enabled := kg.1.enabled
      trigger_match := kg.1.trigger_match
      triggers :=
        match kg.2 with
        | r :: _ => r.triggers.map EdgeRuleTrigger.to_config_dict
        | [] => []
      actions := kg.2.flatMap fun r => r.actions.map EdgeRuleAction.to_config_dict }

lemma char_ofNat_digit {n : Nat} (h : n < 10) :
    (Char.ofNat (48 + n)).isDigit = true := by
  interval_cases n <;> decide

lemma decDigitsAux_digits :
    ∀ (fuel n : Nat), ∀ c ∈ decDigitsAux fuel n, c.isDigit = true := by
  intro fuel
  induction fuel with
  | zero => intro n c hc; simp [decDigitsAux] at hc
  | succ fuel ih =>
    intro n c hc
    rw [decDigitsAux] at hc
    split at hc
    · next h =>
      simp only [List.mem_singleton] at hc
      subst hc
      exact char_ofNat_digit h
    · next h =>
      rw [List.mem_append] at hc
      rcases hc with hc | hc
      · exact ih (n / 10) c hc
      · simp only [List.mem_singleton] at hc
        subst hc
        exact char_ofNat_digit (Nat.mod_lt n (by omega))

lemma decDigits_digits : ∀ n : Nat, ∀ c ∈ decDigits n, c.isDigit = true :=
  fun n => decDigitsAux_digits (n + 1) n

lemma decDigits_ne_nil (n : Nat) : decDigits n ≠ [] := by
  rw [decDigits, decDigitsAux]
  split <;> simp

lemma takeWhile_app (p : Char → Bool) :
    ∀ (l₁ : List Char) (x : Char) (xs : List Char),
      (∀ c ∈ l₁, p c = true) → p x = false →
      ((l₁ ++ x :: xs).takeWhile p = l₁ ∧ (l₁ ++ x :: xs).dropWhile p = x :: xs)
  | [], x, xs, _, hx => by simp [List.takeWhile, List.dropWhile, hx]
  | c :: l, x, xs, h, hx => by
    have hc : p c = true := h c (by simp)
    have ih := takeWhile_app p l x xs (fun d hd => h d (by simp [hd])) hx
    simp [List.takeWhile, List.dropWhile, hc, ih.1, ih.2]

lemma isPrefixOf_app : ∀ (l t : List Char), l.isPrefixOf (l ++ t) = true
  | [], t => by simp [List.isPrefixOf]
  | c :: l, t => by simp [List.isPrefixOf, isPrefixOf_app l t]

lemma string_mk_data (s : String) : String.mk s.data = s := rfl

/-- Stripping the appended ordinal suffix recovers the description. -/
lemma stripActionSuffix_append (s : String) (n : Nat) :
    stripActionSuffix (s ++ " (action " ++ natStr n ++ ")") = s := by
  have hdata : (s ++ " (action " ++ natStr n ++ ")").data =
      s.data ++ ([' ', '(', 'a', 'c', 't', 'i', 'o', 'n', ' '] ++ (decDigits n ++ [')'])) := by
    simp [String.data_append, natStr]
  rw [stripActionSuffix, hdata]
  have hrev : (s.data ++ ([' ', '(', 'a', 'c', 't', 'i', 'o', 'n', ' '] ++ (decDigits n ++ [')']))).reverse =
      ')' :: ((decDigits n).reverse ++ (revActionMarker ++ s.data.reverse)) := by
    simp [List.reverse_append, revActionMarker]
  rw [hrev, stripSuffixRev]
  have hdig : ∀ c ∈ (decDigits n).reverse, c.isDigit = true := by
    intro c hc
    exact decDigits_digits n c (List.mem_reverse.mp hc)
  have hsp : (' ' : Char).isDigit = false := by decide
  have htw := takeWhile_app Char.isDigit (decDigits n).reverse ' '
    ('n' :: 'o' :: 'i' :: 't' :: 'c' :: 'a' :: '(' :: ' ' :: s.data.reverse) hdig hsp
  simp only [revActionMarker, List.cons_append, List.nil_append] at htw ⊢
  rw [htw.1, htw.2]
  have hne : ((decDigits n).reverse).isEmpty = false := by
    have h1 : (decDigits n).reverse ≠ [] := by
      simp [decDigits_ne_nil n]
    cases hrev : (decDigits n).reverse with
    | nil => exact absurd hrev h1
    | cons c cs => rfl
  rw [hne]
  simp only [Bool.false_eq_true, if_false]
  have hpre := isPrefixOf_app [' ', 'n', 'o', 'i', 't', 'c', 'a', '(', ' '] s.data.reverse
  simp only [List.cons_append, List.nil_append] at hpre
  rw [hpre]
  simp only [if_true]
  have hdrop : (' ' :: 'n' :: 'o' :: 'i' :: 't' :: 'c' :: 'a' :: '(' :: ' ' :: s.data.reverse).drop 9 =
      s.data.reverse := rfl
  rw [hdrop, List.reverse_reverse, string_mk_data]

lemma stripActionSuffix_of_no_marker {s : String}
    (h : endsWithActionMarker s = false) : stripActionSuffix s = s := by
  rw [stripActionSuffix]
  rw [endsWithActionMarker] at h
  rcases hs : stripSuffixRev s.data.reverse with _ | cs
  · rfl
  · rw [hs] at h
    simp at h

/-- All entities emitted for one logical rule carry the same group key. -/
lemma encodeEntities_key (r : LogicalRule)
    (hdesc : endsWithActionMarker r.description = false) :
    ∀ (i : Nat) (as' : List EdgeRuleAction), ∀ e ∈ encodeEntities r i as',
      groupKeyOf e =
        { baseDesc := r.description
          enabled := r.enabled
          trigger_match := r.trigger_match
          triggersRepr := r.triggers.map fun t =>
            (t.type, t.patterns, t.matchMode, pyOrStr t.parameter "") } := by
  intro i as'
  induction as' generalizing i with
  | nil => intro e he; simp [encodeEntities] at he
  | cons a rest ih =>
    intro e he
    rw [encodeEntities] at he
    rcases List.mem_cons.mp he with he | he
    · subst he
      rw [groupKeyOf]
      by_cases hlen : r.actions.length > 1
      · simp only [hlen, if_true]
        congr 1
        exact stripActionSuffix_append r.description (i + 1)
      · simp only [hlen, if_false]
        congr 1
        exact stripActionSuffix_of_no_marker hdesc
    · exact ih (i + 1) e he

lemma encodeEntities_actions (r : LogicalRule) (f : EdgeRuleAction → ActionConfig) :
    ∀ (i : Nat) (as' : List EdgeRuleAction),
      (encodeEntities r i as').flatMap (fun e => e.actions.map f) = as'.map f := by
  intro i as'
  induction as' generalizing i with
  | nil => simp [encodeEntities]
  | cons a rest ih => simp [encodeEntities, ih]

lemma foldl_groupInsert_const (K : GroupKey) :
    ∀ (rs : List EdgeRule) (acc : List EdgeRule),
      (∀ r ∈ rs, groupKeyOf r = K) →
      rs.foldl (fun gs r => groupInsert (groupKeyOf r) r gs) [(K, acc)] =
        [(K, acc ++ rs)] := by
  intro rs
  induction rs with
  | nil => intro acc _; simp
  | cons r rest ih =>
    intro acc h
    have hk : groupKeyOf r = K := h r (by simp)
    have hstep : groupInsert (groupKeyOf r) r [(K, acc)] = [(K, acc ++ [r])] := by
      rw [hk, groupInsert]
      simp
    rw [List.foldl_cons, hstep, ih (acc ++ [r]) (fun x hx => h x (by simp [hx]))]
    simp

lemma buildGroups_const (K : GroupKey) (rs : List EdgeRule)
    (h : ∀ r ∈ rs, groupKeyOf r = K) (hne : rs ≠ []) :
    rs.foldl (fun gs r => groupInsert (groupKeyOf r) r gs) [] = [(K, rs)] := by
  rcases rs with _ | ⟨r, rest⟩
  · exact absurd rfl hne
  · have hk : groupKeyOf r = K := h r (by simp)
    have hstep : groupInsert (groupKeyOf r) r [] = [(K, [r])] := by
      rw [hk, groupInsert]
    rw [List.foldl_cons, hstep,
      foldl_groupInsert_const K rest [r] (fun x hx => h x (by simp [hx]))]
    simp

/-- C3.  Edge-rule codec round trip: for every logical rule with at least
one action whose description does not itself end in the ordinal-suffix
pattern `" (action N)"`, decoding the encoded remote entities yields back
exactly one config rule carrying the original description, enabled flag,
trigger-combination mode, triggers, and action list in order (triggers and
actions in their config-dict rendering). -/
theorem claim_edge_rule_codec_round_trip (r : LogicalRule)
    (hne : r.actions ≠ []) (hdesc : endsWithActionMarker r.description = false) :
    groupApiRulesToConfig (encodeRule r) =
      [{ description := r.description
         enabled := r.enabled
         trigger_match := r.trigger_match
         triggers := r.triggers.map EdgeRuleTrigger.to_config_dict
         actions := r.actions.map EdgeRuleAction.to_config_dict }] := by
  have hkeys : ∀ e ∈ encodeRule r, groupKeyOf e =
      { baseDesc := r.description
        enabled := r.enabled
        trigger_match := r.trigger_match
        triggersRepr := r.triggers.map fun t =>
          (t.type, t.patterns, t.matchMode, pyOrStr t.parameter "") } := by
    rw [encodeRule]
    exact encodeEntities_key r hdesc 0 r.actions
  have hacts := encodeEntities_actions r EdgeRuleAction.to_config_dict 0 r.actions
  rw [← encodeRule] at hacts
  rcases hact : r.actions with _ | ⟨a, rest⟩
  · exact absurd hact hne
  · have hcons : encodeRule r =
        ({ description :=
            if r.actions.length > 1 then
              r.description ++ " (action " ++ natStr (0 + 1) ++ ")"
            else r.description
           enabled := r.enabled
           triggers := r.triggers
           actions := [a]
           trigger_match := r.trigger_match
           guid := none } : EdgeRule) :: encodeEntities r (0 + 1) rest := by
      rw [encodeRule, hact, encodeEntities, hact]
    have hent : encodeRule r ≠ [] := by rw [hcons]; simp
    rw [groupApiRulesToConfig, buildGroups_const _ (encodeRule r) hkeys hent]
    simp only [List.map_cons, List.map_nil]
    rw [hcons] at hacts ⊢
    simp only [List.cons.injEq, ConfigRule.mk.injEq, true_and, and_true]
    rw [hacts, hact]
    simp

/-- C3 witness: a concrete two-action rule round-trips through the codec. -/
theorem claim_edge_rule_codec_round_trip_witness :
    groupApiRulesToConfig (encodeRule
      { description := "My Rule"
        enabled := true
        trigger_match := "all"
        triggers := [⟨"url", ["/a/*"], "any", none⟩]
        actions := [⟨"redirect", some "https://x", some "301"⟩,
                    ⟨"block", none, none⟩] }) =
      [{ description := "My Rule"
         enabled := true
         trigger_match := "all"
         triggers := [{ type := "url", patterns := ["/a/*"], matchMode := "any",
                        parameter := none }]
         actions := [{ type := "redirect", url := some "https://x",
                       status_code := some "301" },
                     { type := "block" }] }] := by
  have h := claim_edge_rule_codec_round_trip
    { description := "My Rule"
      enabled := true
      trigger_match := "all"
      triggers := [⟨"url", ["/a/*"], "any", none⟩]
      actions := [⟨"redirect", some "https://x", some "301"⟩,
                  ⟨"block", none, none⟩] }
    (by decide) (by decide)
  rw [h]
  decide

/-- Python string truthiness for an optional string (`None` and `""` are
falsy). -/
def pyStrTruthy : Option String → Bool
  | some s => decide (s ≠ "")
  | none => false

/-- Mutating remote calls the edge-rule reconciler can issue. -/
inductive EdgeCall where
  | deleteRule (zoneId : Nat) (guid : String)
  | addOrUpdateRule (zoneId : Nat) (rule : EdgeRule)
  deriving DecidableEq, Repr

/-- Failure oracle for the edge-rule reconciler's mutating calls: for each
call the remote either succeeds or raises the given error. -/
structure EdgeBehavior where
  deleteRuleErr : String → Option ApiError
  addOrUpdateErr : EdgeRule → Option ApiError

/-- The behaviour where every remote call succeeds. -/
def noFailEdge : EdgeBehavior := ⟨fun _ => none, fun _ => none⟩

/-- The report dict of `EdgeRulesManager.sync_rules`. -/
structure EdgeReport where
  deleted : List String
  created : List String
  changes : List String
  deriving DecidableEq, Repr

/-- Outcome of one edge-rule sync: the mutating calls issued (in order) and
either the report or the propagated remote error. -/
structure EdgeOutcome where
  trace : List EdgeCall
  result : Except ApiError EdgeReport
  deriving Repr

/-- Intermediate output of one loop of `sync_rules`. -/
structure EdgePhaseOut where
  entries : List String
  changes : List String
  trace : List EdgeCall
  err : Option ApiError
  deriving Repr

/-- The delete loop of `sync_rules`: every current rule is reported as
deleted; the delete call is issued only live and only when the rule has a
truthy GUID; a failure propagates. -/
def edgeDeletePhase (B : EdgeBehavior) (zoneId : Nat) (dryRun : Bool) :
    List EdgeRule → EdgePhaseOut
  | [] => ⟨[], [], [], none⟩
  | rule :: rest =>
    if dryRun = false ∧ pyStrTruthy rule.guid then
      let g := rule.guid.getD ""
      match B.deleteRuleErr g with
      | some e =>
        ⟨[rule.description], ["Deleting rule: " ++ rule.description],
         [.deleteRule zoneId g], some e⟩
      | none =>
        let o := edgeDeletePhase B zoneId dryRun rest
        ⟨rule.description :: o.entries,
         ("Deleting rule: " ++ rule.description) :: o.changes,
         .deleteRule zoneId g :: o.trace, o.err⟩
    else
      let o := edgeDeletePhase B zoneId dryRun rest
      ⟨rule.description :: o.entries,
       ("Deleting rule: " ++ rule.description) :: o.changes, o.trace, o.err⟩

/-- The create loop of `sync_rules`: every desired entity is reported as
created; the add-or-update call is issued only live; a failure propagates. -/
def edgeCreatePhase (B : EdgeBehavior) (zoneId : Nat) (dryRun : Bool) :
    List EdgeRule → EdgePhaseOut
  | [] => ⟨[], [], [], none⟩
  | rule :: rest =>
    if dryRun then
      let o := edgeCreatePhase B zoneId dryRun rest
      ⟨rule.description :: o.entries,
       ("Creating rule: " ++ rule.description) :: o.changes, o.trace, o.err⟩
    else
      match B.addOrUpdateErr rule with
      | some e =>
        ⟨[rule.description], ["Creating rule: " ++ rule.description],
         [.addOrUpdateRule zoneId rule], some e⟩
      | none =>
        let o := edgeCreatePhase B zoneId dryRun rest
        ⟨rule.description :: o.entries,
         ("Creating rule: " ++ rule.description) :: o.changes,
         .addOrUpdateRule zoneId rule :: o.trace, o.err⟩

/-- `EdgeRulesManager.sync_rules`: total replacement — delete every current
remote entity, then create one entity per desired action (the desired rules
arrive as parsed logical rules, split by the codec's encoder). -/
def edgeSyncRules (B : EdgeBehavior) (zoneId : Nat)
    (currentRules : List EdgeRule) (ruleConfigs : List LogicalRule)
    (dryRun : Bool) : EdgeOutcome :=
  let desired := ruleConfigs.flatMap encodeRule
  let del := edgeDeletePhase B zoneId dryRun currentRules
  match del.err with
  | some e => ⟨del.trace, .error e⟩
  | none =>
    let cr := edgeCreatePhase B zoneId dryRun desired
    match cr.err with
    | some e => ⟨del.trace ++ cr.trace, .error e⟩
    | none =>
      ⟨del.trace ++ cr.trace,
       .ok ⟨del.entries, cr.entries, del.changes ++ cr.changes⟩⟩

lemma edgeDeletePhase_dry (B : EdgeBehavior) (zoneId : Nat) :
    ∀ rules : List EdgeRule,
      edgeDeletePhase B zoneId true rules =
        ⟨rules.map (·.description),
         rules.map (fun r => "Deleting rule: " ++ r.description), [], none⟩
  | [] => rfl
  | rule :: rest => by
    rw [edgeDeletePhase]
    simp [edgeDeletePhase_dry B zoneId rest]

lemma edgeCreatePhase_dry (B : EdgeBehavior) (zoneId : Nat) :
    ∀ rules : List EdgeRule,
      edgeCreatePhase B zoneId true rules =
        ⟨rules.map (·.description),
         rules.map (fun r => "Creating rule: " ++ r.description), [], none⟩
  | [] => rfl
  | rule :: rest => by
    rw [edgeCreatePhase]
    simp [edgeCreatePhase_dry B zoneId rest]

lemma edgeDeletePhase_noFail (zoneId : Nat) (dryRun : Bool) :
    ∀ rules : List EdgeRule,
      edgeDeletePhase noFailEdge zoneId dryRun rules =
        ⟨rules.map (·.description),
         rules.map (fun r => "Deleting rule: " ++ r.description),
         rules.filterMap (fun r =>
           if dryRun = false ∧ pyStrTruthy r.guid then
             some (.deleteRule zoneId (r.guid.getD ""))
           else none), none⟩ := by
  intro rules
  induction rules with
  | nil => rfl
  | cons rule rest ih =>
    rw [edgeDeletePhase]
    cases dryRun with
    | true =>
      rw [if_neg (by simp)]
      simp [ih, List.filterMap_cons]
    | false =>
      by_cases hg : pyStrTruthy rule.guid = true
      · rw [if_pos ⟨rfl, hg⟩]
        simp only [noFailEdge] at ih ⊢
        simp [ih, List.filterMap_cons, hg]
      · rw [if_neg (by simp [hg])]
        simp [ih, List.filterMap_cons, hg]

lemma edgeCreatePhase_noFail (zoneId : Nat) (dryRun : Bool) :
    ∀ rules : List EdgeRule,
      edgeCreatePhase noFailEdge zoneId dryRun rules =
        ⟨rules.map (·.description),
         rules.map (fun r => "Creating rule: " ++ r.description),
         if dryRun then [] else rules.map (.addOrUpdateRule zoneId ·), none⟩ := by
  intro rules
  induction rules with
  | nil => cases dryRun <;> rfl
  | cons rule rest ih =>
    rw [edgeCreatePhase]
    cases dryRun with
    | true => simp [ih]
    | false =>
      simp only [noFailEdge] at ih ⊢
      simp [ih]

lemma edgeSyncRules_dry (B : EdgeBehavior) (zoneId : Nat)
    (cur : List EdgeRule) (cfgs : List LogicalRule) :
    edgeSyncRules B zoneId cur cfgs true =
      ⟨[], .ok ⟨cur.map (·.description),
        (cfgs.flatMap encodeRule).map (·.description),
        cur.map (fun r => "Deleting rule: " ++ r.description) ++
          (cfgs.flatMap encodeRule).map
            (fun r => "Creating rule: " ++ r.description)⟩⟩ := by
  rw [edgeSyncRules]
  simp [edgeDeletePhase_dry, edgeCreatePhase_dry]

lemma edgeSyncRules_noFail_live (zoneId : Nat)
    (cur : List EdgeRule) (cfgs : List LogicalRule) :
    edgeSyncRules noFailEdge zoneId cur cfgs false =
      ⟨cur.filterMap (fun r =>
          if pyStrTruthy r.guid then
            some (.deleteRule zoneId (r.guid.getD ""))
          else none) ++
        (cfgs.flatMap encodeRule).map (.addOrUpdateRule zoneId ·),
       .ok ⟨cur.map (·.description),
        (cfgs.flatMap encodeRule).map (·.description),
        cur.map (fun r => "Deleting rule: " ++ r.description) ++
          (cfgs.flatMap encodeRule).map
            (fun r => "Creating rule: " ++ r.description)⟩⟩ := by
  rw [edgeSyncRules]
  simp [edgeDeletePhase_noFail, edgeCreatePhase_noFail]

/-- Which oracle entry decides an edge-rule call. -/
def edgeCallErr (B : EdgeBehavior) : EdgeCall → Option ApiError
  | .deleteRule _ g => B.deleteRuleErr g
  | .addOrUpdateRule _ r => B.addOrUpdateErr r

lemma edgeDeletePhase_ok_calls (B : EdgeBehavior) (zoneId : Nat)
    (dryRun : Bool) :
    ∀ rules : List EdgeRule,
      (edgeDeletePhase B zoneId dryRun rules).err = none →
      ∀ call ∈ (edgeDeletePhase B zoneId dryRun rules).trace,
        edgeCallErr B call = none := by
  intro rules
  induction rules with
  | nil => intro _ call hc; simp [edgeDeletePhase] at hc
  | cons rule rest ih =>
    rw [edgeDeletePhase]
    by_cases h : dryRun = false ∧ pyStrTruthy rule.guid = true
    · rw [if_pos h]
      rcases he : B.deleteRuleErr (rule.guid.getD "") with _ | e
      · simp only [he]
        intro herr call hc
        rcases List.mem_cons.mp hc with hc | hc
        · subst hc; simpa [edgeCallErr] using he
        · exact ih herr call hc
      · simp only [he]
        intro herr
        simp at herr
    · rw [if_neg h]
      intro herr call hc
      simp only at herr hc
      exact ih herr call hc

lemma edgeCreatePhase_ok_calls (B : EdgeBehavior) (zoneId : Nat)
    (dryRun : Bool) :
    ∀ rules : List EdgeRule,
      (edgeCreatePhase B zoneId dryRun rules).err = none →
      ∀ call ∈ (edgeCreatePhase B zoneId dryRun rules).trace,
        edgeCallErr B call = none := by
  intro rules
  induction rules with
  | nil => intro _ call hc; simp [edgeCreatePhase] at hc
  | cons rule rest ih =>
    rw [edgeCreatePhase]
    cases dryRun with
    | true =>
      intro herr call hc
      simp only at herr hc
      exact ih herr call hc
    | false =>
      rcases he : B.addOrUpdateErr rule with _ | e
      · simp only [he]
        intro herr call hc
        rcases List.mem_cons.mp hc with hc | hc
        · subst hc; simpa [edgeCallErr] using he
        · exact ih herr call hc
      · simp only [he]
        intro herr
        simp at herr

/-- A successful edge-rule sync implies every issued call succeeded: the
edge-rule reconciler recovers from no remote-call failure. -/
lemma edgeSyncRules_ok_calls (B : EdgeBehavior) (zoneId : Nat)
    (cur : List EdgeRule) (cfgs : List LogicalRule) (dryRun : Bool)
    (r : EdgeReport)
    (hok : (edgeSyncRules B zoneId cur cfgs dryRun).result = .ok r) :
    ∀ call ∈ (edgeSyncRules B zoneId cur cfgs dryRun).trace,
      edgeCallErr B call = none := by
  intro call hc
  simp only [edgeSyncRules] at hok hc
  rcases hdel : (edgeDeletePhase B zoneId dryRun cur).err with _ | e
  · simp only [hdel] at hok hc
    rcases hcr : (edgeCreatePhase B zoneId dryRun
        (cfgs.flatMap encodeRule)).err with _ | e
    · simp only [hcr] at hok hc
      rcases List.mem_append.mp hc with hc | hc
      · exact edgeDeletePhase_ok_calls B zoneId dryRun cur hdel call hc
      · exact edgeCreatePhase_ok_calls B zoneId dryRun _ hcr call hc
    · simp only [hcr] at hok
      exact absurd hok (by simp)
  · simp only [hdel] at hok
    exact absurd hok (by simp)

/-! ### Python string primitives

Implemented structurally over the character list (rather than through
`String.toUpper`/`String.splitOn`, whose position-based recursion does not
reduce in the kernel); behaviour matches the Python methods on ASCII data,
which is the domain of DNS names, record types and addresses. -/

/-- Python `str.lower()`. -/
def strLower (s : String) : String := String.mk (s.data.map Char.toLower)

/-- Python `str.upper()`. -/
def strUpper (s : String) : String := String.mk (s.data.map Char.toUpper)

/-- Python whitespace as stripped by `str.strip()`. -/
def isPySpace (c : Char) : Bool :=
  c = ' ' ∨ c = '\t' ∨ c = '\n' ∨ c = '\r' ∨ c = '\x0b' ∨ c = '\x0c'

/-- Python `str.strip()`. -/
def strStrip (s : String) : String :=
  String.mk (((s.data.dropWhile isPySpace).reverse.dropWhile isPySpace).reverse)

/-- Python `str.split(sep)` for a one-character separator, on char lists. -/
def splitOnChar (sep : Char) (cs : List Char) : List (List Char) :=
  cs.foldr
    (fun c acc =>
      match acc with
      | g :: gs => if c = sep then [] :: g :: gs else (c :: g) :: gs
      | [] => [[c]])
    [[]]

/-- Python `str.split(sep)` for a one-character separator. -/
def splitStr (sep : Char) (s : String) : List String :=
  (splitOnChar sep s.data).map String.mk

/-- Python `sep.join(parts)` for a one-character separator. -/
def joinStr (sep : Char) (parts : List String) : String :=
  String.mk (List.intercalate [sep] (parts.map (·.data)))

/-! ## DNS records: `dns_manager.py`

`DNSRecord._normalize_value` canonicalizes AAAA values through
`ipaddress.IPv6Address`; the parser and the compressed renderer below
follow CPython's `_ip_int_from_string` / `_string_from_ip`.  Scoped
addresses (`%zone`) are modelled as unparseable. -/

/-- Value of one hex digit. -/
def hexVal (c : Char) : Option Nat :=
  if '0' ≤ c ∧ c ≤ '9' then some (c.toNat - 48)
  else if 'a' ≤ c ∧ c ≤ 'f' then some (c.toNat - 87)
  else if 'A' ≤ c ∧ c ≤ 'F' then some (c.toNat - 55)
  else none

/-- `_parse_hextet`: 1 to 4 hex digits. -/
def parseHextet (s : String) : Option Nat :=
  if s.data.length = 0 ∨ s.data.length > 4 then none
  else s.data.foldl (fun acc c => acc.bind fun v => (hexVal c).map fun d => v * 16 + d)
    (some 0)

/-- `_parse_octet`: 1 to 3 decimal digits, no leading zero, at most 255. -/
def parseOctet (s : String) : Option Nat :=
  let cs := s.data
  if cs.length = 0 ∨ cs.length > 3 then none
  else if ¬ cs.all Char.isDigit then none
  else if cs.length > 1 ∧ cs.head? = some '0' then none
  else
    let v := cs.foldl (fun a c => a * 10 + (c.toNat - 48)) 0
    if v > 255 then none else some v

/-- A trailing dotted quad, converted to the two 16-bit groups it encodes. -/
def parseIPv4Tail (s : String) : Option (Nat × Nat) :=
  match splitStr '.' s with
  | [a, b, c, d] =>
    match parseOctet a, parseOctet b, parseOctet c, parseOctet d with
    | some va, some vb, some vc, some vd => some (va * 256 + vb, vc * 256 + vd)
    | _, _, _, _ => none
  | _ => none

/-- One lowercase hex digit character. -/
def hexDigitChar (n : Nat) : Char :=
  if n < 10 then Char.ofNat (48 + n) else Char.ofNat (87 + n)

/-- Lowercase hex rendering without leading zeros, with explicit fuel. -/
def hexCharsAux : Nat → Nat → List Char
  | 0, _ => []
  | fuel + 1, n =>
    if n < 16 then [hexDigitChar n]
    else hexCharsAux fuel (n / 16) ++ [hexDigitChar (n % 16)]

/-- Lowercase hex rendering without leading zeros (`'%x' % n`). -/
def hexChars (n : Nat) : List Char := hexCharsAux (n + 1) n

/-- Lowercase hex rendering as a string. -/
def hexRender (n : Nat) : String := String.mk (hexChars n)

/-- CPython `_ip_int_from_string` for IPv6, returning the eight 16-bit
groups. -/
def parseIPv6Groups (s : String) : Option (List Nat) :=
  if s.data.contains '%' then none
  else
    let parts := splitStr ':' s
    if parts.length < 3 then none
    else
      let lastPart := (parts.getLast?).getD ""
      let partsOpt : Option (List String) :=
        if lastPart.data.contains '.' then
          match parseIPv4Tail lastPart with
          | some (hi, lo) => some (parts.dropLast ++ [hexRender hi, hexRender lo])
          | none => none
        else some parts
      match partsOpt with
      | none => none
      | some fullParts =>
        if fullParts.length > 9 then none
        else
          let interior := (fullParts.drop 1).dropLast
          let emptyCount := interior.countP (fun p => p = "")
          if emptyCount > 1 then none
          else if emptyCount = 1 then
            let skipIdx := 1 + interior.findIdx (fun p => p = "")
            let firstEmpty := (fullParts.head?).getD "x" = ""
            let lastEmpty := (fullParts.getLast?).getD "x" = ""
            let partsHi := if firstEmpty then skipIdx - 1 else skipIdx
            if firstEmpty ∧ partsHi ≠ 0 then none
            else
              let partsLo0 := fullParts.length - skipIdx - 1
              let partsLo := if lastEmpty then partsLo0 - 1 else partsLo0
              if lastEmpty ∧ partsLo ≠ 0 then none
              else if 8 - (partsHi + partsLo) < 1 ∨ partsHi + partsLo > 7 then none
              else
                match (fullParts.take partsHi).mapM parseHextet,
                    (fullParts.drop (fullParts.length - partsLo)).mapM parseHextet with
                | some hi, some lo =>
                  some (hi ++ List.replicate (8 - (partsHi + partsLo)) 0 ++ lo)
                | _, _ => none
          else
            if fullParts.length ≠ 8 then none
            else if (fullParts.head?).getD "" = "" then none
            else if (fullParts.getLast?).getD "" = "" then none
            else fullParts.mapM parseHextet

/-- The running state of CPython `_compress_hextets`' best-zero-run scan. -/
def bestRunAux : List String → Nat → Option Nat → Nat → Option Nat → Nat →
    Option Nat × Nat
  | [], _, _, _, bestStart, bestLen => (bestStart, bestLen)
  | h :: t, idx, curStart, curLen, bestStart, bestLen =>
    if h = "0" then
      let cs := curStart.getD idx
      let cl := curLen + 1
      if cl > bestLen then bestRunAux t (idx + 1) (some cs) cl (some cs) cl
      else bestRunAux t (idx + 1) (some cs) cl bestStart bestLen
    else bestRunAux t (idx + 1) none 0 bestStart bestLen

/-- CPython `_compress_hextets`: collapse the first longest run of at least
two zero groups into the empty marker that renders as `::`. -/
def compressHextets (hs : List String) : List String :=
  match bestRunAux hs 0 none 0 none 0 with
  | (some start, len) =>
    if len > 1 then
      let fin := start + len
      let hs1 := if fin = hs.length then hs ++ [""] else hs
      let hs2 := hs1.take start ++ [""] ++ hs1.drop fin
      if start = 0 then "" :: hs2 else hs2
    else hs
  | (none, _) => hs

/-- CPython `_string_from_ip`, i.e. `str(ipaddress.IPv6Address(...))`:
compressed lowercase canonical form. -/
def renderIPv6 (groups : List Nat) : String :=
  joinStr ':' (compressHextets (groups.map hexRender))

/-- `DNSRecord._normalize_name`: lowercase, strip, `"@"` ↦ `""`. -/
def normalizeName (name : String) : String :=
  let n := strStrip (strLower name)
  if n = "@" then "" else n

/-- `DNSRecord._normalize_value`: canonical IPv6 expansion for AAAA values
(unparseable values pass through unchanged), identity otherwise. -/
def normalizeValue (value : String) (recordType : String) : String :=
  if strUpper recordType = "AAAA" then
    match parseIPv6Groups value with
    | some gs => renderIPv6 gs
    | none => value
  else value

/-- `DNSRecord` dataclass. -/
structure DNSRecord where
  type : String
  name : String
  value : String
  ttl : Int
  priority : Option Int
  weight : Option Int
  port : Option Int
  id : Option Nat
  deriving DecidableEq, Repr

/-- `DNSRecord.matches`: same type (case-insensitive), same normalized
name, same normalized value. -/
def DNSRecord.matches (self other : DNSRecord) : Bool :=
  (strUpper self.type == strUpper other.type) &&
  (normalizeName self.name == normalizeName other.name) &&
  (normalizeValue self.value self.type == normalizeValue other.value other.type)

/-- `DNSRecord._normalize_optional`: `None` and `0` are equivalent. -/
def normalizeOptional (v : Option Int) : Int := v.getD 0

/-- `DNSRecord.needs_update`: matching records that differ in ttl or in a
normalized optional numeric field. -/
def DNSRecord.needs_update (self other : DNSRecord) : Bool :=
  if ¬ self.matches other then false
  else
    (self.ttl != other.ttl) ||
    (normalizeOptional self.priority != normalizeOptional other.priority) ||
    (normalizeOptional self.weight != normalizeOptional other.weight) ||
    (normalizeOptional self.port != normalizeOptional other.port)

/-- C6.  `needsUpdate(desired, actual)` holds iff the records match
(case-insensitive type, normalized names with `"@" ≡ ""`, normalized values
with canonical IPv6 expansion for AAAA) and the ttl differs or one of
priority/weight/port differs after treating absent as 0; in particular it
is false whenever priority/weight/port differ only between absent and 0
with all else equal. -/
theorem claim_needs_update_definition (d a : DNSRecord) :
    (d.needs_update a = true ↔
      ((strUpper d.type = strUpper a.type ∧
        normalizeName d.name = normalizeName a.name ∧
        normalizeValue d.value d.type = normalizeValue a.value a.type) ∧
       (d.ttl ≠ a.ttl ∨
        normalizeOptional d.priority ≠ normalizeOptional a.priority ∨
        normalizeOptional d.weight ≠ normalizeOptional a.weight ∨
        normalizeOptional d.port ≠ normalizeOptional a.port))) ∧
    (d.type = a.type → d.name = a.name → d.value = a.value → d.ttl = a.ttl →
     normalizeOptional d.priority = normalizeOptional a.priority →
     normalizeOptional d.weight = normalizeOptional a.weight →
     normalizeOptional d.port = normalizeOptional a.port →
     d.needs_update a = false) := by
  constructor
  · rw [DNSRecord.needs_update, DNSRecord.matches]
    by_cases h1 : strUpper d.type = strUpper a.type <;>
      by_cases h2 : normalizeName d.name = normalizeName a.name <;>
        by_cases h3 : normalizeValue d.value d.type = normalizeValue a.value a.type <;>
          simp [h1, h2, h3, bne_iff_ne] <;> tauto
  · intro h1 h2 h3 h4 h5 h6 h7
    rw [DNSRecord.needs_update]
    by_cases hm : d.matches a = true
    · simp [hm, h4, h5, h6, h7]
    · simp [hm]

/-- C6 witness: an SRV pair identical except that priority/weight/port are
absent on one side and 0 on the other needs no update, and a matching pair
with a ttl change does. -/
theorem claim_needs_update_definition_witness :
    DNSRecord.needs_update
        ⟨"SRV", "_sip._tcp", "srv.example.com", 300, none, none, none, none⟩
        ⟨"SRV", "_sip._tcp", "srv.example.com", 300, some 0, some 0, some 0, some 7⟩
      = false ∧
    DNSRecord.needs_update
        ⟨"A", "", "1.2.3.4", 300, none, none, none, some 7⟩
        ⟨"A", "@", "1.2.3.4", 600, none, none, none, none⟩
      = true := by
  constructor
  · exact (claim_needs_update_definition
      ⟨"SRV", "_sip._tcp", "srv.example.com", 300, none, none, none, none⟩
      ⟨"SRV", "_sip._tcp", "srv.example.com", 300, some 0, some 0, some 0, some 7⟩).2
      rfl rfl rfl rfl (by decide) (by decide) (by decide)
  · exact (claim_needs_update_definition
      ⟨"A", "", "1.2.3.4", 300, none, none, none, some 7⟩
      ⟨"A", "@", "1.2.3.4", 600, none, none, none, none⟩).1.mpr
      (by constructor
          · exact ⟨by decide, by decide, by decide⟩
          · exact Or.inl (by decide))

/-! ## DNS zone sync: `DNSManager.sync_zone` -/

/-- Mutating remote calls the DNS reconciler can issue (ids as carried by
the dataclass fields). -/
inductive DnsCall where
  | createZone (domain : String)
  | addRecord (zoneId : Option Nat) (record : DNSRecord)
  | updateRecord (zoneId : Option Nat) (recordId : Option Nat) (record : DNSRecord)
  | deleteRecord (zoneId : Option Nat) (recordId : Option Nat)
  deriving DecidableEq, Repr

/-- Failure oracle for the DNS reconciler's mutating calls. -/
structure DnsBehavior where
  createZoneErr : String → Option ApiError
  addRecordErr : DNSRecord → Option ApiError
  updateRecordErr : Option Nat → DNSRecord → Option ApiError
  deleteRecordErr : Option Nat → Option ApiError

/-- The behaviour where every remote call succeeds. -/
def noFailDns : DnsBehavior :=
  ⟨fun _ => none, fun _ => none, fun _ _ => none, fun _ => none⟩

/-- The report line `f"{rec.type} {rec.name} -> {rec.value}"`. -/
def descStr (r : DNSRecord) : String :=
  r.type ++ " " ++ r.name ++ " -> " ++ r.value

/-- First current record matching a desired record — the inner
`for current_rec in current` scan of `sync_zone`. -/
def findMatch (current : List DNSRecord) (d : DNSRecord) : Option DNSRecord :=
  current.find? (fun c => d.matches c)

/-- How `sync_zone` classifies one desired record against the listed
current records: no match → create; first match needing an update →
update (consuming that record's id); first match needing none →
unchanged. -/
inductive RecClass where
  | create
  | update (c : DNSRecord)
  | unchanged (c : DNSRecord)
  deriving DecidableEq, Repr

/-- Classification of one desired record. -/
def classifyRec (current : List DNSRecord) (d : DNSRecord) : RecClass :=
  match findMatch current d with
  | none => .create
  | some c => if c.needs_update d then .update c else .unchanged c

/-- Remote effect of `update_record`: the record with that id is replaced. -/
def updateById (st : List DNSRecord) (rid : Option Nat) (r : DNSRecord) :
    List DNSRecord :=
  st.map (fun x => if x.id = rid then r else x)

/-- Remote effect of `delete_record`: the record with that id is removed. -/
def removeById (st : List DNSRecord) (rid : Option Nat) : List DNSRecord :=
  st.filter (fun x => ¬ x.id = rid)

/-- Accumulated output of the create/update loop of `sync_zone`. -/
structure DnsPhaseOut where
  created : List String
  updated : List String
  unchanged : List String
  consumed : List (Option Nat)
  trace : List DnsCall
  state : List DNSRecord
  nextId : Nat
  err : Option ApiError
  deriving Repr

/-- The `for desired_rec in desired` loop of `sync_zone`: classify each
desired record against the snapshot, record the report entry and consumed
id, and issue the add/update call when live (`st` is the evolving remote
record list; fresh ids are drawn from `nid`). -/
def processDesired (B : DnsBehavior) (zoneId : Option Nat) (dryRun : Bool)
    (snapshot : List DNSRecord) :
    List DNSRecord → List DNSRecord → Nat → DnsPhaseOut
  | [], st, nid => ⟨[], [], [], [], [], st, nid, none⟩
  | d :: rest, st, nid =>
    match classifyRec snapshot d with
    | .update c =>
      if dryRun then
        let o := processDesired B zoneId dryRun snapshot rest st nid
        { o with updated := descStr d :: o.updated, consumed := c.id :: o.consumed }
      else
        match B.updateRecordErr c.id { d with id := c.id } with
        | some e =>
          ⟨[], [descStr d], [], [c.id],
           [.updateRecord zoneId c.id { d with id := c.id }], st, nid, some e⟩
        | none =>
          let o := processDesired B zoneId dryRun snapshot rest
            (updateById st c.id { d with id := c.id }) nid
          { o with updated := descStr d :: o.updated, consumed := c.id :: o.consumed,
                   trace := .updateRecord zoneId c.id { d with id := c.id } :: o.trace }
    | .unchanged c =>
      let o := processDesired B zoneId dryRun snapshot rest st nid
      { o with unchanged := descStr d :: o.unchanged, consumed := c.id :: o.consumed }
    | .create =>
      if dryRun then
        let o := processDesired B zoneId dryRun snapshot rest st nid
        { o with created := descStr d :: o.created }
      else
        match B.addRecordErr d with
        | some e => ⟨[descStr d], [], [], [], [.addRecord zoneId d], st, nid, some e⟩
        | none =>
          let o := processDesired B zoneId dryRun snapshot rest
            (st ++ [{ d with id := some nid }]) (nid + 1)
          { o with created := descStr d :: o.created,
                   trace := .addRecord zoneId d :: o.trace }

/-- Accumulated output of the delete loop of `sync_zone`. -/
structure DnsDelOut where
  deleted : List String
  trace : List DnsCall
  state : List DNSRecord
  err : Option ApiError
  deriving Repr

/-- The delete loop of `sync_zone`: every snapshot record whose id was
never consumed is reported deleted and, when live, removed remotely. -/
def processDeletes (B : DnsBehavior) (zoneId : Option Nat) (dryRun : Bool)
    (consumed : List (Option Nat)) :
    List DNSRecord → List DNSRecord → DnsDelOut
  | [], st => ⟨[], [], st, none⟩
  | c :: rest, st =>
    if c.id ∈ consumed then processDeletes B zoneId dryRun consumed rest st
    else
      if dryRun then
        let o := processDeletes B zoneId dryRun consumed rest st
        { o with deleted := descStr c :: o.deleted }
      else
        match B.deleteRecordErr c.id with
        | some e => ⟨[descStr c], [.deleteRecord zoneId c.id], st, some e⟩
        | none =>
          let o := processDeletes B zoneId dryRun consumed rest (removeById st c.id)
          { o with deleted := descStr c :: o.deleted,
                   trace := .deleteRecord zoneId c.id :: o.trace }

/-- The four report lists of the record-level part of `sync_zone`. -/
structure RecsLists where
  created : List String
  updated : List String
  deleted : List String
  unchanged : List String
  deriving DecidableEq, Repr

/-- Outcome of the record-level part of `sync_zone`. -/
structure DnsRecsOutcome where
  trace : List DnsCall
  state : List DNSRecord
  nextId : Nat
  result : Except ApiError RecsLists
  deriving Repr

/-- Record-level `sync_zone` against an existing zone: run the
create/update loop over the snapshot, then (when `delete_extra`) delete the
unconsumed records. -/
def syncRecords (B : DnsBehavior) (zoneId : Option Nat)
    (dryRun deleteExtra : Bool) (snapshot desired : List DNSRecord)
    (nid : Nat) : DnsRecsOutcome :=
  let ph := processDesired B zoneId dryRun snapshot desired snapshot nid
  match ph.err with
  | some e => ⟨ph.trace, ph.state, ph.nextId, .error e⟩
  | none =>
    if deleteExtra then
      let del := processDeletes B zoneId dryRun ph.consumed snapshot ph.state
      match del.err with
      | some e => ⟨ph.trace ++ del.trace, del.state, ph.nextId, .error e⟩
      | none =>
        ⟨ph.trace ++ del.trace, del.state, ph.nextId,
         .ok ⟨ph.created, ph.updated, del.deleted, ph.unchanged⟩⟩
    else
      ⟨ph.trace, ph.state, ph.nextId,
       .ok ⟨ph.created, ph.updated, [], ph.unchanged⟩⟩

/-- `DNSZone` dataclass (remote state: id present, records listed). -/
structure DnsZone where
  domain : String
  id : Option Nat
  records : List DNSRecord
  deriving DecidableEq, Repr

/-- `get_zone_by_domain`: first zone whose domain matches
case-insensitively. -/
def findZone (zones : List DnsZone) (domain : String) : Option DnsZone :=
  zones.find? (fun z => strLower z.domain == strLower domain)

/-- The report dict of `DNSManager.sync_zone` (`zone_created` is a key only
present after a zone creation; modelled as a flag). -/
structure DnsReport where
  zone : String
  created : List String
  updated : List String
  deleted : List String
  unchanged : List String
  zone_created : Bool
  deriving DecidableEq, Repr

/-- Outcome of one full `DNSManager.sync_zone` run against a remote state
(the list of zones); fresh zone/record ids are drawn from the counters. -/
structure DnsZoneOutcome where
  trace : List DnsCall
  zones : List DnsZone
  nextZoneId : Nat
  nextRecId : Nat
  result : Except ApiError DnsReport
  deriving Repr

/-- `DNSManager.sync_zone`: resolve the zone by domain; absent + dry-run →
report all desired records as created without touching the remote; absent +
live → create an empty zone, then run the record-level sync; present → run
the record-level sync against its records. -/
def dnsSyncZone (B : DnsBehavior) (domain : String)
    (desired : List DNSRecord) (dryRun deleteExtra : Bool)
    (zones : List DnsZone) (nextZoneId nextRecId : Nat) : DnsZoneOutcome :=
  match findZone zones domain with
  | none =>
    if dryRun then
      { trace := []
        zones := zones
        nextZoneId := nextZoneId
        nextRecId := nextRecId
        result := .ok ⟨domain, desired.map descStr, [], [], [], true⟩ }
    else
      match B.createZoneErr domain with
      | some e =>
        { trace := [.createZone domain]
          zones := zones
          nextZoneId := nextZoneId
          nextRecId := nextRecId
          result := .error e }
      | none =>
        let z : DnsZone := ⟨domain, some nextZoneId, []⟩
        let o := syncRecords B z.id dryRun deleteExtra z.records desired nextRecId
        { trace := .createZone domain :: o.trace
          zones := (zones ++ [z]).map
            (fun w => if w.id = z.id then { w with records := o.state } else w)
          nextZoneId := nextZoneId + 1
          nextRecId := o.nextId
          result :=
            match o.result with
            | .error e => .error e
            | .ok ls => .ok ⟨domain, ls.created, ls.updated, ls.deleted,
                ls.unchanged, true⟩ }
  | some z =>
    let o := syncRecords B z.id dryRun deleteExtra z.records desired nextRecId
    { trace := o.trace
      zones := zones.map
        (fun w => if w.id = z.id then { w with records := o.state } else w)
      nextZoneId := nextZoneId
      nextRecId := o.nextId
      result :=
        match o.result with
        | .error e => .error e
        | .ok ls => .ok ⟨domain, ls.created, ls.updated, ls.deleted,
            ls.unchanged, false⟩ }

/-! ### Characterization of the record-level sync under the all-success
behaviour -/

/-- Does the desired record classify as a creation? -/
def isCreateB (snapshot : List DNSRecord) (d : DNSRecord) : Bool :=
  match classifyRec snapshot d with
  | .create => true
  | _ => false

/-- Does the desired record classify as an update? -/
def isUpdateB (snapshot : List DNSRecord) (d : DNSRecord) : Bool :=
  match classifyRec snapshot d with
  | .update _ => true
  | _ => false

/-- Does the desired record classify as unchanged? -/
def isUnchangedB (snapshot : List DNSRecord) (d : DNSRecord) : Bool :=
  match classifyRec snapshot d with
  | .unchanged _ => true
  | _ => false

/-- The ids consumed by the create/update loop: for each desired record the
id of its first match, if any. -/
def consumedOf (snapshot ds : List DNSRecord) : List (Option Nat) :=
  ds.filterMap fun d => (findMatch snapshot d).map (·.id)

/-- The remote record list and fresh-id counter after the live
create/update loop. -/
def phaseAState (snapshot : List DNSRecord) :
    List DNSRecord → List DNSRecord → Nat → List DNSRecord × Nat
  | [], st, nid => (st, nid)
  | d :: rest, st, nid =>
    match classifyRec snapshot d with
    | .create => phaseAState snapshot rest (st ++ [{ d with id := some nid }]) (nid + 1)
    | .update c => phaseAState snapshot rest (updateById st c.id { d with id := c.id }) nid
    | .unchanged _ => phaseAState snapshot rest st nid

/-- The calls issued by the live create/update loop. -/
def phaseATrace (zoneId : Option Nat) (snapshot : List DNSRecord) :
    List DNSRecord → List DnsCall
  | [] => []
  | d :: rest =>
    match classifyRec snapshot d with
    | .create => .addRecord zoneId d :: phaseATrace zoneId snapshot rest
    | .update c =>
      .updateRecord zoneId c.id { d with id := c.id } :: phaseATrace zoneId snapshot rest
    | .unchanged _ => phaseATrace zoneId snapshot rest

lemma processDesired_noFail (zoneId : Option Nat) (dryRun : Bool)
    (snapshot : List DNSRecord) :
    ∀ (ds st : List DNSRecord) (nid : Nat),
      processDesired noFailDns zoneId dryRun snapshot ds st nid =
        ⟨(ds.filter (isCreateB snapshot)).map descStr,
         (ds.filter (isUpdateB snapshot)).map descStr,
         (ds.filter (isUnchangedB snapshot)).map descStr,
         consumedOf snapshot ds,
         if dryRun then [] else phaseATrace zoneId snapshot ds,
         if dryRun then st else (phaseAState snapshot ds st nid).1,
         if dryRun then nid else (phaseAState snapshot ds st nid).2,
         none⟩ := by
  intro ds
  induction ds with
  | nil =>
    intro st nid
    cases dryRun <;>
      simp [processDesired, consumedOf, phaseATrace, phaseAState]
  | cons d rest ih =>
    intro st nid
    rw [processDesired]
    rcases hcl : classifyRec snapshot d with _ | c | c
    · -- create
      have hfm : findMatch snapshot d = none := by
        rw [classifyRec] at hcl
        rcases hf : findMatch snapshot d with _ | c
        · rfl
        · rw [hf] at hcl
          by_cases hu : c.needs_update d = true <;> simp [hu] at hcl
      cases dryRun with
      | true =>
        simp only [if_true]
        rw [ih]
        simp [isCreateB, isUpdateB, isUnchangedB, hcl, consumedOf, hfm, descStr]
      | false =>
        simp only [Bool.false_eq_true, if_false, noFailDns] at ih ⊢
        rw [ih]
        simp [isCreateB, isUpdateB, isUnchangedB, hcl, consumedOf, hfm,
          phaseATrace, phaseAState]
    · -- update
      cases dryRun with
      | true =>
        simp only [if_true]
        rw [ih]
        have hfm : findMatch snapshot d = some c := by
          rw [classifyRec] at hcl
          rcases hf : findMatch snapshot d with _ | c'
          · rw [hf] at hcl; simp at hcl
          · rw [hf] at hcl
            by_cases hu : c'.needs_update d = true <;> simp [hu] at hcl
            · simp [hcl]
        simp [isCreateB, isUpdateB, isUnchangedB, hcl, consumedOf, hfm]
      | false =>
        simp only [Bool.false_eq_true, if_false, noFailDns] at ih ⊢
        rw [ih]
        have hfm : findMatch snapshot d = some c := by
          rw [classifyRec] at hcl
          rcases hf : findMatch snapshot d with _ | c'
          · rw [hf] at hcl; simp at hcl
          · rw [hf] at hcl
            by_cases hu : c'.needs_update d = true <;> simp [hu] at hcl
            · simp [hcl]
        simp [isCreateB, isUpdateB, isUnchangedB, hcl, consumedOf, hfm,
          phaseATrace, phaseAState]
    · -- unchanged
      have hfm : findMatch snapshot d = some c := by
        rw [classifyRec] at hcl
        rcases hf : findMatch snapshot d with _ | c'
        · rw [hf] at hcl; simp at hcl
        · rw [hf] at hcl
          by_cases hu : c'.needs_update d = true <;> simp [hu] at hcl
          · simp [hcl]
      rw [ih]
      cases dryRun <;>
        simp [isCreateB, isUpdateB, isUnchangedB, hcl, consumedOf, hfm,
          phaseATrace, phaseAState]

/-- The snapshot records whose id was never consumed. -/
def unconsumed (consumed : List (Option Nat)) (snap : List DNSRecord) :
    List DNSRecord :=
  snap.filter (fun c => decide (c.id ∉ consumed))

/-- The remote record list after the live delete loop. -/
def delStateB (consumed : List (Option Nat)) (snap st : List DNSRecord) :
    List DNSRecord :=
  st.filter (fun r =>
    !(snap.any (fun c => decide (c.id ∉ consumed) && (r.id == c.id))))

lemma processDeletes_noFail (zoneId : Option Nat) (dryRun : Bool)
    (consumed : List (Option Nat)) :
    ∀ (snap st : List DNSRecord),
      processDeletes noFailDns zoneId dryRun consumed snap st =
        ⟨(unconsumed consumed snap).map descStr,
         if dryRun then [] else
           (unconsumed consumed snap).map (fun c => .deleteRecord zoneId c.id),
         if dryRun then st else delStateB consumed snap st,
         none⟩ := by
  intro snap
  induction snap with
  | nil =>
    intro st
    cases dryRun <;> simp [processDeletes, unconsumed, delStateB]
  | cons c rest ih =>
    intro st
    rw [processDeletes]
    by_cases hm : c.id ∈ consumed
    · rw [if_pos hm, ih]
      have h1 : unconsumed consumed (c :: rest) = unconsumed consumed rest := by
        simp [unconsumed, List.filter_cons, hm]
      have h2 : ∀ st', delStateB consumed (c :: rest) st' =
          delStateB consumed rest st' := by
        intro st'
        simp [delStateB, List.any_cons, hm]
      cases dryRun <;> simp [h1, h2]
    · rw [if_neg hm]
      have h1 : unconsumed consumed (c :: rest) = c :: unconsumed consumed rest := by
        simp [unconsumed, List.filter_cons, hm]
      cases dryRun with
      | true =>
        simp only [if_true]
        rw [ih]
        simp [h1]
      | false =>
        simp only [Bool.false_eq_true, if_false, noFailDns] at ih ⊢
        rw [ih]
        have h2 : delStateB consumed rest (removeById st c.id) =
            delStateB consumed (c :: rest) st := by
          rw [delStateB, delStateB, removeById, List.filter_filter]
          apply List.filter_congr
          intro r _
          simp only [List.any_cons, Bool.not_or]
          by_cases hrc : r.id = c.id <;> simp [hrc, hm, Bool.and_comm]
        simp [h1, h2]

lemma syncRecords_noFail (zoneId : Option Nat) (dryRun deleteExtra : Bool)
    (snapshot desired : List DNSRecord) (nid : Nat) :
    syncRecords noFailDns zoneId dryRun deleteExtra snapshot desired nid =
      ⟨(if dryRun then [] else phaseATrace zoneId snapshot desired) ++
         (if deleteExtra then
            if dryRun then [] else
              (unconsumed (consumedOf snapshot desired) snapshot).map
                (fun c => .deleteRecord zoneId c.id)
          else []),
       if dryRun then snapshot else
         if deleteExtra then
           delStateB (consumedOf snapshot desired) snapshot
             (phaseAState snapshot desired snapshot nid).1
         else (phaseAState snapshot desired snapshot nid).1,
       if dryRun then nid else (phaseAState snapshot desired snapshot nid).2,
       .ok ⟨(desired.filter (isCreateB snapshot)).map descStr,
            (desired.filter (isUpdateB snapshot)).map descStr,
            if deleteExtra then
              (unconsumed (consumedOf snapshot desired) snapshot).map descStr
            else [],
            (desired.filter (isUnchangedB snapshot)).map descStr⟩⟩ := by
  rw [syncRecords]
  rw [processDesired_noFail]
  cases deleteExtra with
  | false => cases dryRun <;> simp
  | true =>
    simp only [if_true]
    rw [processDeletes_noFail]
    cases dryRun <;> simp

lemma phaseATrace_update_mem (zoneId : Option Nat) (snapshot : List DNSRecord) :
    ∀ (ds : List DNSRecord) (d c : DNSRecord), d ∈ ds →
      findMatch snapshot d = some c → c.needs_update d = true →
      DnsCall.updateRecord zoneId c.id { d with id := c.id } ∈
        phaseATrace zoneId snapshot ds := by
  intro ds
  induction ds with
  | nil => intro d c hd; simp at hd
  | cons d0 rest ih =>
    intro d c hd hf hu
    rw [phaseATrace]
    rcases List.mem_cons.mp hd with hd | hd
    · subst hd
      have hcl : classifyRec snapshot d = .update c := by
        simp [classifyRec, hf, hu]
      rw [hcl]
      exact List.mem_cons_self _ _
    · have := ih d c hd hf hu
      rcases hcl : classifyRec snapshot d0 with _ | c0 | c0 <;>
        simp [this]

/-- C2.  DNS zone sync classification: each desired record is compared
against the listed current records in order and its first match consumes
that record's id; a matched pair needing an update lands in `updated` (and
the live update call targets the matched record's id), a matched pair
needing none lands in `unchanged`, an unmatched desired record lands in
`created`, and a current record whose id was never consumed lands in
`deleted` exactly when `delete_extra` is set. -/
theorem claim_dns_sync_classification (snapshot desired : List DNSRecord)
    (zoneId : Option Nat) (deleteExtra : Bool) (nid : Nat) :
    (syncRecords noFailDns zoneId false deleteExtra snapshot desired nid).result =
      .ok ⟨(desired.filter (fun d => (findMatch snapshot d).isNone)).map descStr,
           (desired.filter (fun d =>
             match findMatch snapshot d with
             | some c => c.needs_update d
             | none => false)).map descStr,
           if deleteExtra then
             (snapshot.filter
               (fun c => decide (c.id ∉ consumedOf snapshot desired))).map descStr
           else [],
           (desired.filter (fun d =>
             match findMatch snapshot d with
             | some c => !c.needs_update d
             | none => false)).map descStr⟩ ∧
    (∀ d c, d ∈ desired → findMatch snapshot d = some c →
      c.needs_update d = true →
      DnsCall.updateRecord zoneId c.id { d with id := c.id } ∈
        (syncRecords noFailDns zoneId false deleteExtra snapshot desired nid).trace) := by
  rw [syncRecords_noFail]
  constructor
  · simp only [unconsumed]
    congr 2
    · congr 1
      apply List.filter_congr
      intro d _
      rw [isCreateB, classifyRec]
      rcases hf : findMatch snapshot d with _ | c
      · simp
      · by_cases hu : c.needs_update d = true <;> simp [hu]
    · congr 1
      apply List.filter_congr
      intro d _
      rw [isUpdateB, classifyRec]
      rcases hf : findMatch snapshot d with _ | c
      · simp
      · by_cases hu : c.needs_update d = true <;> simp [hu]
    · congr 1
      apply List.filter_congr
      intro d _
      rw [isUnchangedB, classifyRec]
      rcases hf : findMatch snapshot d with _ | c
      · simp
      · by_cases hu : c.needs_update d = true <;> simp [hu]
  · intro d c hd hf hu
    simp only [Bool.false_eq_true, if_false, List.mem_append]
    exact Or.inl (phaseATrace_update_mem zoneId snapshot desired d c hd hf hu)

/-- C2 witness: the spec scenario — desired `A @ -> 1.2.3.4` with ttl 600
against remote `A "" -> 1.2.3.4` with ttl 300 and id 7 reports one updated
entry and issues the update call against id 7 with the new ttl. -/
theorem claim_dns_sync_classification_witness :
    (syncRecords noFailDns (some 1) false true
        [⟨"A", "", "1.2.3.4", 300, none, none, none, some 7⟩]
        [⟨"A", "@", "1.2.3.4", 600, none, none, none, none⟩] 10).result =
      .ok ⟨[], ["A @ -> 1.2.3.4"], [], []⟩ ∧
    DnsCall.updateRecord (some 1) (some 7)
        ⟨"A", "@", "1.2.3.4", 600, none, none, none, some 7⟩ ∈
      (syncRecords noFailDns (some 1) false true
        [⟨"A", "", "1.2.3.4", 300, none, none, none, some 7⟩]
        [⟨"A", "@", "1.2.3.4", 600, none, none, none, none⟩] 10).trace := by
  have h := claim_dns_sync_classification
    [⟨"A", "", "1.2.3.4", 300, none, none, none, some 7⟩]
    [⟨"A", "@", "1.2.3.4", 600, none, none, none, none⟩]
    (some 1) true 10
  constructor
  · rw [h.1]
    congr 1
  · exact h.2 ⟨"A", "@", "1.2.3.4", 600, none, none, none, none⟩
      ⟨"A", "", "1.2.3.4", 300, none, none, none, some 7⟩
      (by simp) (by decide) (by decide)

/-! ### DNS sync idempotence -/

/-- The identity of a DNS record for matching purposes: case-folded type,
normalized name, normalized value. -/
def matchKey (r : DNSRecord) : String × String × String :=
  (strUpper r.type, normalizeName r.name, normalizeValue r.value r.type)

lemma matches_iff_key {a b : DNSRecord} :
    a.matches b = true ↔ matchKey a = matchKey b := by
  rw [DNSRecord.matches, matchKey, matchKey]
  simp [Prod.ext_iff]
  tauto

lemma matchKey_set_id (d : DNSRecord) (x : Option Nat) :
    matchKey { d with id := x } = matchKey d := rfl

lemma matches_self (d : DNSRecord) : d.matches d = true :=
  matches_iff_key.mpr rfl

lemma needs_update_set_id (d : DNSRecord) (x : Option Nat) :
    ({ d with id := x } : DNSRecord).needs_update d = false := by
  rw [DNSRecord.needs_update]
  simp [matches_self]

/-- Which desired record (if any) replaced the record with a given id
during the create/update loop: the first desired record whose first match
has that id and needs an update. -/
def replFn (snapshot ds : List DNSRecord) (r : DNSRecord) : DNSRecord :=
  match ds.find? (fun d =>
    match findMatch snapshot d with
    | some c => c.id == r.id && c.needs_update d
    | none => false) with
  | some d => { d with id := r.id }
  | none => r

lemma replFn_id (snapshot ds : List DNSRecord) (r : DNSRecord) :
    (replFn snapshot ds r).id = r.id := by
  rw [replFn]
  rcases h : ds.find? _ with _ | d <;> simp

/-- The records created by the live create/update loop, with their fresh
ids. -/
def creations (snapshot : List DNSRecord) :
    List DNSRecord → Nat → List DNSRecord
  | [], _ => []
  | d :: rest, nid =>
    match classifyRec snapshot d with
    | .create => { d with id := some nid } :: creations snapshot rest (nid + 1)
    | _ => creations snapshot rest nid

/-- Number of creations. -/
def numCreates (snapshot ds : List DNSRecord) : Nat :=
  (ds.filter (isCreateB snapshot)).length

lemma find?_mem_of_eq_some {p : DNSRecord → Bool} {l : List DNSRecord}
    {c : DNSRecord} (h : l.find? p = some c) : c ∈ l ∧ p c = true :=
  ⟨List.mem_of_find?_eq_some h, List.find?_some h⟩

lemma nodup_id_inj {l : List DNSRecord}
    (hnd : (l.map (·.id)).Nodup) {a b : DNSRecord}
    (ha : a ∈ l) (hb : b ∈ l) (hid : a.id = b.id) : a = b := by
  have := List.inj_on_of_nodup_map hnd
  exact this ha hb hid

lemma findMatch_mem {snapshot : List DNSRecord} {d c : DNSRecord}
    (h : findMatch snapshot d = some c) : c ∈ snapshot ∧ d.matches c = true :=
  find?_mem_of_eq_some h

lemma classify_create_iff {snapshot : List DNSRecord} {d : DNSRecord} :
    classifyRec snapshot d = .create ↔ findMatch snapshot d = none := by
  rcases h : findMatch snapshot d with _ | c
  · simp [classifyRec, h]
  · simp only [classifyRec, h]
    by_cases hu : c.needs_update d = true <;> simp [hu]

lemma classify_update_iff {snapshot : List DNSRecord} {d c : DNSRecord} :
    classifyRec snapshot d = .update c ↔
      findMatch snapshot d = some c ∧ c.needs_update d = true := by
  rcases h : findMatch snapshot d with _ | c'
  · simp [classifyRec, h]
  · simp only [classifyRec, h]
    constructor
    · intro he
      by_cases hu : c'.needs_update d = true
      · rw [if_pos hu] at he
        injection he with hcc
        subst hcc
        exact ⟨rfl, hu⟩
      · rw [if_neg hu] at he
        exact absurd he (by simp)
    · rintro ⟨h1, h2⟩
      have hcc : c' = c := Option.some.inj h1
      subst hcc
      rw [if_pos h2]

lemma classify_unchanged_iff {snapshot : List DNSRecord} {d c : DNSRecord} :
    classifyRec snapshot d = .unchanged c ↔
      findMatch snapshot d = some c ∧ c.needs_update d = false := by
  rcases h : findMatch snapshot d with _ | c'
  · simp [classifyRec, h]
  · simp only [classifyRec, h]
    constructor
    · intro he
      by_cases hu : c'.needs_update d = true
      · rw [if_pos hu] at he
        exact absurd he (by simp)
      · rw [if_neg hu] at he
        injection he with hcc
        subst hcc
        exact ⟨rfl, by simpa using hu⟩
    · rintro ⟨h1, h2⟩
      have hcc : c' = c := Option.some.inj h1
      subst hcc
      rw [if_neg (by simp [h2])]

/-- The predicate of `replFn`: does desired record `d` update the record
with id `rid`? -/
def updatesId (snapshot : List DNSRecord) (rid : Option Nat)
    (d : DNSRecord) : Bool :=
  match findMatch snapshot d with
  | some c => c.id == rid && c.needs_update d
  | none => false

lemma replFn_eq (snapshot ds : List DNSRecord) (r : DNSRecord) :
    replFn snapshot ds r =
      match ds.find? (updatesId snapshot r.id) with
      | some d => { d with id := r.id }
      | none => r := rfl

lemma replFn_cons (snapshot : List DNSRecord) (d : DNSRecord)
    (rest : List DNSRecord) (r : DNSRecord) :
    replFn snapshot (d :: rest) r =
      if updatesId snapshot r.id d then { d with id := r.id }
      else replFn snapshot rest r := by
  rw [replFn_eq, replFn_eq]
  by_cases h : updatesId snapshot r.id d = true
  · rw [List.find?_cons_of_pos _ h, if_pos h]
  · rw [List.find?_cons_of_neg _ (by simpa using h), if_neg h]

lemma replFn_nil (snapshot : List DNSRecord) (r : DNSRecord) :
    replFn snapshot [] r = r := rfl

/-- Under pairwise-distinct desired identities and duplicate-free snapshot
ids, the live create/update loop leaves exactly the in-place replacements
plus the appended creations. -/
lemma phaseAState_closed (snapshot : List DNSRecord)
    (hnd : (snapshot.map (·.id)).Nodup) :
    ∀ (ds st : List DNSRecord) (nid : Nat),
      ds.Pairwise (fun a b => a.matches b = false) →
      (∀ c ∈ snapshot, ∀ n, c.id = some n → n < nid) →
      phaseAState snapshot ds st nid =
        (st.map (replFn snapshot ds) ++ creations snapshot ds nid,
         nid + numCreates snapshot ds) := by
  intro ds
  induction ds with
  | nil =>
    intro st nid _ _
    rw [phaseAState]
    have hmap : st.map (replFn snapshot []) = st := by
      rw [List.map_congr_left (fun r _ => replFn_nil snapshot r)]
      simp
    simp [creations, numCreates, hmap]
  | cons d rest ih =>
    intro st nid hpw hlt
    obtain ⟨hpw1, hpw2⟩ := List.pairwise_cons.mp hpw
    rcases hcl : classifyRec snapshot d with _ | c | c
    · -- create
      simp only [phaseAState, hcl]
      have hfm : findMatch snapshot d = none := classify_create_iff.mp hcl
      have hskip : ∀ r : DNSRecord, updatesId snapshot r.id d = false := by
        intro r; simp only [updatesId, hfm]
      have hnew : replFn snapshot rest { d with id := some nid } =
          { d with id := some nid } := by
        rw [replFn_eq]
        have : rest.find? (updatesId snapshot (some nid)) = none := by
          rw [List.find?_eq_none]
          intro d' _
          simp only [updatesId]
          rcases hf' : findMatch snapshot d' with _ | c'
          · simp
          · have hc' := (findMatch_mem hf').1
            rcases hcid : c'.id with _ | n
            · simp [hcid]
            · have := hlt c' hc' n hcid
              simp [hcid]
              omega
        rw [this]
      rw [ih (st ++ [({ d with id := some nid } : DNSRecord)]) (nid + 1) hpw2
        (fun c hc n hn => Nat.lt_succ_of_lt (hlt c hc n hn))]
      simp only [creations, hcl]
      have hnc : numCreates snapshot (d :: rest) = numCreates snapshot rest + 1 := by
        rw [numCreates, numCreates, List.filter_cons]
        have : isCreateB snapshot d = true := by rw [isCreateB, hcl]
        simp [this]
      rw [hnc]
      have hmap : (st ++ [{ d with id := some nid }]).map (replFn snapshot rest) =
          st.map (replFn snapshot (d :: rest)) ++ [{ d with id := some nid }] := by
        rw [List.map_append]
        congr 1
        · apply List.map_congr_left
          intro r _
          rw [replFn_cons, if_neg (by simp [hskip r])]
        · simp [hnew]
      rw [hmap, Prod.mk.injEq]
      constructor
      · simp
      · omega
    · -- update
      simp only [phaseAState, hcl]
      obtain ⟨hfm, hnu⟩ := classify_update_iff.mp hcl
      have hcmem := (findMatch_mem hfm).1
      have hdc := (findMatch_mem hfm).2
      rw [ih (updateById st c.id ({ d with id := c.id } : DNSRecord)) nid hpw2 hlt]
      simp only [creations, hcl]
      have hnc : numCreates snapshot (d :: rest) = numCreates snapshot rest := by
        rw [numCreates, numCreates, List.filter_cons]
        have : isCreateB snapshot d = false := by rw [isCreateB, hcl]
        simp [this]
      rw [hnc]
      have hmap : (updateById st c.id { d with id := c.id }).map (replFn snapshot rest) =
          st.map (replFn snapshot (d :: rest)) := by
        rw [updateById, List.map_map]
        apply List.map_congr_left
        intro r _
        simp only [Function.comp_apply]
        by_cases hr : r.id = c.id
        · rw [if_pos hr, replFn_cons]
          have hupd : updatesId snapshot r.id d = true := by
            simp only [updatesId, hfm, hr]
            simp [hnu]
          rw [if_pos hupd]
          have : rest.find? (updatesId snapshot c.id) = none := by
            rw [List.find?_eq_none]
            intro d' hd'
            simp only [updatesId]
            rcases hf' : findMatch snapshot d' with _ | c'
            · simp
            · have hc'mem := (findMatch_mem hf').1
              have hd'c' := (findMatch_mem hf').2
              by_cases hcc : c'.id = c.id
              · have hceq : c' = c := nodup_id_inj hnd hc'mem hcmem hcc
                subst hceq
                have hkey : matchKey d = matchKey d' := by
                  rw [matches_iff_key.mp hdc, ← matches_iff_key.mp hd'c']
                have : d.matches d' = true := matches_iff_key.mpr hkey
                rw [hpw1 d' hd'] at this
                exact absurd this (by simp)
              · simp [hcc]
          rw [replFn_eq, this, hr]
        · rw [if_neg hr, replFn_cons]
          have hupd : updatesId snapshot r.id d = false := by
            simp only [updatesId, hfm]
            simp
            intro hc
            exact absurd hc (fun h => hr h.symm)
          rw [if_neg (by simp [hupd])]
      rw [hmap]
    · -- unchanged
      simp only [phaseAState, hcl]
      obtain ⟨hfm, hnu⟩ := classify_unchanged_iff.mp hcl
      rw [ih st nid hpw2 hlt]
      simp only [creations, hcl]
      have hnc : numCreates snapshot (d :: rest) = numCreates snapshot rest := by
        rw [numCreates, numCreates, List.filter_cons]
        have : isCreateB snapshot d = false := by rw [isCreateB, hcl]
        simp [this]
      rw [hnc]
      have hmap : st.map (replFn snapshot rest) =
          st.map (replFn snapshot (d :: rest)) := by
        apply List.map_congr_left
        intro r _
        rw [replFn_cons]
        have hupd : updatesId snapshot r.id d = false := by
          simp only [updatesId, hfm, hnu]
          simp
        rw [if_neg (by simp [hupd])]
      rw [hmap]

lemma matches_comm (a b : DNSRecord) : a.matches b = b.matches a := by
  by_cases h : a.matches b = true
  · rw [h]
    exact (matches_iff_key.mpr (matches_iff_key.mp h).symm).symm
  · rw [Bool.not_eq_true] at h
    rw [h]
    by_cases h2 : b.matches a = true
    · exact absurd (matches_iff_key.mpr (matches_iff_key.mp h2).symm)
        (by simp [h])
    · simp at h2
      rw [h2]

lemma matches_congr_key {a b b' : DNSRecord} (h : matchKey b = matchKey b') :
    a.matches b = a.matches b' := by
  by_cases hab : a.matches b = true
  · rw [hab]
    exact (matches_iff_key.mpr ((matches_iff_key.mp hab).trans h)).symm
  · simp at hab
    rw [hab]
    by_cases hab' : a.matches b' = true
    · exact absurd (matches_iff_key.mpr ((matches_iff_key.mp hab').trans h.symm))
        (by simp [hab])
    · simp at hab'
      rw [hab']

lemma find?_congr_mem {p q : DNSRecord → Bool} :
    ∀ {l : List DNSRecord}, (∀ x ∈ l, p x = q x) → l.find? p = l.find? q := by
  intro l
  induction l with
  | nil => intro _; rfl
  | cons a t ih =>
    intro h
    have ha := h a (by simp)
    by_cases hp : p a = true
    · rw [List.find?_cons_of_pos _ hp, List.find?_cons_of_pos _ (ha ▸ hp)]
    · rw [List.find?_cons_of_neg _ hp, List.find?_cons_of_neg _ (by rw [← ha]; exact hp)]
      exact ih (fun x hx => h x (by simp [hx]))

lemma find?_filter_of_some {p q : DNSRecord → Bool} :
    ∀ {l : List DNSRecord} {c : DNSRecord},
      l.find? p = some c → q c = true → (l.filter q).find? p = some c := by
  intro l
  induction l with
  | nil => intro c h; simp at h
  | cons a t ih =>
    intro c h hq
    by_cases hp : p a = true
    · rw [List.find?_cons_of_pos _ hp] at h
      injection h with h
      subst h
      rw [List.filter_cons, if_pos hq, List.find?_cons_of_pos _ hp]
    · rw [List.find?_cons_of_neg _ hp] at h
      rw [List.filter_cons]
      by_cases hqa : q a = true
      · rw [if_pos hqa, List.find?_cons_of_neg _ hp]
        exact ih h hq
      · rw [if_neg hqa]
        exact ih h hq

/-- Every created record comes from an unmatched desired record and carries
a fresh id. -/
lemma creations_mem (snapshot : List DNSRecord) :
    ∀ (ds : List DNSRecord) (nid : Nat) (x : DNSRecord),
      x ∈ creations snapshot ds nid →
      ∃ d ∈ ds, findMatch snapshot d = none ∧
        ∃ m, nid ≤ m ∧ x = { d with id := some m } := by
  intro ds
  induction ds with
  | nil => intro nid x hx; simp [creations] at hx
  | cons d rest ih =>
    intro nid x hx
    rcases hcl : classifyRec snapshot d with _ | c | c
    · rw [creations] at hx
      rw [hcl] at hx
      rcases List.mem_cons.mp hx with hx | hx
      · exact ⟨d, by simp, classify_create_iff.mp hcl, nid, le_refl _, hx⟩
      · obtain ⟨d', hd', hfm', m, hm, hxe⟩ := ih (nid + 1) x hx
        exact ⟨d', by simp [hd'], hfm', m, by omega, hxe⟩
    all_goals
      rw [creations] at hx
      rw [hcl] at hx
      obtain ⟨d', hd', hfm', m, hm, hxe⟩ := ih nid x hx
      exact ⟨d', by simp [hd'], hfm', m, hm, hxe⟩

/-- An unmatched desired record finds exactly its own creation among the
created records. -/
lemma creations_find (snapshot : List DNSRecord) (d : DNSRecord) :
    ∀ (ds : List DNSRecord) (nid : Nat),
      ds.Pairwise (fun a b => a.matches b = false) →
      d ∈ ds → findMatch snapshot d = none →
      ∃ m, nid ≤ m ∧
        (creations snapshot ds nid).find? (fun x => d.matches x) =
          some { d with id := some m } := by
  intro ds
  induction ds with
  | nil => intro nid _ hd; simp at hd
  | cons d0 rest ih =>
    intro nid hpw hd hfm
    obtain ⟨hpw1, hpw2⟩ := List.pairwise_cons.mp hpw
    rcases List.mem_cons.mp hd with hd | hd
    · subst hd
      have hcl : classifyRec snapshot d = .create := classify_create_iff.mpr hfm
      rw [creations, hcl]
      refine ⟨nid, le_refl _, ?_⟩
      have hm : d.matches { d with id := some nid } = true := by
        rw [matches_congr_key (matchKey_set_id d (some nid))]
        exact matches_self d
      rw [List.find?_cons_of_pos _ hm]
    · rcases hcl : classifyRec snapshot d0 with _ | c | c
      · rw [creations, hcl]
        have hnm : d.matches { d0 with id := some nid } = false := by
          rw [matches_congr_key (matchKey_set_id d0 (some nid))]
          rw [matches_comm]
          exact hpw1 d hd
        obtain ⟨m, hm, hfind⟩ := ih (nid + 1) hpw2 hd hfm
        exact ⟨m, by omega, by rw [List.find?_cons_of_neg _ (by simp [hnm]), hfind]⟩
      all_goals
        rw [creations, hcl]
        exact ih nid hpw2 hd hfm

/-- `replFn` preserves the match identity of snapshot records. -/
lemma replFn_key {snapshot : List DNSRecord}
    (hnd : (snapshot.map (·.id)).Nodup) (ds : List DNSRecord)
    {x : DNSRecord} (hx : x ∈ snapshot) :
    matchKey (replFn snapshot ds x) = matchKey x := by
  rw [replFn_eq]
  rcases hf : ds.find? (updatesId snapshot x.id) with _ | dx
  · rfl
  · obtain ⟨hmem, hpred⟩ := find?_mem_of_eq_some hf
    rw [updatesId] at hpred
    rcases hfm : findMatch snapshot dx with _ | cx
    · rw [hfm] at hpred; simp at hpred
    · rw [hfm] at hpred
      simp only [Bool.and_eq_true, beq_iff_eq] at hpred
      have hcx := findMatch_mem hfm
      have hceq : cx = x := nodup_id_inj hnd hcx.1 hx hpred.1
      subst hceq
      rw [matchKey_set_id]
      exact matches_iff_key.mp hcx.2

lemma delStateB_split (consumed : List (Option Nat)) (snap l₁ l₂ : List DNSRecord) :
    delStateB consumed snap (l₁ ++ l₂) =
      delStateB consumed snap l₁ ++ delStateB consumed snap l₂ := by
  rw [delStateB, delStateB, delStateB, List.filter_append]

lemma delStateB_map_part (consumed : List (Option Nat))
    {snapshot : List DNSRecord} (hnd : (snapshot.map (·.id)).Nodup)
    (ds : List DNSRecord) :
    delStateB consumed snapshot (snapshot.map (replFn snapshot ds)) =
      (snapshot.filter (fun c => decide (c.id ∈ consumed))).map
        (replFn snapshot ds) := by
  rw [delStateB, List.filter_map]
  congr 1
  apply List.filter_congr
  intro c₀ hc₀
  simp only [Function.comp_apply, replFn_id]
  by_cases hmem : c₀.id ∈ consumed
  · have hr : decide (c₀.id ∈ consumed) = true := by simp [hmem]
    rw [hr, Bool.not_eq_true', List.any_eq_false]
    intro c hc
    by_cases hcc : c₀.id = c.id
    · have hceq : c = c₀ := nodup_id_inj hnd hc hc₀ hcc.symm
      subst hceq
      simp [hmem]
    · simp [hcc]
  · have hr : decide (c₀.id ∈ consumed) = false := by simp [hmem]
    rw [hr, Bool.not_eq_false', List.any_eq_true]
    exact ⟨c₀, hc₀, by simp [hmem]⟩

lemma delStateB_creations_part (consumed : List (Option Nat))
    {snapshot : List DNSRecord} {nid : Nat}
    (hlt : ∀ c ∈ snapshot, ∀ n, c.id = some n → n < nid)
    (ds : List DNSRecord) :
    delStateB consumed snapshot (creations snapshot ds nid) =
      creations snapshot ds nid := by
  rw [delStateB, List.filter_eq_self]
  intro x hx
  obtain ⟨d, hd, hfm, m, hm, hxe⟩ := creations_mem snapshot ds nid x hx
  rw [Bool.not_eq_true', List.any_eq_false]
  intro c hc
  have hxid : x.id = some m := by rw [hxe]
  rcases hcid : c.id with _ | n
  · simp [hxid, hcid]
  · have := hlt c hc n hcid
    have hmn : ¬ (m = n) := by omega
    simp [hxid, hcid, hmn]

lemma replFn_needs {snapshot desired : List DNSRecord}
    (hnd : (snapshot.map (·.id)).Nodup)
    (hpw : desired.Pairwise (fun a b => a.matches b = false))
    {d c : DNSRecord} (hd : d ∈ desired)
    (hfm : findMatch snapshot d = some c) :
    (replFn snapshot desired c).needs_update d = false := by
  rw [replFn_eq]
  rcases hf : desired.find? (updatesId snapshot c.id) with _ | d'
  · have hown := List.find?_eq_none.mp hf d hd
    simp only [updatesId, hfm] at hown
    simp at hown
    simpa using hown
  · obtain ⟨hd'mem, hpred⟩ := find?_mem_of_eq_some hf
    simp only [updatesId] at hpred
    rcases hfm' : findMatch snapshot d' with _ | c'
    · rw [hfm'] at hpred; simp at hpred
    · rw [hfm'] at hpred
      simp only [Bool.and_eq_true, beq_iff_eq] at hpred
      have hc'm := findMatch_mem hfm'
      have hcm := findMatch_mem hfm
      have hceq : c' = c := nodup_id_inj hnd hc'm.1 hcm.1 hpred.1
      have hkey : matchKey d = matchKey d' := by
        have h1 := matches_iff_key.mp hcm.2
        have h2 := matches_iff_key.mp hc'm.2
        rw [hceq] at h2
        exact h1.trans h2.symm
      have hdd' : d' = d := by
        by_contra hne
        have hsym : Symmetric (fun a b : DNSRecord => a.matches b = false) := by
          intro a b hab
          rw [matches_comm]
          exact hab
        have := hpw.forall hsym hd'mem hd hne
        rw [matches_iff_key.mpr hkey.symm] at this
        exact absurd this (by simp)
      show ({ d' with id := c.id } : DNSRecord).needs_update d = false
      rw [hdd']
      exact needs_update_set_id d c.id

/-- Distinct creations carry distinct match identities. -/
lemma creations_key_nodup (snapshot : List DNSRecord) :
    ∀ (ds : List DNSRecord) (nid : Nat),
      ds.Pairwise (fun a b => a.matches b = false) →
      ∀ x y, x ∈ creations snapshot ds nid → y ∈ creations snapshot ds nid →
        matchKey x = matchKey y → x = y := by
  intro ds
  induction ds with
  | nil => intro nid _ x y hx; simp [creations] at hx
  | cons d0 rest ih =>
    intro nid hpw x y hx hy hkey
    obtain ⟨hpw1, hpw2⟩ := List.pairwise_cons.mp hpw
    rcases hcl : classifyRec snapshot d0 with _ | c | c
    · rw [creations, hcl] at hx hy
      rcases List.mem_cons.mp hx with hx | hx <;>
        rcases List.mem_cons.mp hy with hy | hy
      · rw [hx, hy]
      · exfalso
        obtain ⟨d₂, hd₂, _, m, _, hye⟩ := creations_mem snapshot rest (nid + 1) y hy
        have h1 : matchKey x = matchKey d0 := by rw [hx, matchKey_set_id]
        have h2 : matchKey y = matchKey d₂ := by rw [hye, matchKey_set_id]
        have : d0.matches d₂ = true :=
          matches_iff_key.mpr (h1.symm.trans (hkey.trans h2))
        rw [hpw1 d₂ hd₂] at this
        exact absurd this (by simp)
      · exfalso
        obtain ⟨d₂, hd₂, _, m, _, hxe⟩ := creations_mem snapshot rest (nid + 1) x hx
        have h1 : matchKey y = matchKey d0 := by rw [hy, matchKey_set_id]
        have h2 : matchKey x = matchKey d₂ := by rw [hxe, matchKey_set_id]
        have : d0.matches d₂ = true :=
          matches_iff_key.mpr (h1.symm.trans (hkey.symm.trans h2))
        rw [hpw1 d₂ hd₂] at this
        exact absurd this (by simp)
      · exact ih (nid + 1) hpw2 x y hx hy hkey
    all_goals
      rw [creations, hcl] at hx hy
      exact ih nid hpw2 x y hx hy hkey

lemma run2_findMatch_matched {snapshot : List DNSRecord}
    (desired : List DNSRecord) (hnd : (snapshot.map (·.id)).Nodup)
    (q : DNSRecord → Bool) (nid : Nat) {d c : DNSRecord}
    (hfm : findMatch snapshot d = some c) (hqc : q c = true) :
    findMatch ((snapshot.filter q).map (replFn snapshot desired) ++
      creations snapshot desired nid) d = some (replFn snapshot desired c) := by
  rw [findMatch, List.find?_append]
  have h1 : (snapshot.filter q).find? (fun x => d.matches x) = some c :=
    find?_filter_of_some hfm hqc
  have h2 : ((snapshot.filter q).map (replFn snapshot desired)).find?
      (fun x => d.matches x) = some (replFn snapshot desired c) := by
    rw [List.find?_map]
    have h3 : (snapshot.filter q).find?
        ((fun x => d.matches x) ∘ replFn snapshot desired) =
        (snapshot.filter q).find? (fun x => d.matches x) := by
      apply find?_congr_mem
      intro x hx
      have hxs : x ∈ snapshot := List.mem_of_mem_filter hx
      simp only [Function.comp_apply]
      exact matches_congr_key (replFn_key hnd desired hxs)
    rw [h3, h1]
    rfl
  rw [h2]
  rfl

lemma run2_findMatch_created {snapshot desired : List DNSRecord}
    (hnd : (snapshot.map (·.id)).Nodup)
    (hpw : desired.Pairwise (fun a b => a.matches b = false))
    (q : DNSRecord → Bool) {nid : Nat} {d : DNSRecord}
    (hd : d ∈ desired) (hfm : findMatch snapshot d = none) :
    ∃ m, nid ≤ m ∧
      findMatch ((snapshot.filter q).map (replFn snapshot desired) ++
        creations snapshot desired nid) d = some { d with id := some m } := by
  rw [findMatch, List.find?_append]
  have h1 : ((snapshot.filter q).map (replFn snapshot desired)).find?
      (fun x => d.matches x) = none := by
    rw [List.find?_eq_none]
    intro x hx
    obtain ⟨y, hy, hxe⟩ := List.mem_map.mp hx
    have hys : y ∈ snapshot := List.mem_of_mem_filter hy
    have : d.matches x = d.matches y := by
      rw [← hxe]
      exact matches_congr_key (replFn_key hnd desired hys)
    rw [this]
    have := List.find?_eq_none.mp hfm y hys
    simpa using this
  rw [h1, Option.none_or]
  exact creations_find snapshot d desired nid hpw hd hfm

lemma run2_coverage {snapshot desired : List DNSRecord}
    (hnd : (snapshot.map (·.id)).Nodup)
    (hpw : desired.Pairwise (fun a b => a.matches b = false))
    (q : DNSRecord → Bool) {nid : Nat}
    (hq : ∀ c₀ ∈ snapshot, q c₀ = true →
      ∃ d₀ ∈ desired, findMatch snapshot d₀ = some c₀) :
    ∀ x ∈ (snapshot.filter q).map (replFn snapshot desired) ++
        creations snapshot desired nid,
      ∃ d₀ ∈ desired,
        findMatch ((snapshot.filter q).map (replFn snapshot desired) ++
          creations snapshot desired nid) d₀ = some x := by
  intro x hx
  rcases List.mem_append.mp hx with hx1 | hx2
  · obtain ⟨c₀, hc₀, hxe⟩ := List.mem_map.mp hx1
    have hc₀s : c₀ ∈ snapshot := List.mem_of_mem_filter hc₀
    have hc₀q : q c₀ = true := List.of_mem_filter hc₀
    obtain ⟨d₀, hd₀, hfm₀⟩ := hq c₀ hc₀s hc₀q
    refine ⟨d₀, hd₀, ?_⟩
    rw [run2_findMatch_matched desired hnd q nid hfm₀ hc₀q, hxe]
  · obtain ⟨d, hd, hfm, m, hm, hxe⟩ :=
      creations_mem snapshot desired nid x hx2
    obtain ⟨m', hm', hfind⟩ := run2_findMatch_created hnd hpw q hd hfm
    refine ⟨d, hd, ?_⟩
    rw [hfind]
    congr 1
    have hymem : ({ d with id := some m' } : DNSRecord) ∈
        creations snapshot desired nid := by
      have : findMatch ((snapshot.filter q).map (replFn snapshot desired) ++
          creations snapshot desired nid) d = some { d with id := some m' } := hfind
      rw [findMatch] at this
      have hmem := List.mem_of_find?_eq_some this
      rcases List.mem_append.mp hmem with hin | hin
      · exfalso
        obtain ⟨y, hy, hye⟩ := List.mem_map.mp hin
        have hys : y ∈ snapshot := List.mem_of_mem_filter hy
        have hkey : matchKey ({ d with id := some m' } : DNSRecord) = matchKey y := by
          rw [← hye]
          exact replFn_key hnd desired hys
        rw [matchKey_set_id] at hkey
        have : d.matches y = true := matches_iff_key.mpr hkey
        have := List.find?_eq_none.mp hfm y hys
        simp_all
      · exact hin
    apply creations_key_nodup snapshot desired nid hpw _ _ hymem
    · exact hxe ▸ hx2
    · rw [hxe]
      simp [matchKey_set_id]

lemma isCreateB_false_of_found {l : List DNSRecord} {d r : DNSRecord}
    (h : findMatch l d = some r) : isCreateB l d = false := by
  simp only [isCreateB, classifyRec, h]
  by_cases hu : r.needs_update d = true <;> simp [hu]

lemma isUpdateB_false_of_unchanged {l : List DNSRecord} {d r : DNSRecord}
    (h : findMatch l d = some r) (hnu : r.needs_update d = false) :
    isUpdateB l d = false := by
  simp only [isUpdateB, classifyRec, h, hnu]
  simp

lemma isUnchangedB_true_of_unchanged {l : List DNSRecord} {d r : DNSRecord}
    (h : findMatch l d = some r) (hnu : r.needs_update d = false) :
    isUnchangedB l d = true := by
  simp only [isUnchangedB, classifyRec, h, hnu]
  simp

/-- The remote record list after one live record-level sync. -/
lemma syncRecords_state_eq (zoneId : Option Nat) (de : Bool)
    (snapshot desired : List DNSRecord) (nid : Nat)
    (hpw : desired.Pairwise (fun a b => a.matches b = false))
    (hnd : (snapshot.map (·.id)).Nodup)
    (hlt : ∀ c ∈ snapshot, ∀ n, c.id = some n → n < nid) :
    (syncRecords noFailDns zoneId false de snapshot desired nid).state =
      (snapshot.filter (fun c =>
        if de then decide (c.id ∈ consumedOf snapshot desired) else true)).map
        (replFn snapshot desired) ++ creations snapshot desired nid := by
  rw [syncRecords_noFail]
  simp only
  have hstA := phaseAState_closed snapshot hnd desired snapshot nid hpw hlt
  cases de with
  | false =>
    simp only [Bool.false_eq_true, if_false]
    rw [hstA]
    simp [List.filter_true]
  | true =>
    simp only [if_true]
    rw [hstA]
    simp only
    rw [delStateB_split, delStateB_map_part _ hnd, delStateB_creations_part _ hlt]
    simp

/-- Record-level idempotence: a second live sync against the state produced
by the first reports everything unchanged. -/
lemma syncRecords_idempotent_core (zoneId zoneId2 : Option Nat) (de : Bool)
    (snapshot desired : List DNSRecord) (nid nid2 : Nat)
    (hpw : desired.Pairwise (fun a b => a.matches b = false))
    (hnd : (snapshot.map (·.id)).Nodup)
    (hlt : ∀ c ∈ snapshot, ∀ n, c.id = some n → n < nid) :
    (syncRecords noFailDns zoneId2 false de
      (syncRecords noFailDns zoneId false de snapshot desired nid).state
      desired nid2).result = .ok ⟨[], [], [], desired.map descStr⟩ := by
  rw [syncRecords_state_eq zoneId de snapshot desired nid hpw hnd hlt]
  rw [syncRecords_noFail]
  simp only
  set q : DNSRecord → Bool := fun c =>
    if de then decide (c.id ∈ consumedOf snapshot desired) else true with hqdef
  set S1 : List DNSRecord :=
    (snapshot.filter q).map (replFn snapshot desired) ++
      creations snapshot desired nid with hS1def
  have hqc : ∀ d c : DNSRecord, d ∈ desired → findMatch snapshot d = some c →
      q c = true := by
    intro d c hd hfm
    rw [hqdef]
    cases de with
    | false => simp
    | true =>
      simp only [if_true, decide_eq_true_eq]
      exact List.mem_filterMap.mpr ⟨d, hd, by rw [hfm]; rfl⟩
  have hfound : ∀ d ∈ desired, ∃ r, findMatch S1 d = some r ∧
      r.needs_update d = false := by
    intro d hd
    rcases hfm : findMatch snapshot d with _ | c
    · obtain ⟨m, _, hfind⟩ := run2_findMatch_created hnd hpw q hd hfm
      exact ⟨_, hfind, needs_update_set_id d (some m)⟩
    · refine ⟨replFn snapshot desired c, ?_, replFn_needs hnd hpw hd hfm⟩
      exact run2_findMatch_matched desired hnd q nid hfm (hqc d c hd hfm)
  congr 1
  simp only [RecsLists.mk.injEq]
  refine ⟨?_, ?_, ?_, ?_⟩
  · rw [List.map_eq_nil_iff, List.filter_eq_nil_iff]
    intro d hd
    obtain ⟨r, hr, _⟩ := hfound d hd
    simp [isCreateB_false_of_found hr]
  · rw [List.map_eq_nil_iff, List.filter_eq_nil_iff]
    intro d hd
    obtain ⟨r, hr, hnu⟩ := hfound d hd
    simp [isUpdateB_false_of_unchanged hr hnu]
  · cases de with
    | false => simp
    | true =>
      simp only [if_true]
      rw [List.map_eq_nil_iff, unconsumed, List.filter_eq_nil_iff]
      intro x hx
      have hq2 : ∀ c₀ ∈ snapshot, q c₀ = true →
          ∃ d₀ ∈ desired, findMatch snapshot d₀ = some c₀ := by
        intro c₀ hc₀ hqc₀
        rw [hqdef] at hqc₀
        simp only [if_true, decide_eq_true_eq] at hqc₀
        obtain ⟨d₀, hd₀, hmap⟩ := List.mem_filterMap.mp hqc₀
        rcases hfm₀ : findMatch snapshot d₀ with _ | c₁
        · rw [hfm₀] at hmap; simp at hmap
        · rw [hfm₀] at hmap
          simp only [Option.map_some'] at hmap
          have hc₁ : c₁ = c₀ := by
            apply nodup_id_inj hnd (findMatch_mem hfm₀).1 hc₀
            exact Option.some.inj hmap
          exact ⟨d₀, hd₀, by rw [hfm₀, hc₁]⟩
      obtain ⟨d₀, hd₀, hfind⟩ := run2_coverage hnd hpw q hq2 x hx
      simp only [decide_eq_true_eq]
      intro hcon
      exact hcon (List.mem_filterMap.mpr ⟨d₀, hd₀, by rw [hfind]; rfl⟩)
  · congr 1
    rw [List.filter_eq_self]
    intro d hd
    obtain ⟨r, hr, hnu⟩ := hfound d hd
    exact isUnchangedB_true_of_unchanged hr hnu

/-- The result component of a record-level sync under the all-success
behaviour. -/
lemma syncRecords_noFail_result (zoneId : Option Nat) (dryRun de : Bool)
    (snapshot desired : List DNSRecord) (nid : Nat) :
    (syncRecords noFailDns zoneId dryRun de snapshot desired nid).result =
      .ok ⟨(desired.filter (isCreateB snapshot)).map descStr,
           (desired.filter (isUpdateB snapshot)).map descStr,
           if de then
             (unconsumed (consumedOf snapshot desired) snapshot).map descStr
           else [],
           (desired.filter (isUnchangedB snapshot)).map descStr⟩ := by
  rw [syncRecords_noFail]

lemma noFailDns_create (s : String) : noFailDns.createZoneErr s = none := rfl

/-- C7 (amended).  DNS sync idempotence: running DNS zone sync twice in
live mode against the same desired set with no external drift yields an
empty created, updated, and deleted list on the second run, provided no two
desired records share the same match identity (a desired list containing
two matching records re-creates and then deletes duplicates instead). -/
theorem claim_dns_sync_idempotent (domain : String)
    (desired : List DNSRecord) (de : Bool) (zones : List DnsZone)
    (nzid nrid : Nat)
    (hpw : desired.Pairwise (fun a b => a.matches b = false))
    (hwf : ∀ z ∈ zones, (z.records.map (·.id)).Nodup ∧
      ∀ c ∈ z.records, ∀ n, c.id = some n → n < nrid) :
    ∃ r1 r2 : DnsReport,
      (dnsSyncZone noFailDns domain desired false de zones nzid nrid).result
        = .ok r1 ∧
      (dnsSyncZone noFailDns domain desired false de
        (dnsSyncZone noFailDns domain desired false de zones nzid nrid).zones
        (dnsSyncZone noFailDns domain desired false de zones nzid nrid).nextZoneId
        (dnsSyncZone noFailDns domain desired false de zones nzid nrid).nextRecId).result
        = .ok r2 ∧
      r2.created = [] ∧ r2.updated = [] ∧ r2.deleted = [] := by
  rcases hfz : findZone zones domain with _ | z
  · -- absent: run 1 creates the zone (empty record list) and fills it
    simp only [dnsSyncZone, hfz, noFailDns_create, Bool.false_eq_true, if_false]
    have hfz2 : findZone
        ((zones ++ [(⟨domain, some nzid, []⟩ : DnsZone)]).map (fun w : DnsZone =>
          if w.id = some nzid then
            { w with records :=
              (syncRecords noFailDns (some nzid) false de [] desired nrid).state }
          else w)) domain =
        some ⟨domain, some nzid,
          (syncRecords noFailDns (some nzid) false de [] desired nrid).state⟩ := by
      rw [findZone, List.find?_map]
      have hpg : ((fun zz : DnsZone => strLower zz.domain == strLower domain) ∘
          (fun w : DnsZone => if w.id = some nzid then
            { w with records :=
              (syncRecords noFailDns (some nzid) false de [] desired nrid).state }
          else w)) = fun zz : DnsZone => strLower zz.domain == strLower domain := by
        funext w
        simp only [Function.comp_apply]
        by_cases hw : w.id = some nzid <;> simp [hw]
      rw [hpg, List.find?_append]
      have h0 : zones.find? (fun zz => strLower zz.domain == strLower domain) = none := by
        rw [findZone] at hfz
        exact hfz
      rw [h0, Option.none_or]
      simp
    rw [hfz2]
    simp only
    have hcore := syncRecords_idempotent_core (some nzid) (some nzid) de []
      desired nrid
      ((syncRecords noFailDns (some nzid) false de [] desired nrid).nextId)
      hpw (by simp) (by simp)
    rw [hcore, syncRecords_noFail_result]
    exact ⟨_, _, rfl, rfl, rfl, rfl, rfl⟩
  · -- present
    have hzmem := List.mem_of_find?_eq_some hfz
    obtain ⟨hnd, hlt⟩ := hwf z hzmem
    simp only [dnsSyncZone, hfz, Bool.false_eq_true, if_false]
    have hfz2 : findZone
        (zones.map (fun w : DnsZone =>
          if w.id = z.id then
            { w with records :=
              (syncRecords noFailDns z.id false de z.records desired nrid).state }
          else w)) domain =
        some { z with records :=
          (syncRecords noFailDns z.id false de z.records desired nrid).state } := by
      rw [findZone, List.find?_map]
      have hpg : ((fun zz : DnsZone => strLower zz.domain == strLower domain) ∘
          (fun w : DnsZone => if w.id = z.id then
            { w with records :=
              (syncRecords noFailDns z.id false de z.records desired nrid).state }
          else w)) = fun zz : DnsZone => strLower zz.domain == strLower domain := by
        funext w
        simp only [Function.comp_apply]
        by_cases hw : w.id = z.id <;> simp [hw]
      rw [hpg]
      rw [findZone] at hfz
      rw [hfz]
      simp
    rw [hfz2]
    simp only
    have hcore := syncRecords_idempotent_core z.id z.id de z.records desired
      nrid
      ((syncRecords noFailDns z.id false de z.records desired nrid).nextId)
      hpw hnd hlt
    rw [hcore, syncRecords_noFail_result]
    exact ⟨_, _, rfl, rfl, rfl, rfl, rfl⟩

/-- C7 counterexample: with the duplicate desired list `[A w, A w]` the
first live run creates the record twice; the second run matches both
desired copies against the first remote copy and then deletes the second
copy, so the second run's `deleted` list is not empty. -/
theorem claim_dns_sync_idempotent_counterexample :
    (dnsSyncZone noFailDns "example.com"
      [⟨"A", "w", "1.2.3.4", 300, none, none, none, none⟩,
       ⟨"A", "w", "1.2.3.4", 300, none, none, none, none⟩] false true
      (dnsSyncZone noFailDns "example.com"
        [⟨"A", "w", "1.2.3.4", 300, none, none, none, none⟩,
         ⟨"A", "w", "1.2.3.4", 300, none, none, none, none⟩] false true
        [⟨"example.com", some 1, []⟩] 5 10).zones
      (dnsSyncZone noFailDns "example.com"
        [⟨"A", "w", "1.2.3.4", 300, none, none, none, none⟩,
         ⟨"A", "w", "1.2.3.4", 300, none, none, none, none⟩] false true
        [⟨"example.com", some 1, []⟩] 5 10).nextZoneId
      (dnsSyncZone noFailDns "example.com"
        [⟨"A", "w", "1.2.3.4", 300, none, none, none, none⟩,
         ⟨"A", "w", "1.2.3.4", 300, none, none, none, none⟩] false true
        [⟨"example.com", some 1, []⟩] 5 10).nextRecId).result =
    .ok ⟨"example.com", [], [], ["A w -> 1.2.3.4"],
      ["A w -> 1.2.3.4", "A w -> 1.2.3.4"], false⟩ := rfl

/-- C7 witness: a concrete duplicate-free desired set against a zone
holding one stale record is idempotent from the second run on. -/
theorem claim_dns_sync_idempotent_witness :
    ∃ r1 r2 : DnsReport,
      (dnsSyncZone noFailDns "example.com"
        [⟨"A", "w", "1.2.3.4", 300, none, none, none, none⟩] false true
        [⟨"example.com", some 1,
          [⟨"A", "w", "1.2.3.4", 600, none, none, none, some 3⟩]⟩] 5 10).result
        = .ok r1 ∧
      (dnsSyncZone noFailDns "example.com"
        [⟨"A", "w", "1.2.3.4", 300, none, none, none, none⟩] false true
        (dnsSyncZone noFailDns "example.com"
          [⟨"A", "w", "1.2.3.4", 300, none, none, none, none⟩] false true
          [⟨"example.com", some 1,
            [⟨"A", "w", "1.2.3.4", 600, none, none, none, some 3⟩]⟩] 5 10).zones
        (dnsSyncZone noFailDns "example.com"
          [⟨"A", "w", "1.2.3.4", 300, none, none, none, none⟩] false true
          [⟨"example.com", some 1,
            [⟨"A", "w", "1.2.3.4", 600, none, none, none, some 3⟩]⟩] 5 10).nextZoneId
        (dnsSyncZone noFailDns "example.com"
          [⟨"A", "w", "1.2.3.4", 300, none, none, none, none⟩] false true
          [⟨"example.com", some 1,
            [⟨"A", "w", "1.2.3.4", 600, none, none, none, some 3⟩]⟩] 5 10).nextRecId).result
        = .ok r2 ∧
      r2.created = [] ∧ r2.updated = [] ∧ r2.deleted = [] :=
  claim_dns_sync_idempotent "example.com"
    [⟨"A", "w", "1.2.3.4", 300, none, none, none, none⟩] true
    [⟨"example.com", some 1,
      [⟨"A", "w", "1.2.3.4", 600, none, none, none, some 3⟩]⟩] 5 10
    (by decide)
    (by
      intro z hz
      simp only [List.mem_singleton] at hz
      subst hz
      refine ⟨by decide, ?_⟩
      intro c hc n hn
      simp only [List.mem_singleton] at hc
      subst hc
      simp at hn
      omega)

/-! ## Pull zones: `pullzone_manager.py`

Remote calls are again mediated by a behaviour oracle; the caught
`Exception`s of the best-effort certificate and Force-SSL steps are
modelled as an optional message string. -/

/-- `Hostname` dataclass. -/
structure Hostname where
  value : String
  id : Option Nat
  force_ssl : Bool
  has_certificate : Bool
  is_system_hostname : Bool
  deriving DecidableEq, Repr

/-- A JSON value as it can appear in a pull-zone API payload. -/
inductive JVal where
  | s (v : String)
  | n (v : Nat)
  | b (v : Bool)
  | hl (v : List Hostname)
  deriving DecidableEq, Repr

/-- `PullZone` dataclass (the raw `edge_rules` field is omitted: the
pull-zone reconciler never reads or writes it). -/
structure PullZone where
  name : String
  id : Option Nat
  origin_url : Option String
  origin_host_header : Option String
  type : Nat
  enabled : Bool
  hostnames : List Hostname
  enable_geo_zone_us : Bool
  enable_geo_zone_eu : Bool
  enable_geo_zone_asia : Bool
  enable_geo_zone_sa : Bool
  enable_geo_zone_af : Bool
  deriving DecidableEq, Repr

/-- `PullZone.to_api_payload`: name, type and the five region flags always;
origin URL and origin host header only when truthy; nothing else. -/
def PullZone.to_api_payload (z : PullZone) : List (String × JVal) :=
  [("Name", JVal.s z.name), ("Type", JVal.n z.type),
   ("EnableGeoZoneUS", JVal.b z.enable_geo_zone_us),
   ("EnableGeoZoneEU", JVal.b z.enable_geo_zone_eu),
   ("EnableGeoZoneASIA", JVal.b z.enable_geo_zone_asia),
   ("EnableGeoZoneSA", JVal.b z.enable_geo_zone_sa),
   ("EnableGeoZoneAF", JVal.b z.enable_geo_zone_af)] ++
  (if pyStrTruthy z.origin_url then [("OriginUrl", JVal.s (z.origin_url.getD ""))]
   else []) ++
  (if pyStrTruthy z.origin_host_header then
     [("OriginHostHeader", JVal.s (z.origin_host_header.getD ""))]
   else [])

/-- How the remote applies one payload entry to a stored zone: the named
field is overwritten, unknown keys are ignored, the id never changes. -/
def applyField (z : PullZone) (kv : String × JVal) : PullZone :=
  match kv with
  | (k, JVal.s v) =>
    if k = "Name" then { z with name := v }
    else if k = "OriginUrl" then { z with origin_url := some v }
    else if k = "OriginHostHeader" then { z with origin_host_header := some v }
    else z
  | (k, JVal.n v) => if k = "Type" then { z with type := v } else z
  | (k, JVal.b v) =>
    if k = "EnableGeoZoneUS" then { z with enable_geo_zone_us := v }
    else if k = "EnableGeoZoneEU" then { z with enable_geo_zone_eu := v }
    else if k = "EnableGeoZoneASIA" then { z with enable_geo_zone_asia := v }
    else if k = "EnableGeoZoneSA" then { z with enable_geo_zone_sa := v }
    else if k = "EnableGeoZoneAF" then { z with enable_geo_zone_af := v }
    else if k = "Enabled" then { z with enabled := v }
    else z
  | (k, JVal.hl v) => if k = "Hostnames" then { z with hostnames := v } else z

/-- Remote effect of a create/update payload on a stored zone. -/
def applyZoneUpdate (z : PullZone) (payload : List (String × JVal)) : PullZone :=
  payload.foldl applyField z

/-- `PULLZONE_TYPES.get(t, 0)`. -/
def pullzoneTypeCode (t : String) : Nat :=
  if t = "standard" then 0 else if t = "volume" then 1 else 0

/-- Python `f"{x}"` on an `Optional[str]`. -/
def pyOptStr : Option String → String
  | some s => s
  | none => "None"

/-- Python `f"{b}"` on a `bool`. -/
def pyBoolStr : Bool → String
  | true => "True"
  | false => "False"

/-- Python `", ".join(...)`. -/
def joinCommaSpace : List String → String
  | [] => ""
  | [s] => s
  | s :: rest => s ++ ", " ++ joinCommaSpace rest

/-- Iteration order of `set(config.get("hostnames", []))`, modelled as the
first-occurrence deduplication of the configured list (CPython's set order
is unspecified; only the set's membership is observable in the claims). -/
def pySetListAux (seen : List String) : List String → List String
  | [] => []
  | h :: rest =>
    if seen.contains h then pySetListAux seen rest
    else h :: pySetListAux (h :: seen) rest

/-- The deduplicated desired hostname list. -/
def pySetList (l : List String) : List String := pySetListAux [] l

/-- The configuration dict consumed by `PullZoneManager.sync_zone`
(`config.get` defaults are applied inside the reconciler). -/
structure PZConfig where
  origin_url : Option String
  origin_host_header : Option String
  type : Option String
  hostnames : List String
  force_ssl : Option Bool
  enabled_regions : Option (List String)
  deriving Repr

/-- Remote calls the pull-zone reconciler can issue. -/
inductive PzCall where
  | createZone (payload : List (String × JVal))
  | updateZone (zoneId : Option Nat) (payload : List (String × JVal))
  | addHostname (zoneId : Option Nat) (hostname : String)
  | removeHostname (zoneId : Option Nat) (hostname : String)
  | loadFreeCertificate (hostname : String)
  | setForceSSL (zoneId : Option Nat) (hostname : String) (force : Bool)
  deriving DecidableEq, Repr

/-- Failure oracle for the pull-zone reconciler: API errors for the
propagating calls, caught exception messages (`str(e)`) for the best-effort
certificate and Force-SSL calls. -/
structure PzBehavior where
  createZoneErr : Option ApiError
  updateZoneErr : Option ApiError
  addHostnameErr : String → Option ApiError
  removeHostnameErr : String → Option ApiError
  loadCertErr : String → Option String
  setForceSslErr : String → Option String

/-- The behaviour where every remote call succeeds. -/
def noFailPz : PzBehavior :=
  ⟨none, none, fun _ => none, fun _ => none, fun _ => none, fun _ => none⟩

/-- The report dict of `PullZoneManager.sync_zone`. -/
structure PzReport where
  zone : String
  created : Bool
  updated : Bool
  hostnames_added : List String
  hostnames_removed : List String
  certificates_loaded : List String
  changes : List String
  deriving DecidableEq, Repr

/-- Outcome of one pull-zone sync: the remote calls issued (in order) and
either the report or the propagated error. -/
structure PzOutcome where
  trace : List PzCall
  result : Except ApiError PzReport
  deriving Repr

/-- Insertion into the `current_hostnames` dict comprehension: a repeated
key keeps its position but takes the new value. -/
def dictInsert (k : String) (v : Hostname) :
    List (String × Hostname) → List (String × Hostname)
  | [] => [(k, v)]
  | (k', v') :: rest =>
    if k' = k then (k, v) :: rest else (k', v') :: dictInsert k v rest

/-- The `current_hostnames` dict: lowercased value to hostname object, with
the system hostnames filtered out. -/
def buildCurrentHostnames (hs : List Hostname) : List (String × Hostname) :=
  hs.foldl (fun acc h =>
    if h.is_system_hostname then acc else dictInsert (strLower h.value) h acc) []

/-- Dict lookup (`current_hostnames[k]` / `k in current_hostnames`). -/
def dictLookup (m : List (String × Hostname)) (k : String) : Option Hostname :=
  (m.find? (fun kv => kv.1 == k)).map (fun kv => kv.2)

/-- Output of one loop of the hostname sync. -/
structure PzPhaseOut where
  added : List String
  certs : List String
  changes : List String
  trace : List PzCall
  err : Option ApiError
  deriving Repr

/-- The outcome of the best-effort certificate load inside the add loop:
the `certificates_loaded` entry on success, the warning note on a caught
failure. -/
def certNoteOf (B : PzBehavior) (h : String) : List String × List String :=
  match B.loadCertErr h with
  | none => ([h], [])
  | some e =>
    ([], ["Warning: Could not load certificate for " ++ h ++ ": " ++ e])

/-- The outcome of the optional best-effort Force-SSL call inside the add
loop: the change note (state line on success, warning on a caught failure)
and the issued call, or nothing when `force_ssl` is unset. -/
def sslNoteOf (B : PzBehavior) (zoneId : Option Nat) (h : String) :
    Option Bool → List String × List PzCall
  | none => ([], [])
  | some f =>
    match B.setForceSslErr h with
    | none =>
      ([(if f then "Enabled" else "Disabled") ++ " Force SSL for " ++ h],
       [.setForceSSL zoneId h f])
    | some e =>
      (["Warning: Could not set Force SSL for " ++ h ++ ": " ++ e],
       [.setForceSSL zoneId h f])

/-- The `for hostname in desired_hostnames` add loop of `sync_zone`: a
desired hostname missing from the current dict is reported added and, when
live, added remotely (a failure propagates), followed by a best-effort
certificate load and, when `force_ssl` is configured, a best-effort
Force-SSL call whose failures become warning notes. -/
def pzAddPhase (B : PzBehavior) (zoneId : Option Nat) (dryRun : Bool)
    (cur : List (String × Hostname)) (forceSsl : Option Bool) :
    List String → PzPhaseOut
  | [] => ⟨[], [], [], [], none⟩
  | h :: rest =>
    if (dictLookup cur (strLower h)).isNone then
      if dryRun then
        let o := pzAddPhase B zoneId dryRun cur forceSsl rest
        { o with added := h :: o.added,
                 changes := ("Adding hostname: " ++ h) :: o.changes }
      else
        match B.addHostnameErr h with
        | some e =>
          ⟨[h], [], ["Adding hostname: " ++ h], [.addHostname zoneId h], some e⟩
        | none =>
          let o := pzAddPhase B zoneId dryRun cur forceSsl rest
          ⟨h :: o.added,
           (certNoteOf B h).1 ++ o.certs,
           ("Adding hostname: " ++ h) ::
             ((certNoteOf B h).2 ++ (sslNoteOf B zoneId h forceSsl).1) ++ o.changes,
           .addHostname zoneId h :: .loadFreeCertificate h ::
             ((sslNoteOf B zoneId h forceSsl).2 ++ o.trace),
           o.err⟩
    else
      pzAddPhase B zoneId dryRun cur forceSsl rest

/-- Output of the certificate-retry and Force-SSL-correction loops. -/
structure PzNoteOut where
  certs : List String
  changes : List String
  trace : List PzCall
  deriving Repr

/-- The certificate-retry loop: for each desired hostname already present
but without a certificate, note the load and, when live, attempt it
best-effort. -/
def pzCertRetryPhase (B : PzBehavior) (dryRun : Bool)
    (cur : List (String × Hostname)) : List String → PzNoteOut
  | [] => ⟨[], [], []⟩
  | h :: rest =>
    match dictLookup cur (strLower h) with
    | some hobj =>
      if hobj.has_certificate then pzCertRetryPhase B dryRun cur rest
      else
        let o := pzCertRetryPhase B dryRun cur rest
        if dryRun then
          { o with changes := ("Loading certificate for " ++ h) :: o.changes }
        else
          match B.loadCertErr h with
          | none =>
            ⟨h :: o.certs, ("Loading certificate for " ++ h) :: o.changes,
             .loadFreeCertificate h :: o.trace⟩
          | some e =>
            ⟨o.certs,
             ("Loading certificate for " ++ h) ::
               ("Warning: Could not load certificate for " ++ h ++ ": " ++ e) ::
                 o.changes,
             .loadFreeCertificate h :: o.trace⟩
    | none => pzCertRetryPhase B dryRun cur rest

/-- The Force-SSL-correction loop (run only when `force_ssl` is
configured): for each desired hostname already present whose flag differs,
note the change and, when live, attempt the call best-effort. -/
def pzForceSslPhase (B : PzBehavior) (zoneId : Option Nat) (dryRun : Bool)
    (cur : List (String × Hostname)) (f : Bool) : List String → PzNoteOut
  | [] => ⟨[], [], []⟩
  | h :: rest =>
    match dictLookup cur (strLower h) with
    | some hobj =>
      if hobj.force_ssl == f then pzForceSslPhase B zoneId dryRun cur f rest
      else
        let o := pzForceSslPhase B zoneId dryRun cur f rest
        let note := (if f then "Enabling" else "Disabling") ++ " Force SSL for " ++ h
        if dryRun then { o with changes := note :: o.changes }
        else
          match B.setForceSslErr h with
          | none => ⟨o.certs, note :: o.changes, .setForceSSL zoneId h f :: o.trace⟩
          | some e =>
            ⟨o.certs,
             note :: ("Warning: Could not set Force SSL for " ++ h ++ ": " ++ e) ::
               o.changes,
             .setForceSSL zoneId h f :: o.trace⟩
    | none => pzForceSslPhase B zoneId dryRun cur f rest

/-- Output of the removal loop. -/
structure PzRemOut where
  removed : List String
  changes : List String
  trace : List PzCall
  err : Option ApiError
  deriving Repr

/-- The removal loop: every current dict entry whose key is not among the
lowercased desired hostnames is reported removed and, when live, removed
remotely (a failure propagates). -/
def pzRemovePhase (B : PzBehavior) (zoneId : Option Nat) (dryRun : Bool)
    (desiredLower : List String) : List (String × Hostname) → PzRemOut
  | [] => ⟨[], [], [], none⟩
  | (k, hobj) :: rest =>
    if desiredLower.contains k then
      pzRemovePhase B zoneId dryRun desiredLower rest
    else
      if dryRun then
        let o := pzRemovePhase B zoneId dryRun desiredLower rest
        ⟨hobj.value :: o.removed,
         ("Removing hostname: " ++ hobj.value) :: o.changes, o.trace, o.err⟩
      else
        match B.removeHostnameErr hobj.value with
        | some e =>
          ⟨[hobj.value], ["Removing hostname: " ++ hobj.value],
           [.removeHostname zoneId hobj.value], some e⟩
        | none =>
          let o := pzRemovePhase B zoneId dryRun desiredLower rest
          ⟨hobj.value :: o.removed,
           ("Removing hostname: " ++ hobj.value) :: o.changes,
           .removeHostname zoneId hobj.value :: o.trace, o.err⟩

/-- Combined output of the hostname part of `sync_zone`. -/
structure PzHostOut where
  added : List String
  removed : List String
  certs : List String
  changes : List String
  trace : List PzCall
  err : Option ApiError
  deriving Repr

/-- The Force-SSL-correction loop guarded by its configuration flag: run
only when `force_ssl` is set. -/
def pzSslPhaseOpt (B : PzBehavior) (zoneId : Option Nat) (dryRun : Bool)
    (cur : List (String × Hostname)) :
    Option Bool → List String → PzNoteOut
  | none, _ => ⟨[], [], []⟩
  | some f, ds => pzForceSslPhase B zoneId dryRun cur f ds

/-- The hostname part of `sync_zone` against a resolved zone: add loop,
certificate retry, Force-SSL correction, removal loop (an add or remove
failure aborts the run). -/
def pzHostnameSync (B : PzBehavior) (dryRun : Bool) (zone : PullZone)
    (desired : List String) (forceSsl : Option Bool) : PzHostOut :=
  let cur := buildCurrentHostnames zone.hostnames
  let a := pzAddPhase B zone.id dryRun cur forceSsl desired
  if a.err.isSome then ⟨a.added, [], a.certs, a.changes, a.trace, a.err⟩
  else
    let c := pzCertRetryPhase B dryRun cur desired
    let s := pzSslPhaseOpt B zone.id dryRun cur forceSsl desired
    let r := pzRemovePhase B zone.id dryRun (desired.map strLower) cur
    ⟨a.added, r.removed, a.certs ++ c.certs,
     a.changes ++ c.changes ++ s.changes ++ r.changes,
     a.trace ++ c.trace ++ s.trace ++ r.trace, r.err⟩

/-- `get_zone_by_name`: first pull zone whose name matches
case-insensitively. -/
def pzFindZone (zones : List PullZone) (name : String) : Option PullZone :=
  zones.find? (fun z => strLower z.name == strLower name)

/-- The `PullZone(...)` construction used for both the create and the
update call: only name, origins, type and region flags are passed; `id`,
`enabled` and `hostnames` keep their dataclass defaults. -/
def mkConfigZone (name : String) (origin_url origin_host_header : Option String)
    (zoneType : Nat) (us eu asia sa af : Bool) : PullZone :=
  ⟨name, none, origin_url, origin_host_header, zoneType, true, [],
   us, eu, asia, sa, af⟩

/-- The configured zone object, with the `config.get` defaults applied. -/
def pzConfigZone (name : String) (cfg : PZConfig) : PullZone :=
  let regionsUpper :=
    (cfg.enabled_regions.getD ["EU", "US", "ASIA", "SA", "AF"]).map strUpper
  mkConfigZone name cfg.origin_url cfg.origin_host_header
    (pullzoneTypeCode (cfg.type.getD "standard"))
    (regionsUpper.contains "US") (regionsUpper.contains "EU")
    (regionsUpper.contains "ASIA") (regionsUpper.contains "SA")
    (regionsUpper.contains "AF")

/-- One region-difference entry `f"US: {old} -> {new}"`. -/
def regionChangeNote (tag : String) (old new : Bool) : List String :=
  if old == new then []
  else [tag ++ ": " ++ pyBoolStr old ++ " -> " ++ pyBoolStr new]

/-- The attribute-difference check of `sync_zone` on an existing zone: the
change notes (in append order) and the `needs_update` flag.  Every branch
that sets `needs_update` appends exactly one note and vice versa, so the
flag is the non-emptiness of the notes. -/
def pzDiff (zone0 cfgZone : PullZone) : List String × Bool :=
  let c1 :=
    if pyStrTruthy cfgZone.origin_url &&
        !(zone0.origin_url == cfgZone.origin_url) then
      ["Updating origin URL: " ++ pyOptStr zone0.origin_url ++ " -> " ++
        pyOptStr cfgZone.origin_url]
    else []
  let c2 :=
    if pyStrTruthy cfgZone.origin_host_header &&
        !(zone0.origin_host_header == cfgZone.origin_host_header) then
      ["Updating origin host header: " ++ pyOptStr zone0.origin_host_header ++
        " -> " ++ pyOptStr cfgZone.origin_host_header]
    else []
  let c3 :=
    if !(zone0.type == cfgZone.type) then
      ["Updating zone type: " ++ natStr zone0.type ++ " -> " ++
        natStr cfgZone.type]
    else []
  let rc :=
    regionChangeNote "US" zone0.enable_geo_zone_us cfgZone.enable_geo_zone_us ++
    regionChangeNote "EU" zone0.enable_geo_zone_eu cfgZone.enable_geo_zone_eu ++
    regionChangeNote "ASIA" zone0.enable_geo_zone_asia cfgZone.enable_geo_zone_asia ++
    regionChangeNote "SA" zone0.enable_geo_zone_sa cfgZone.enable_geo_zone_sa ++
    regionChangeNote "AF" zone0.enable_geo_zone_af cfgZone.enable_geo_zone_af
  let c4 := if rc.isEmpty then [] else ["Updating regions: " ++ joinCommaSpace rc]
  (c1 ++ c2 ++ c3 ++ c4, !(c1 ++ c2 ++ c3 ++ c4).isEmpty)

/-- The fresh pull zone the remote materializes for a create call before
the payload is applied: a fresh id, no hostnames, dataclass defaults for
every other field.  (The real remote also attaches a system hostname;
keeping the list empty changes nothing the reconciler observes in the same
run, since system hostnames are filtered out of the current dict.) -/
def freshZone (fid : Nat) : PullZone :=
  ⟨"", some fid, none, none, 0, true, [], true, true, true, true, true⟩

/-- `PullZoneManager.sync_zone`: resolve the zone by name; absent + dry-run
→ report the creation and the planned hostname additions; absent + live →
create from the configured payload; present → diff the attributes and,
when needed and live, update from the configured payload; then (except in
the dry-run-creation case) run the hostname sync against the resolved
zone. -/
def pzSyncZone (B : PzBehavior) (name : String) (cfg : PZConfig)
    (dryRun : Bool) (zones : List PullZone) (fid : Nat) : PzOutcome :=
  let cfgZone := pzConfigZone name cfg
  let desired := pySetList cfg.hostnames
  match pzFindZone zones name with
  | none =>
    if dryRun then
      ⟨[], .ok ⟨name, true, false, desired, [], [],
        ("Creating pull zone '" ++ name ++ "'") ::
          desired.map (fun h => "Adding hostname: " ++ h)⟩⟩
    else
      let payload := cfgZone.to_api_payload
      match B.createZoneErr with
      | some e => ⟨[.createZone payload], .error e⟩
      | none =>
        let zone := applyZoneUpdate (freshZone fid) payload
        let hs := pzHostnameSync B dryRun zone desired cfg.force_ssl
        match hs.err with
        | some e => ⟨.createZone payload :: hs.trace, .error e⟩
        | none =>
          ⟨.createZone payload :: hs.trace,
           .ok ⟨name, true, false, hs.added, hs.removed, hs.certs,
             ("Creating pull zone '" ++ name ++ "'") :: hs.changes⟩⟩
  | some zone0 =>
    let diff := pzDiff zone0 cfgZone
    if diff.2 && !dryRun then
      let payload := cfgZone.to_api_payload
      match B.updateZoneErr with
      | some e => ⟨[.updateZone zone0.id payload], .error e⟩
      | none =>
        let zone := applyZoneUpdate zone0 payload
        let hs := pzHostnameSync B dryRun zone desired cfg.force_ssl
        match hs.err with
        | some e => ⟨.updateZone zone0.id payload :: hs.trace, .error e⟩
        | none =>
          ⟨.updateZone zone0.id payload :: hs.trace,
           .ok ⟨name, false, true, hs.added, hs.removed, hs.certs,
             diff.1 ++ hs.changes⟩⟩
    else
      let hs := pzHostnameSync B dryRun zone0 desired cfg.force_ssl
      match hs.err with
      | some e => ⟨hs.trace, .error e⟩
      | none =>
        ⟨hs.trace,
         .ok ⟨name, false, diff.2, hs.added, hs.removed, hs.certs,
           diff.1 ++ hs.changes⟩⟩

/-- The hostname a pull-zone call targets, if any. -/
def pzCallHostname : PzCall → Option String
  | .addHostname _ h => some h
  | .removeHostname _ h => some h
  | .loadFreeCertificate h => some h
  | .setForceSSL _ h _ => some h
  | _ => none

/-- Is the call a zone-level create or update? -/
def PzCall.isZoneCall : PzCall → Bool
  | .createZone _ => true
  | .updateZone _ _ => true
  | _ => false

/-- Which oracle entry decides a pull-zone call, counting only the calls
whose failure propagates (the best-effort certificate and Force-SSL calls
are mapped to success). -/
def pzStrictCallErr (B : PzBehavior) : PzCall → Option ApiError
  | .createZone _ => B.createZoneErr
  | .updateZone _ _ => B.updateZoneErr
  | .addHostname _ h => B.addHostnameErr h
  | .removeHostname _ h => B.removeHostnameErr h
  | .loadFreeCertificate _ => none
  | .setForceSSL _ _ _ => none

lemma to_api_payload_keys (z : PullZone) :
    z.to_api_payload.map Prod.fst =
      ["Name", "Type", "EnableGeoZoneUS", "EnableGeoZoneEU", "EnableGeoZoneASIA",
       "EnableGeoZoneSA", "EnableGeoZoneAF"] ++
      (if pyStrTruthy z.origin_url then ["OriginUrl"] else []) ++
      (if pyStrTruthy z.origin_host_header then ["OriginHostHeader"] else []) := by
  rw [PullZone.to_api_payload]
  cases pyStrTruthy z.origin_url <;> cases pyStrTruthy z.origin_host_header <;> simp

lemma applyZoneUpdate_payload_frame (w z : PullZone) :
    (applyZoneUpdate w z.to_api_payload).hostnames = w.hostnames ∧
    (applyZoneUpdate w z.to_api_payload).enabled = w.enabled ∧
    (applyZoneUpdate w z.to_api_payload).id = w.id := by
  rw [PullZone.to_api_payload, applyZoneUpdate]
  cases pyStrTruthy z.origin_url <;> cases pyStrTruthy z.origin_host_header <;>
    simp [applyField]

lemma pzAddPhase_calls (B : PzBehavior) (zoneId : Option Nat) (dryRun : Bool)
    (cur : List (String × Hostname)) (fs : Option Bool) :
    ∀ (ds : List String), ∀ call ∈ (pzAddPhase B zoneId dryRun cur fs ds).trace,
      ∃ hn ∈ ds, call = .addHostname zoneId hn ∨ call = .loadFreeCertificate hn ∨
        ∃ f, call = .setForceSSL zoneId hn f := by
  intro ds
  induction ds with
  | nil => intro call hc; simp [pzAddPhase] at hc
  | cons h rest ih =>
    intro call hc
    rw [pzAddPhase] at hc
    by_cases hl : (dictLookup cur (strLower h)).isNone = true
    · rw [if_pos hl] at hc
      cases dryRun with
      | true =>
        simp only [if_true] at hc
        obtain ⟨hn, hmem, hor⟩ := ih call hc
        exact ⟨hn, List.mem_cons_of_mem _ hmem, hor⟩
      | false =>
        simp only [Bool.false_eq_true, if_false] at hc
        rcases ha : B.addHostnameErr h with _ | e
        · simp only [ha] at hc
          have hssl : ∀ c ∈ (sslNoteOf B zoneId h fs).2,
              ∃ f, c = PzCall.setForceSSL zoneId h f := by
            rcases fs with _ | f
            · simp [sslNoteOf]
            · rcases hse : B.setForceSslErr h with _ | e <;> simp [sslNoteOf, hse]
          simp only [List.mem_cons, List.mem_append] at hc
          rcases hc with hc | hc | hc
          · exact ⟨h, List.mem_cons_self _ _, Or.inl hc⟩
          · exact ⟨h, List.mem_cons_self _ _, Or.inr (Or.inl hc)⟩
          rcases hc with hc | hc
          · obtain ⟨f, hf⟩ := hssl call hc
            exact ⟨h, List.mem_cons_self _ _, Or.inr (Or.inr ⟨f, hf⟩)⟩
          · obtain ⟨hn, hmem, hor⟩ := ih call hc
            exact ⟨hn, List.mem_cons_of_mem _ hmem, hor⟩
        · simp only [ha, List.mem_singleton] at hc
          exact ⟨h, List.mem_cons_self _ _, Or.inl hc⟩
    · rw [if_neg hl] at hc
      obtain ⟨hn, hmem, hor⟩ := ih call hc
      exact ⟨hn, List.mem_cons_of_mem _ hmem, hor⟩

lemma pzCertRetryPhase_calls (B : PzBehavior) (dryRun : Bool)
    (cur : List (String × Hostname)) :
    ∀ (ds : List String), ∀ call ∈ (pzCertRetryPhase B dryRun cur ds).trace,
      ∃ hn ∈ ds, call = .loadFreeCertificate hn := by
  intro ds
  induction ds with
  | nil => intro call hc; simp [pzCertRetryPhase] at hc
  | cons h rest ih =>
    intro call hc
    rw [pzCertRetryPhase] at hc
    rcases hlk : dictLookup cur (strLower h) with _ | hobj
    · simp only [hlk] at hc
      obtain ⟨hn, hmem, he⟩ := ih call hc
      exact ⟨hn, List.mem_cons_of_mem _ hmem, he⟩
    · simp only [hlk] at hc
      by_cases hcert : hobj.has_certificate = true
      · rw [if_pos hcert] at hc
        obtain ⟨hn, hmem, he⟩ := ih call hc
        exact ⟨hn, List.mem_cons_of_mem _ hmem, he⟩
      · rw [if_neg hcert] at hc
        cases dryRun with
        | true =>
          simp only [if_true] at hc
          obtain ⟨hn, hmem, he⟩ := ih call hc
          exact ⟨hn, List.mem_cons_of_mem _ hmem, he⟩
        | false =>
          simp only [Bool.false_eq_true, if_false] at hc
          rcases hce : B.loadCertErr h with _ | e <;>
            simp only [hce, List.mem_cons] at hc <;>
            rcases hc with hc | hc
          · exact ⟨h, List.mem_cons_self _ _, hc⟩
          · obtain ⟨hn, hmem, he⟩ := ih call hc
            exact ⟨hn, List.mem_cons_of_mem _ hmem, he⟩
          · exact ⟨h, List.mem_cons_self _ _, hc⟩
          · obtain ⟨hn, hmem, he⟩ := ih call hc
            exact ⟨hn, List.mem_cons_of_mem _ hmem, he⟩

lemma pzForceSslPhase_calls (B : PzBehavior) (zoneId : Option Nat)
    (dryRun : Bool) (cur : List (String × Hostname)) (f : Bool) :
    ∀ (ds : List String), ∀ call ∈ (pzForceSslPhase B zoneId dryRun cur f ds).trace,
      ∃ hn ∈ ds, call = .setForceSSL zoneId hn f := by
  intro ds
  induction ds with
  | nil => intro call hc; simp [pzForceSslPhase] at hc
  | cons h rest ih =>
    intro call hc
    rw [pzForceSslPhase] at hc
    rcases hlk : dictLookup cur (strLower h) with _ | hobj
    · simp only [hlk] at hc
      obtain ⟨hn, hmem, he⟩ := ih call hc
      exact ⟨hn, List.mem_cons_of_mem _ hmem, he⟩
    · simp only [hlk] at hc
      by_cases hf : (hobj.force_ssl == f) = true
      · rw [if_pos hf] at hc
        obtain ⟨hn, hmem, he⟩ := ih call hc
        exact ⟨hn, List.mem_cons_of_mem _ hmem, he⟩
      · rw [if_neg hf] at hc
        cases dryRun with
        | true =>
          simp only [if_true] at hc
          obtain ⟨hn, hmem, he⟩ := ih call hc
          exact ⟨hn, List.mem_cons_of_mem _ hmem, he⟩
        | false =>
          simp only [Bool.false_eq_true, if_false] at hc
          rcases hse : B.setForceSslErr h with _ | e <;>
            simp only [hse, List.mem_cons] at hc <;>
            rcases hc with hc | hc
          · exact ⟨h, List.mem_cons_self _ _, hc⟩
          · obtain ⟨hn, hmem, he⟩ := ih call hc
            exact ⟨hn, List.mem_cons_of_mem _ hmem, he⟩
          · exact ⟨h, List.mem_cons_self _ _, hc⟩
          · obtain ⟨hn, hmem, he⟩ := ih call hc
            exact ⟨hn, List.mem_cons_of_mem _ hmem, he⟩

lemma pzRemovePhase_calls (B : PzBehavior) (zoneId : Option Nat)
    (dryRun : Bool) (dl : List String) :
    ∀ (cur : List (String × Hostname)),
      ∀ call ∈ (pzRemovePhase B zoneId dryRun dl cur).trace,
      ∃ kv ∈ cur, call = .removeHostname zoneId kv.2.value := by
  intro cur
  induction cur with
  | nil => intro call hc; simp [pzRemovePhase] at hc
  | cons kv rest ih =>
    intro call hc
    obtain ⟨k, hobj⟩ := kv
    rw [pzRemovePhase] at hc
    by_cases hk : dl.contains k = true
    · rw [if_pos hk] at hc
      obtain ⟨kv', hmem, he⟩ := ih call hc
      exact ⟨kv', List.mem_cons_of_mem _ hmem, he⟩
    · rw [if_neg hk] at hc
      cases dryRun with
      | true =>
        simp only [if_true] at hc
        obtain ⟨kv', hmem, he⟩ := ih call hc
        exact ⟨kv', List.mem_cons_of_mem _ hmem, he⟩
      | false =>
        simp only [Bool.false_eq_true, if_false] at hc
        rcases hre : B.removeHostnameErr hobj.value with _ | e
        · simp only [hre, List.mem_cons] at hc
          rcases hc with hc | hc
          · exact ⟨(k, hobj), List.mem_cons_self _ _, hc⟩
          · obtain ⟨kv', hmem, he⟩ := ih call hc
            exact ⟨kv', List.mem_cons_of_mem _ hmem, he⟩
        · simp only [hre, List.mem_singleton] at hc
          exact ⟨(k, hobj), List.mem_cons_self _ _, hc⟩

lemma pzHostnameSync_calls (B : PzBehavior) (dryRun : Bool) (zone : PullZone)
    (desired : List String) (fs : Option Bool) :
    ∀ call ∈ (pzHostnameSync B dryRun zone desired fs).trace,
      call.isZoneCall = false ∧
      ∀ hn, pzCallHostname call = some hn →
        hn ∈ desired ∨
        ∃ kv ∈ buildCurrentHostnames zone.hostnames, hn = kv.2.value := by
  intro call hc
  have haux : (∃ hn ∈ desired,
      call = PzCall.addHostname zone.id hn ∨
      call = PzCall.loadFreeCertificate hn ∨
      ∃ f, call = PzCall.setForceSSL zone.id hn f) ∨
      (∃ kv ∈ buildCurrentHostnames zone.hostnames,
        call = PzCall.removeHostname zone.id kv.2.value) := by
    simp only [pzHostnameSync] at hc
    by_cases ha : (pzAddPhase B zone.id dryRun
        (buildCurrentHostnames zone.hostnames) fs desired).err.isSome = true
    · rw [if_pos ha] at hc
      exact Or.inl (pzAddPhase_calls B zone.id dryRun _ fs desired call hc)
    · rw [if_neg ha] at hc
      simp only [List.mem_append] at hc
      rcases hc with ((hc | hc) | hc) | hc
      · exact Or.inl (pzAddPhase_calls B zone.id dryRun _ fs desired call hc)
      · obtain ⟨hn, hmem, he⟩ := pzCertRetryPhase_calls B dryRun _ desired call hc
        exact Or.inl ⟨hn, hmem, Or.inr (Or.inl he)⟩
      · rcases fs with _ | f
        · simp [pzSslPhaseOpt] at hc
        · obtain ⟨hn, hmem, he⟩ :=
            pzForceSslPhase_calls B zone.id dryRun _ f desired call hc
          exact Or.inl ⟨hn, hmem, Or.inr (Or.inr ⟨f, he⟩)⟩
      · exact Or.inr (pzRemovePhase_calls B zone.id dryRun _ _ call hc)
  rcases haux with ⟨hn, hmem, he | he | ⟨f, he⟩⟩ | ⟨kv, hmem, he⟩ <;> subst he <;>
    refine ⟨rfl, ?_⟩ <;> intro hn' hh' <;>
    simp only [pzCallHostname, Option.some.injEq] at hh'
  · exact Or.inl (hh' ▸ hmem)
  · exact Or.inl (hh' ▸ hmem)
  · exact Or.inl (hh' ▸ hmem)
  · exact Or.inr ⟨kv, hmem, hh'.symm⟩

lemma pzSyncZone_update_payload (B : PzBehavior) (name : String)
    (cfg : PZConfig) (dryRun : Bool) (zones : List PullZone) (fid : Nat) :
    ∀ zid p,
      PzCall.updateZone zid p ∈ (pzSyncZone B name cfg dryRun zones fid).trace →
      p = (pzConfigZone name cfg).to_api_payload := by
  intro zid p hmem
  rcases hfz : pzFindZone zones name with _ | zone0
  · simp only [pzSyncZone, hfz] at hmem
    cases dryRun with
    | true => simp at hmem
    | false =>
      simp only [Bool.false_eq_true, if_false] at hmem
      rcases hce : B.createZoneErr with _ | e
      · simp only [hce] at hmem
        rcases hse : (pzHostnameSync B false
            (applyZoneUpdate (freshZone fid) (pzConfigZone name cfg).to_api_payload)
            (pySetList cfg.hostnames) cfg.force_ssl).err with _ | e
        all_goals simp only [hse, List.mem_cons] at hmem
        all_goals rcases hmem with hmem | hmem
        · exact absurd hmem (by simp)
        · have := (pzHostnameSync_calls B false _ _ _ _ hmem).1
          simp [PzCall.isZoneCall] at this
        · exact absurd hmem (by simp)
        · have := (pzHostnameSync_calls B false _ _ _ _ hmem).1
          simp [PzCall.isZoneCall] at this
      · simp only [hce, List.mem_singleton] at hmem
        exact absurd hmem (by simp)
  · simp only [pzSyncZone, hfz] at hmem
    by_cases hd : ((pzDiff zone0 (pzConfigZone name cfg)).2 && !dryRun) = true
    · rw [if_pos hd] at hmem
      rcases hue : B.updateZoneErr with _ | e
      · simp only [hue] at hmem
        rcases hse : (pzHostnameSync B dryRun
            (applyZoneUpdate zone0 (pzConfigZone name cfg).to_api_payload)
            (pySetList cfg.hostnames) cfg.force_ssl).err with _ | e
        all_goals simp only [hse, List.mem_cons] at hmem
        all_goals rcases hmem with hmem | hmem
        · exact (PzCall.updateZone.inj hmem).2
        · have := (pzHostnameSync_calls B dryRun _ _ _ _ hmem).1
          simp [PzCall.isZoneCall] at this
        · exact (PzCall.updateZone.inj hmem).2
        · have := (pzHostnameSync_calls B dryRun _ _ _ _ hmem).1
          simp [PzCall.isZoneCall] at this
      · simp only [hue, List.mem_singleton] at hmem
        exact (PzCall.updateZone.inj hmem).2
    · rw [if_neg hd] at hmem
      rcases hse : (pzHostnameSync B dryRun zone0 (pySetList cfg.hostnames)
          cfg.force_ssl).err with _ | e
      all_goals simp only [hse] at hmem
      · have := (pzHostnameSync_calls B dryRun _ _ _ _ hmem).1
        simp [PzCall.isZoneCall] at this
      · have := (pzHostnameSync_calls B dryRun _ _ _ _ hmem).1
        simp [PzCall.isZoneCall] at this

/-- C10.  The attribute-update payload of the pull-zone reconciler carries
only the zone name, type and the five region flags, plus the origin URL
and origin host header exactly when those are set (truthy); it never
carries the hostname list or the enabled flag, so applying it on the
remote leaves a stored zone's hostnames and enabled state unchanged; and
every update call issued by a sync carries exactly the payload of the
configuration-built zone. -/
theorem claim_pullzone_update_payload (B : PzBehavior) (name : String)
    (cfg : PZConfig) (dryRun : Bool) (zones : List PullZone) (fid : Nat)
    (z w : PullZone) :
    "Hostnames" ∉ z.to_api_payload.map Prod.fst ∧
    "Enabled" ∉ z.to_api_payload.map Prod.fst ∧
    (∀ k ∈ z.to_api_payload.map Prod.fst,
       k ∈ ["Name", "Type", "EnableGeoZoneUS", "EnableGeoZoneEU",
            "EnableGeoZoneASIA", "EnableGeoZoneSA", "EnableGeoZoneAF",
            "OriginUrl", "OriginHostHeader"]) ∧
    ("OriginUrl" ∈ z.to_api_payload.map Prod.fst ↔
       pyStrTruthy z.origin_url = true) ∧
    ("OriginHostHeader" ∈ z.to_api_payload.map Prod.fst ↔
       pyStrTruthy z.origin_host_header = true) ∧
    (applyZoneUpdate w z.to_api_payload).hostnames = w.hostnames ∧
    (applyZoneUpdate w z.to_api_payload).enabled = w.enabled ∧
    (∀ zid p,
       PzCall.updateZone zid p ∈ (pzSyncZone B name cfg dryRun zones fid).trace →
       p = (pzConfigZone name cfg).to_api_payload) := by
  refine ⟨?_, ?_, ?_, ?_, ?_, (applyZoneUpdate_payload_frame w z).1,
    (applyZoneUpdate_payload_frame w z).2.1,
    pzSyncZone_update_payload B name cfg dryRun zones fid⟩ <;>
    rw [to_api_payload_keys] <;>
    cases hou : pyStrTruthy z.origin_url <;>
    cases hoh : pyStrTruthy z.origin_host_header <;> simp

/-- Demonstration hostnames, remote zone and configurations for the
pull-zone claims. -/
def demoSysHost : Hostname := ⟨"sys.example-cdn.net", some 1, true, true, true⟩

/-- The non-system remote hostname of the demonstration zone. -/
def demoCdnHost : Hostname := ⟨"cdn.example.com", some 2, true, true, false⟩

/-- The demonstration remote pull zone. -/
def demoZone : PullZone :=
  ⟨"MyZone", some 5, some "https://origin.example.com", none, 0, true,
   [demoSysHost, demoCdnHost], true, true, true, true, true⟩

/-- A configuration that changes the origin URL and desires no hostnames. -/
def demoCfgUpdate : PZConfig :=
  ⟨some "https://new.example.com", none, none, [], none, none⟩

theorem claim_pullzone_update_payload_witness :
    PzCall.updateZone (some 5)
        ((pzConfigZone "MyZone" demoCfgUpdate).to_api_payload) ∈
      (pzSyncZone noFailPz "MyZone" demoCfgUpdate false [demoZone] 9).trace ∧
    "Hostnames" ∉ demoZone.to_api_payload.map Prod.fst ∧
    (applyZoneUpdate demoZone
        ((pzConfigZone "MyZone" demoCfgUpdate).to_api_payload)).hostnames =
      demoZone.hostnames :=
  ⟨by decide,
   (claim_pullzone_update_payload noFailPz "MyZone" demoCfgUpdate false
      [demoZone] 9 demoZone demoZone).1,
   (claim_pullzone_update_payload noFailPz "MyZone" demoCfgUpdate false
      [demoZone] 9 (pzConfigZone "MyZone" demoCfgUpdate) demoZone).2.2.2.2.2.1⟩

lemma dictInsert_mem {p : String × Hostname} {k : String} {v : Hostname} :
    ∀ {m : List (String × Hostname)}, p ∈ dictInsert k v m → p = (k, v) ∨ p ∈ m
  | [], h => by simpa [dictInsert] using h
  | (k', v') :: rest, h => by
    rw [dictInsert] at h
    by_cases hk : k' = k
    · rw [if_pos hk] at h
      rcases List.mem_cons.mp h with h | h
      · exact Or.inl h
      · exact Or.inr (List.mem_cons_of_mem _ h)
    · rw [if_neg hk] at h
      rcases List.mem_cons.mp h with h | h
      · exact Or.inr (h ▸ List.mem_cons_self _ _)
      · rcases dictInsert_mem h with h | h
        · exact Or.inl h
        · exact Or.inr (List.mem_cons_of_mem _ h)

lemma buildCurrentHostnames_mem_aux :
    ∀ (hs : List Hostname) (acc : List (String × Hostname))
      (p : String × Hostname),
      p ∈ hs.foldl (fun acc h => if h.is_system_hostname then acc
        else dictInsert (strLower h.value) h acc) acc →
      p ∈ acc ∨
        ∃ h ∈ hs, h.is_system_hostname = false ∧ p = (strLower h.value, h)
  | [], _, _, hp => Or.inl (by simpa using hp)
  | h :: rest, acc, p, hp => by
    simp only [List.foldl_cons] at hp
    by_cases hsys : h.is_system_hostname = true
    · rw [if_pos hsys] at hp
      rcases buildCurrentHostnames_mem_aux rest acc p hp with hh | ⟨h', hm, hh⟩
      · exact Or.inl hh
      · exact Or.inr ⟨h', List.mem_cons_of_mem _ hm, hh⟩
    · rw [if_neg hsys] at hp
      rcases buildCurrentHostnames_mem_aux rest _ p hp with hh | ⟨h', hm, hh⟩
      · rcases dictInsert_mem hh with hh | hh
        · exact Or.inr ⟨h, List.mem_cons_self _ _,
            Bool.not_eq_true _ ▸ Bool.of_not_eq_true hsys, hh⟩
        · exact Or.inl hh
      · exact Or.inr ⟨h', List.mem_cons_of_mem _ hm, hh⟩

lemma buildCurrentHostnames_mem {zs : List Hostname} {p : String × Hostname}
    (hp : p ∈ buildCurrentHostnames zs) :
    ∃ h ∈ zs, h.is_system_hostname = false ∧ p = (strLower h.value, h) := by
  rcases buildCurrentHostnames_mem_aux zs [] p hp with h | h
  · simp at h
  · exact h

lemma pySetListAux_subset :
    ∀ (l seen : List String) (x : String), x ∈ pySetListAux seen l → x ∈ l
  | [], _, x, hx => by simpa [pySetListAux] using hx
  | h :: rest, seen, x, hx => by
    rw [pySetListAux] at hx
    by_cases hs : seen.contains h = true
    · rw [if_pos hs] at hx
      exact List.mem_cons_of_mem _ (pySetListAux_subset rest seen x hx)
    · rw [if_neg hs] at hx
      rcases List.mem_cons.mp hx with hx | hx
      · exact hx ▸ List.mem_cons_self _ _
      · exact List.mem_cons_of_mem _ (pySetListAux_subset rest (h :: seen) x hx)

lemma pzAddPhase_added_subset (B : PzBehavior) (zoneId : Option Nat)
    (dryRun : Bool) (cur : List (String × Hostname)) (fs : Option Bool) :
    ∀ (ds : List String), ∀ x ∈ (pzAddPhase B zoneId dryRun cur fs ds).added,
      x ∈ ds := by
  intro ds
  induction ds with
  | nil => intro x hx; simp [pzAddPhase] at hx
  | cons h rest ih =>
    intro x hx
    rw [pzAddPhase] at hx
    by_cases hl : (dictLookup cur (strLower h)).isNone = true
    · rw [if_pos hl] at hx
      cases dryRun with
      | true =>
        simp only [if_true] at hx
        rcases List.mem_cons.mp hx with hx | hx
        · exact hx ▸ List.mem_cons_self _ _
        · exact List.mem_cons_of_mem _ (ih x hx)
      | false =>
        simp only [Bool.false_eq_true, if_false] at hx
        rcases ha : B.addHostnameErr h with _ | e
        · simp only [ha, List.mem_cons] at hx
          rcases hx with hx | hx
          · exact hx ▸ List.mem_cons_self _ _
          · exact List.mem_cons_of_mem _ (ih x hx)
        · simp only [ha, List.mem_singleton] at hx
          exact hx ▸ List.mem_cons_self _ _
    · rw [if_neg hl] at hx
      exact List.mem_cons_of_mem _ (ih x hx)

lemma pzRemovePhase_removed (B : PzBehavior) (zoneId : Option Nat)
    (dryRun : Bool) (dl : List String) :
    ∀ (cur : List (String × Hostname)),
      ∀ x ∈ (pzRemovePhase B zoneId dryRun dl cur).removed,
      ∃ kv ∈ cur, x = kv.2.value := by
  intro cur
  induction cur with
  | nil => intro x hx; simp [pzRemovePhase] at hx
  | cons kv rest ih =>
    intro x hx
    obtain ⟨k, hobj⟩ := kv
    rw [pzRemovePhase] at hx
    by_cases hk : dl.contains k = true
    · rw [if_pos hk] at hx
      obtain ⟨kv', hmem, he⟩ := ih x hx
      exact ⟨kv', List.mem_cons_of_mem _ hmem, he⟩
    · rw [if_neg hk] at hx
      cases dryRun with
      | true =>
        simp only [if_true] at hx
        rcases List.mem_cons.mp hx with hx | hx
        · exact ⟨(k, hobj), List.mem_cons_self _ _, hx⟩
        · obtain ⟨kv', hmem, he⟩ := ih x hx
          exact ⟨kv', List.mem_cons_of_mem _ hmem, he⟩
      | false =>
        simp only [Bool.false_eq_true, if_false] at hx
        rcases hre : B.removeHostnameErr hobj.value with _ | e
        · simp only [hre, List.mem_cons] at hx
          rcases hx with hx | hx
          · exact ⟨(k, hobj), List.mem_cons_self _ _, hx⟩
          · obtain ⟨kv', hmem, he⟩ := ih x hx
            exact ⟨kv', List.mem_cons_of_mem _ hmem, he⟩
        · simp only [hre, List.mem_singleton] at hx
          exact ⟨(k, hobj), List.mem_cons_self _ _, hx⟩

lemma pzHostnameSync_report (B : PzBehavior) (dryRun : Bool) (zone : PullZone)
    (desired : List String) (fs : Option Bool) :
    (∀ x ∈ (pzHostnameSync B dryRun zone desired fs).added, x ∈ desired) ∧
    (∀ x ∈ (pzHostnameSync B dryRun zone desired fs).removed,
      ∃ kv ∈ buildCurrentHostnames zone.hostnames, x = kv.2.value) := by
  constructor <;> intro x hx <;> simp only [pzHostnameSync] at hx <;>
    by_cases ha : (pzAddPhase B zone.id dryRun
      (buildCurrentHostnames zone.hostnames) fs desired).err.isSome = true
  · rw [if_pos ha] at hx
    exact pzAddPhase_added_subset B zone.id dryRun _ fs desired x hx
  · rw [if_neg ha] at hx
    exact pzAddPhase_added_subset B zone.id dryRun _ fs desired x hx
  · rw [if_pos ha] at hx
    simp at hx
  · rw [if_neg ha] at hx
    exact pzRemovePhase_removed B zone.id dryRun _ _ x hx

/-- C8.  System hostnames of an existing pull zone are untouchable: when no
configured hostname collides (case-insensitively) with a system hostname's
value and the remote hostname values are pairwise distinct, no remote call
of the sync targets the system hostname's value and it appears in neither
`hostnames_added` nor `hostnames_removed`. -/
theorem claim_pullzone_system_hostname (B : PzBehavior) (name : String)
    (cfg : PZConfig) (dryRun : Bool) (zones : List PullZone) (fid : Nat)
    (zone0 : PullZone) (s : Hostname)
    (hfz : pzFindZone zones name = some zone0)
    (hsmem : s ∈ zone0.hostnames) (hsys : s.is_system_hostname = true)
    (hnodup : (zone0.hostnames.map (fun h => strLower h.value)).Nodup)
    (hdisj : ∀ h ∈ cfg.hostnames, strLower h ≠ strLower s.value) :
    (∀ call ∈ (pzSyncZone B name cfg dryRun zones fid).trace,
       ∀ hn, pzCallHostname call = some hn → strLower hn ≠ strLower s.value) ∧
    (∀ r, (pzSyncZone B name cfg dryRun zones fid).result = .ok r →
       (∀ x ∈ r.hostnames_added, strLower x ≠ strLower s.value) ∧
       (∀ x ∈ r.hostnames_removed, strLower x ≠ strLower s.value)) := by
  have hdes : ∀ hn ∈ pySetList cfg.hostnames, strLower hn ≠ strLower s.value :=
    fun hn hmem => hdisj hn (pySetListAux_subset _ _ _ hmem)
  have hcur : ∀ kv ∈ buildCurrentHostnames zone0.hostnames,
      strLower kv.2.value ≠ strLower s.value := by
    intro kv hkv
    obtain ⟨h, hh, hnsys, rfl⟩ := buildCurrentHostnames_mem hkv
    intro heq
    have hhs : h = s := List.inj_on_of_nodup_map hnodup hh hsmem heq
    rw [hhs, hsys] at hnsys
    exact absurd hnsys (by simp)
  have htr : ∀ (dr : Bool) (z : PullZone), z.hostnames = zone0.hostnames →
      ∀ call ∈ (pzHostnameSync B dr z (pySetList cfg.hostnames)
        cfg.force_ssl).trace,
      ∀ hn, pzCallHostname call = some hn → strLower hn ≠ strLower s.value := by
    intro dr z hzh call hc hn hhn
    obtain ⟨-, h2⟩ := pzHostnameSync_calls B dr z _ cfg.force_ssl call hc
    rcases h2 hn hhn with hmem | ⟨kv, hkv, rfl⟩
    · exact hdes hn hmem
    · rw [hzh] at hkv
      exact hcur kv hkv
  have hrep : ∀ (dr : Bool) (z : PullZone), z.hostnames = zone0.hostnames →
      (∀ x ∈ (pzHostnameSync B dr z (pySetList cfg.hostnames)
          cfg.force_ssl).added, strLower x ≠ strLower s.value) ∧
      (∀ x ∈ (pzHostnameSync B dr z (pySetList cfg.hostnames)
          cfg.force_ssl).removed, strLower x ≠ strLower s.value) := by
    intro dr z hzh
    obtain ⟨h1, h2⟩ := pzHostnameSync_report B dr z (pySetList cfg.hostnames)
      cfg.force_ssl
    refine ⟨fun x hx => hdes x (h1 x hx), fun x hx => ?_⟩
    obtain ⟨kv, hkv, rfl⟩ := h2 x hx
    rw [hzh] at hkv
    exact hcur kv hkv
  have hframe : (applyZoneUpdate zone0
      (pzConfigZone name cfg).to_api_payload).hostnames = zone0.hostnames :=
    (applyZoneUpdate_payload_frame zone0 (pzConfigZone name cfg)).1
  constructor
  · intro call hc hn hhn
    simp only [pzSyncZone, hfz] at hc
    by_cases hd : ((pzDiff zone0 (pzConfigZone name cfg)).2 && !dryRun) = true
    · rw [if_pos hd] at hc
      rcases hue : B.updateZoneErr with _ | e
      · simp only [hue] at hc
        rcases hse : (pzHostnameSync B dryRun
            (applyZoneUpdate zone0 (pzConfigZone name cfg).to_api_payload)
            (pySetList cfg.hostnames) cfg.force_ssl).err with _ | e
        all_goals simp only [hse, List.mem_cons] at hc
        all_goals rcases hc with hc | hc
        · rw [hc] at hhn; simp [pzCallHostname] at hhn
        · exact htr dryRun _ hframe call hc hn hhn
        · rw [hc] at hhn; simp [pzCallHostname] at hhn
        · exact htr dryRun _ hframe call hc hn hhn
      · simp only [hue, List.mem_singleton] at hc
        rw [hc] at hhn; simp [pzCallHostname] at hhn
    · rw [if_neg hd] at hc
      rcases hse : (pzHostnameSync B dryRun zone0 (pySetList cfg.hostnames)
          cfg.force_ssl).err with _ | e
      all_goals simp only [hse] at hc
      · exact htr dryRun zone0 rfl call hc hn hhn
      · exact htr dryRun zone0 rfl call hc hn hhn
  · intro r hr
    simp only [pzSyncZone, hfz] at hr
    by_cases hd : ((pzDiff zone0 (pzConfigZone name cfg)).2 && !dryRun) = true
    · rw [if_pos hd] at hr
      rcases hue : B.updateZoneErr with _ | e
      · simp only [hue] at hr
        rcases hse : (pzHostnameSync B dryRun
            (applyZoneUpdate zone0 (pzConfigZone name cfg).to_api_payload)
            (pySetList cfg.hostnames) cfg.force_ssl).err with _ | e
        all_goals simp only [hse] at hr
        · obtain ⟨h1, h2⟩ := hrep dryRun _ hframe
          rcases hr with ⟨rfl⟩
          exact ⟨h1, h2⟩
        · exact absurd hr (by simp)
      · simp only [hue] at hr
        exact absurd hr (by simp)
    · rw [if_neg hd] at hr
      rcases hse : (pzHostnameSync B dryRun zone0 (pySetList cfg.hostnames)
          cfg.force_ssl).err with _ | e
      all_goals simp only [hse] at hr
      · obtain ⟨h1, h2⟩ := hrep dryRun zone0 rfl
        rcases hr with ⟨rfl⟩
        exact ⟨h1, h2⟩
      · exact absurd hr (by simp)

/-- The `hostnames_added` list of a pull-zone sync outcome (empty on a
failed run). -/
def pzAddedOf (o : PzOutcome) : List String :=
  match o.result with
  | .ok r => r.hostnames_added
  | .error _ => []

/-- The `hostnames_removed` list of a pull-zone sync outcome (empty on a
failed run). -/
def pzRemovedOf (o : PzOutcome) : List String :=
  match o.result with
  | .ok r => r.hostnames_removed
  | .error _ => []

/-- The `certificates_loaded` list of a pull-zone sync outcome (empty on a
failed run). -/
def pzCertsOf (o : PzOutcome) : List String :=
  match o.result with
  | .ok r => r.certificates_loaded
  | .error _ => []

/-- A configuration that desires exactly the system hostname's value. -/
def demoCfgSys : PZConfig :=
  ⟨some "https://origin.example.com", none, none, ["sys.example-cdn.net"],
   none, none⟩

theorem claim_pullzone_system_hostname_counterexample :
    demoSysHost ∈ demoZone.hostnames ∧
    demoSysHost.is_system_hostname = true ∧
    demoSysHost.value ∈ demoCfgSys.hostnames ∧
    PzCall.addHostname (some 5) "sys.example-cdn.net" ∈
      (pzSyncZone noFailPz "MyZone" demoCfgSys false [demoZone] 9).trace ∧
    PzCall.loadFreeCertificate "sys.example-cdn.net" ∈
      (pzSyncZone noFailPz "MyZone" demoCfgSys false [demoZone] 9).trace ∧
    "sys.example-cdn.net" ∈
      pzAddedOf (pzSyncZone noFailPz "MyZone" demoCfgSys false [demoZone] 9) := by
  decide

theorem claim_pullzone_system_hostname_witness :
    pzRemovedOf (pzSyncZone noFailPz "MyZone" demoCfgUpdate false [demoZone] 9) =
      ["cdn.example.com"] ∧
    (∀ call ∈ (pzSyncZone noFailPz "MyZone" demoCfgUpdate false
        [demoZone] 9).trace,
       ∀ hn, pzCallHostname call = some hn →
         strLower hn ≠ strLower demoSysHost.value) :=
  ⟨by decide,
   (claim_pullzone_system_hostname noFailPz "MyZone" demoCfgUpdate false
      [demoZone] 9 demoZone demoSysHost (by decide) (by decide) (by decide)
      (by decide) (by decide)).1⟩

/-- Which oracle entry decides a DNS call. -/
def dnsCallErr (B : DnsBehavior) : DnsCall → Option ApiError
  | .createZone d => B.createZoneErr d
  | .addRecord _ r => B.addRecordErr r
  | .updateRecord _ rid r => B.updateRecordErr rid r
  | .deleteRecord _ rid => B.deleteRecordErr rid

lemma processDesired_ok_calls (B : DnsBehavior) (zoneId : Option Nat)
    (dryRun : Bool) (snapshot : List DNSRecord) :
    ∀ (ds st : List DNSRecord) (nid : Nat),
      (processDesired B zoneId dryRun snapshot ds st nid).err = none →
      ∀ call ∈ (processDesired B zoneId dryRun snapshot ds st nid).trace,
        dnsCallErr B call = none := by
  intro ds
  induction ds with
  | nil => intro st nid _ call hc; simp [processDesired] at hc
  | cons d rest ih =>
    intro st nid herr call hc
    rw [processDesired] at herr hc
    rcases hcl : classifyRec snapshot d with _ | c | c <;>
      simp only [hcl] at herr hc
    · -- create
      cases dryRun with
      | true =>
        simp only [if_true] at herr hc
        exact ih _ _ herr call hc
      | false =>
        simp only [Bool.false_eq_true, if_false] at herr hc
        rcases ha : B.addRecordErr d with _ | e
        · simp only [ha] at herr hc
          rcases List.mem_cons.mp hc with hc | hc
          · rw [hc]; simpa [dnsCallErr] using ha
          · exact ih _ _ herr call hc
        · simp only [ha] at herr
          simp at herr
    · -- update
      cases dryRun with
      | true =>
        simp only [if_true] at herr hc
        exact ih _ _ herr call hc
      | false =>
        simp only [Bool.false_eq_true, if_false] at herr hc
        rcases hu : B.updateRecordErr c.id { d with id := c.id } with _ | e
        · simp only [hu] at herr hc
          rcases List.mem_cons.mp hc with hc | hc
          · rw [hc]; simpa [dnsCallErr] using hu
          · exact ih _ _ herr call hc
        · simp only [hu] at herr
          simp at herr
    · -- unchanged
      exact ih _ _ herr call hc

lemma processDeletes_ok_calls (B : DnsBehavior) (zoneId : Option Nat)
    (dryRun : Bool) (consumed : List (Option Nat)) :
    ∀ (snap st : List DNSRecord),
      (processDeletes B zoneId dryRun consumed snap st).err = none →
      ∀ call ∈ (processDeletes B zoneId dryRun consumed snap st).trace,
        dnsCallErr B call = none := by
  intro snap
  induction snap with
  | nil => intro st _ call hc; simp [processDeletes] at hc
  | cons c rest ih =>
    intro st herr call hc
    rw [processDeletes] at herr hc
    by_cases hm : c.id ∈ consumed
    · rw [if_pos hm] at herr hc
      exact ih _ herr call hc
    · rw [if_neg hm] at herr hc
      cases dryRun with
      | true =>
        simp only [if_true] at herr hc
        exact ih _ herr call hc
      | false =>
        simp only [Bool.false_eq_true, if_false] at herr hc
        rcases hd : B.deleteRecordErr c.id with _ | e
        · simp only [hd] at herr hc
          rcases List.mem_cons.mp hc with hc | hc
          · rw [hc]; simpa [dnsCallErr] using hd
          · exact ih _ herr call hc
        · simp only [hd] at herr
          simp at herr

lemma syncRecords_ok_calls (B : DnsBehavior) (zoneId : Option Nat)
    (dryRun deleteExtra : Bool) (snapshot desired : List DNSRecord)
    (nid : Nat) (ls : RecsLists)
    (hok : (syncRecords B zoneId dryRun deleteExtra snapshot desired
      nid).result = .ok ls) :
    ∀ call ∈ (syncRecords B zoneId dryRun deleteExtra snapshot desired
      nid).trace, dnsCallErr B call = none := by
  intro call hc
  rw [syncRecords] at hok hc
  rcases hph : (processDesired B zoneId dryRun snapshot desired snapshot
      nid).err with _ | e
  · simp only [hph] at hok hc
    cases deleteExtra with
    | false =>
      simp only [Bool.false_eq_true, if_false] at hok hc
      exact processDesired_ok_calls B zoneId dryRun snapshot desired _ _
        hph call hc
    | true =>
      simp only [if_true] at hok hc
      rcases hdel : (processDeletes B zoneId dryRun
          (processDesired B zoneId dryRun snapshot desired snapshot nid).consumed
          snapshot
          (processDesired B zoneId dryRun snapshot desired snapshot
            nid).state).err with _ | e
      · simp only [hdel] at hok hc
        rcases List.mem_append.mp hc with hc | hc
        · exact processDesired_ok_calls B zoneId dryRun snapshot desired _ _
            hph call hc
        · exact processDeletes_ok_calls B zoneId dryRun _ snapshot _
            hdel call hc
      · simp only [hdel] at hok
        exact absurd hok (by simp)
  · simp only [hph] at hok
    exact absurd hok (by simp)

lemma dnsSyncZone_ok_calls (B : DnsBehavior) (domain : String)
    (desired : List DNSRecord) (dryRun deleteExtra : Bool)
    (zones : List DnsZone) (nzid nrid : Nat) (r : DnsReport)
    (hok : (dnsSyncZone B domain desired dryRun deleteExtra zones nzid
      nrid).result = .ok r) :
    ∀ call ∈ (dnsSyncZone B domain desired dryRun deleteExtra zones nzid
      nrid).trace, dnsCallErr B call = none := by
  intro call hc
  rcases hfz : findZone zones domain with _ | z
  · simp only [dnsSyncZone, hfz] at hok hc
    cases dryRun with
    | true => simp at hc
    | false =>
      simp only [Bool.false_eq_true, if_false] at hok hc
      rcases hce : B.createZoneErr domain with _ | e
      · simp only [hce] at hok hc
        rcases List.mem_cons.mp hc with hc | hc
        · rw [hc]; simpa [dnsCallErr] using hce
        · rcases ho : (syncRecords B (some nzid) false deleteExtra [] desired
              nrid).result with e' | ls
          · rw [ho] at hok; simp at hok
          · exact syncRecords_ok_calls B _ _ _ _ _ _ _ ho call hc
      · simp only [hce] at hok
        exact absurd hok (by simp)
  · simp only [dnsSyncZone, hfz] at hok hc
    rcases ho : (syncRecords B z.id dryRun deleteExtra z.records desired
        nrid).result with e' | ls
    · rw [ho] at hok; simp at hok
    · exact syncRecords_ok_calls B _ _ _ _ _ _ _ ho call hc

lemma pzAddPhase_ok_calls (B : PzBehavior) (zoneId : Option Nat)
    (dryRun : Bool) (cur : List (String × Hostname)) (fs : Option Bool) :
    ∀ (ds : List String),
      (pzAddPhase B zoneId dryRun cur fs ds).err = none →
      ∀ call ∈ (pzAddPhase B zoneId dryRun cur fs ds).trace,
        pzStrictCallErr B call = none := by
  intro ds
  induction ds with
  | nil => intro _ call hc; simp [pzAddPhase] at hc
  | cons h rest ih =>
    intro herr call hc
    rw [pzAddPhase] at herr hc
    by_cases hl : (dictLookup cur (strLower h)).isNone = true
    · rw [if_pos hl] at herr hc
      cases dryRun with
      | true =>
        simp only [if_true] at herr hc
        exact ih herr call hc
      | false =>
        simp only [Bool.false_eq_true, if_false] at herr hc
        rcases ha : B.addHostnameErr h with _ | e
        · simp only [ha] at herr hc
          rcases List.mem_cons.mp hc with hc | hc
          · rw [hc]; simpa [pzStrictCallErr] using ha
          · rcases List.mem_cons.mp hc with hc | hc
            · rw [hc]; rfl
            · rcases List.mem_append.mp hc with hc | hc
              · obtain ⟨f, rfl⟩ : ∃ f, call = PzCall.setForceSSL zoneId h f := by
                  rcases fs with _ | f
                  · simp [sslNoteOf] at hc
                  · rcases hse : B.setForceSslErr h with _ | e <;>
                      simp only [sslNoteOf, hse, List.mem_singleton] at hc <;>
                      exact ⟨f, hc⟩
                rfl
              · exact ih herr call hc
        · simp only [ha] at herr
          simp at herr
    · rw [if_neg hl] at herr hc
      exact ih herr call hc

lemma pzRemovePhase_ok_calls (B : PzBehavior) (zoneId : Option Nat)
    (dryRun : Bool) (dl : List String) :
    ∀ (cur : List (String × Hostname)),
      (pzRemovePhase B zoneId dryRun dl cur).err = none →
      ∀ call ∈ (pzRemovePhase B zoneId dryRun dl cur).trace,
        pzStrictCallErr B call = none := by
  intro cur
  induction cur with
  | nil => intro _ call hc; simp [pzRemovePhase] at hc
  | cons kv rest ih =>
    intro herr call hc
    obtain ⟨k, hobj⟩ := kv
    rw [pzRemovePhase] at herr hc
    by_cases hk : dl.contains k = true
    · rw [if_pos hk] at herr hc
      exact ih herr call hc
    · rw [if_neg hk] at herr hc
      cases dryRun with
      | true =>
        simp only [if_true] at herr hc
        exact ih herr call hc
      | false =>
        simp only [Bool.false_eq_true, if_false] at herr hc
        rcases hre : B.removeHostnameErr hobj.value with _ | e
        · simp only [hre] at herr hc
          rcases List.mem_cons.mp hc with hc | hc
          · rw [hc]; simpa [pzStrictCallErr] using hre
          · exact ih herr call hc
        · simp only [hre] at herr
          simp at herr

lemma pzHostnameSync_ok_calls (B : PzBehavior) (dryRun : Bool)
    (zone : PullZone) (desired : List String) (fs : Option Bool)
    (hok : (pzHostnameSync B dryRun zone desired fs).err = none) :
    ∀ call ∈ (pzHostnameSync B dryRun zone desired fs).trace,
      pzStrictCallErr B call = none := by
  intro call hc
  simp only [pzHostnameSync] at hok hc
  by_cases ha : (pzAddPhase B zone.id dryRun
      (buildCurrentHostnames zone.hostnames) fs desired).err.isSome = true
  · rw [if_pos ha] at hok
    have hnone : (pzAddPhase B zone.id dryRun
        (buildCurrentHostnames zone.hostnames) fs desired).err = none := hok
    rw [hnone] at ha
    simp at ha
  · rw [if_neg ha] at hok hc
    have haerr : (pzAddPhase B zone.id dryRun
        (buildCurrentHostnames zone.hostnames) fs desired).err = none :=
      Option.not_isSome_iff_eq_none.mp (by simpa using ha)
    rcases List.mem_append.mp hc with hc | hc
    rotate_left
    · exact pzRemovePhase_ok_calls B zone.id dryRun _ _ hok call hc
    rcases List.mem_append.mp hc with hc | hc
    rotate_left
    · rcases fs with _ | f
      · simp [pzSslPhaseOpt] at hc
      · obtain ⟨hn, -, rfl⟩ :=
          pzForceSslPhase_calls B zone.id dryRun _ f desired call hc
        rfl
    rcases List.mem_append.mp hc with hc | hc
    · exact pzAddPhase_ok_calls B zone.id dryRun _ fs desired haerr call hc
    · obtain ⟨hn, -, rfl⟩ := pzCertRetryPhase_calls B dryRun _ desired call hc
      rfl

lemma pzSyncZone_ok_calls (B : PzBehavior) (name : String) (cfg : PZConfig)
    (dryRun : Bool) (zones : List PullZone) (fid : Nat) (r : PzReport)
    (hok : (pzSyncZone B name cfg dryRun zones fid).result = .ok r) :
    ∀ call ∈ (pzSyncZone B name cfg dryRun zones fid).trace,
      pzStrictCallErr B call = none := by
  intro call hc
  rcases hfz : pzFindZone zones name with _ | zone0
  · simp only [pzSyncZone, hfz] at hok hc
    cases dryRun with
    | true => simp at hc
    | false =>
      simp only [Bool.false_eq_true, if_false] at hok hc
      rcases hce : B.createZoneErr with _ | e
      · simp only [hce] at hok hc
        rcases hse : (pzHostnameSync B false
            (applyZoneUpdate (freshZone fid) (pzConfigZone name cfg).to_api_payload)
            (pySetList cfg.hostnames) cfg.force_ssl).err with _ | e
        · simp only [hse] at hok hc
          rcases List.mem_cons.mp hc with hc | hc
          · rw [hc]; simpa [pzStrictCallErr] using hce
          · exact pzHostnameSync_ok_calls B false _ _ _ hse call hc
        · simp only [hse] at hok
          exact absurd hok (by simp)
      · simp only [hce] at hok
        exact absurd hok (by simp)
  · simp only [pzSyncZone, hfz] at hok hc
    by_cases hd : ((pzDiff zone0 (pzConfigZone name cfg)).2 && !dryRun) = true
    · rw [if_pos hd] at hok hc
      rcases hue : B.updateZoneErr with _ | e
      · simp only [hue] at hok hc
        rcases hse : (pzHostnameSync B dryRun
            (applyZoneUpdate zone0 (pzConfigZone name cfg).to_api_payload)
            (pySetList cfg.hostnames) cfg.force_ssl).err with _ | e
        · simp only [hse] at hok hc
          rcases List.mem_cons.mp hc with hc | hc
          · rw [hc]; simpa [pzStrictCallErr] using hue
          · exact pzHostnameSync_ok_calls B dryRun _ _ _ hse call hc
        · simp only [hse] at hok
          exact absurd hok (by simp)
      · simp only [hue] at hok
        exact absurd hok (by simp)
    · rw [if_neg hd] at hok hc
      rcases hse : (pzHostnameSync B dryRun zone0 (pySetList cfg.hostnames)
          cfg.force_ssl).err with _ | e
      · simp only [hse] at hok hc
        exact pzHostnameSync_ok_calls B dryRun _ _ _ hse call hc
      · simp only [hse] at hok
        exact absurd hok (by simp)

/-- The behaviours whose create-zone, update-zone, add-hostname and
remove-hostname calls all succeed (the certificate and Force-SSL oracles
are unconstrained). -/
def pzMutOk (B : PzBehavior) : Prop :=
  B.createZoneErr = none ∧ B.updateZoneErr = none ∧
  (∀ h, B.addHostnameErr h = none) ∧ (∀ h, B.removeHostnameErr h = none)

lemma pzAddPhase_mut (B : PzBehavior) (zoneId : Option Nat) (dryRun : Bool)
    (cur : List (String × Hostname)) (fs : Option Bool)
    (hadd : ∀ h, B.addHostnameErr h = none) :
    ∀ (ds : List String),
      (pzAddPhase B zoneId dryRun cur fs ds).err = none ∧
      (pzAddPhase B zoneId dryRun cur fs ds).added =
        ds.filter (fun h => (dictLookup cur (strLower h)).isNone) := by
  intro ds
  induction ds with
  | nil => exact ⟨rfl, rfl⟩
  | cons h rest ih =>
    rw [pzAddPhase, List.filter_cons]
    by_cases hl : (dictLookup cur (strLower h)).isNone = true
    · simp only [if_pos hl]
      cases dryRun with
      | true => simpa using ih
      | false =>
        simp only [Bool.false_eq_true, if_false, hadd h]
        simpa using ih
    · simp only [if_neg hl]
      exact ih

lemma pzAddPhase_cert_warning (B : PzBehavior) (zoneId : Option Nat)
    (cur : List (String × Hostname)) (fs : Option Bool)
    (hadd : ∀ h, B.addHostnameErr h = none) :
    ∀ (ds : List String) (h e : String),
      h ∈ (pzAddPhase B zoneId false cur fs ds).added →
      B.loadCertErr h = some e →
      ("Warning: Could not load certificate for " ++ h ++ ": " ++ e) ∈
        (pzAddPhase B zoneId false cur fs ds).changes := by
  intro ds
  induction ds with
  | nil => intro h e hmem; simp [pzAddPhase] at hmem
  | cons d rest ih =>
    intro h e hmem hce
    rw [pzAddPhase] at hmem ⊢
    by_cases hl : (dictLookup cur (strLower d)).isNone = true
    · rw [if_pos hl] at hmem ⊢
      simp only [Bool.false_eq_true, if_false, hadd d] at hmem ⊢
      rcases List.mem_cons.mp hmem with hmem | hmem
      · subst hmem
        simp [certNoteOf, hce]
      · exact List.mem_cons_of_mem _
          (List.mem_append_right _ (ih h e hmem hce))
    · rw [if_neg hl] at hmem ⊢
      exact ih h e hmem hce

lemma pzRemovePhase_mut (B : PzBehavior) (zoneId : Option Nat)
    (dryRun : Bool) (dl : List String)
    (hrem : ∀ h, B.removeHostnameErr h = none) :
    ∀ (cur : List (String × Hostname)),
      (pzRemovePhase B zoneId dryRun dl cur).err = none ∧
      (pzRemovePhase B zoneId dryRun dl cur).removed =
        (cur.filter (fun kv => !dl.contains kv.1)).map (fun kv => kv.2.value) := by
  intro cur
  induction cur with
  | nil => exact ⟨rfl, rfl⟩
  | cons kv rest ih =>
    obtain ⟨k, hobj⟩ := kv
    rw [pzRemovePhase, List.filter_cons]
    by_cases hk : dl.contains k = true
    · have hneg : (!dl.contains (k, hobj).1) = false := by
        show (!dl.contains k) = false
        rw [hk]
        rfl
      simp only [if_pos hk, hneg, Bool.false_eq_true, if_false]
      exact ih
    · have hkf : dl.contains k = false := Bool.eq_false_iff.mpr hk
      have hpos : (!dl.contains (k, hobj).1) = true := by
        show (!dl.contains k) = true
        rw [hkf]
        rfl
      simp only [if_neg hk, if_pos hpos]
      cases dryRun with
      | true => simpa using ih
      | false =>
        simp only [Bool.false_eq_true, if_false, hrem hobj.value]
        simpa using ih

lemma pzHostnameSync_mut (B : PzBehavior) (dryRun : Bool) (zone : PullZone)
    (desired : List String) (fs : Option Bool)
    (hadd : ∀ h, B.addHostnameErr h = none)
    (hrem : ∀ h, B.removeHostnameErr h = none) :
    (pzHostnameSync B dryRun zone desired fs).err = none ∧
    (pzHostnameSync B dryRun zone desired fs).added =
      desired.filter (fun h =>
        (dictLookup (buildCurrentHostnames zone.hostnames) (strLower h)).isNone) ∧
    (pzHostnameSync B dryRun zone desired fs).removed =
      ((buildCurrentHostnames zone.hostnames).filter
        (fun kv => !(desired.map strLower).contains kv.1)).map
        (fun kv => kv.2.value) ∧
    (∀ h e, dryRun = false →
      h ∈ (pzHostnameSync B dryRun zone desired fs).added →
      B.loadCertErr h = some e →
      ("Warning: Could not load certificate for " ++ h ++ ": " ++ e) ∈
        (pzHostnameSync B dryRun zone desired fs).changes) := by
  obtain ⟨ha1, ha2⟩ := pzAddPhase_mut B zone.id dryRun
    (buildCurrentHostnames zone.hostnames) fs hadd desired
  obtain ⟨hr1, hr2⟩ := pzRemovePhase_mut B zone.id dryRun
    (desired.map strLower) hrem (buildCurrentHostnames zone.hostnames)
  have hcond : ((pzAddPhase B zone.id dryRun
      (buildCurrentHostnames zone.hostnames) fs desired).err.isSome = true) =
      False := by
    simp [ha1]
  rw [pzHostnameSync]
  simp only [hcond, if_false]
  refine ⟨hr1, ha2, hr2, ?_⟩
  intro h e hdr hmem hce
  subst hdr
  simp only [List.mem_append]
  exact Or.inl (Or.inl (Or.inl
    (pzAddPhase_cert_warning B zone.id _ fs hadd desired h e hmem hce)))

lemma pzAddPhase_ssl_warning (B : PzBehavior) (zoneId : Option Nat)
    (cur : List (String × Hostname)) (f : Bool)
    (hadd : ∀ h, B.addHostnameErr h = none) :
    ∀ (ds : List String) (h e : String),
      h ∈ (pzAddPhase B zoneId false cur (some f) ds).added →
      B.setForceSslErr h = some e →
      ("Warning: Could not set Force SSL for " ++ h ++ ": " ++ e) ∈
        (pzAddPhase B zoneId false cur (some f) ds).changes := by
  intro ds
  induction ds with
  | nil => intro h e hmem; simp [pzAddPhase] at hmem
  | cons d rest ih =>
    intro h e hmem hse
    rw [pzAddPhase] at hmem ⊢
    by_cases hl : (dictLookup cur (strLower d)).isNone = true
    · rw [if_pos hl] at hmem ⊢
      simp only [Bool.false_eq_true, if_false, hadd d] at hmem ⊢
      rcases List.mem_cons.mp hmem with hmem | hmem
      · subst hmem
        simp [sslNoteOf, hse]
      · exact List.mem_cons_of_mem _
          (List.mem_append_right _ (ih h e hmem hse))
    · rw [if_neg hl] at hmem ⊢
      exact ih h e hmem hse

lemma pzCertRetryPhase_warning (B : PzBehavior)
    (cur : List (String × Hostname)) :
    ∀ (ds : List String) (h e : String) (hobj : Hostname),
      h ∈ ds →
      dictLookup cur (strLower h) = some hobj →
      hobj.has_certificate = false →
      B.loadCertErr h = some e →
      ("Warning: Could not load certificate for " ++ h ++ ": " ++ e) ∈
        (pzCertRetryPhase B false cur ds).changes := by
  intro ds
  induction ds with
  | nil => intro h e hobj hmem; simp at hmem
  | cons d rest ih =>
    intro h e hobj hmem hlk hcert hce
    rw [pzCertRetryPhase]
    rcases List.mem_cons.mp hmem with hmem | hmem
    · subst hmem
      simp only [hlk]
      rw [if_neg (by simp [hcert])]
      simp only [Bool.false_eq_true, if_false, hce]
      simp
    · have hrec := ih h e hobj hmem hlk hcert hce
      rcases hlk0 : dictLookup cur (strLower d) with _ | hobj0
      · simp only [hlk0]
        exact hrec
      · simp only [hlk0]
        by_cases hc0 : hobj0.has_certificate = true
        · rw [if_pos hc0]
          exact hrec
        · rw [if_neg hc0]
          simp only [Bool.false_eq_true, if_false]
          rcases hce0 : B.loadCertErr d with _ | e0 <;> simp only [hce0]
          · exact List.mem_cons_of_mem _ hrec
          · exact List.mem_cons_of_mem _ (List.mem_cons_of_mem _ hrec)

lemma pzForceSslPhase_warning (B : PzBehavior) (zoneId : Option Nat)
    (cur : List (String × Hostname)) (f : Bool) :
    ∀ (ds : List String) (h e : String) (hobj : Hostname),
      h ∈ ds →
      dictLookup cur (strLower h) = some hobj →
      (hobj.force_ssl == f) = false →
      B.setForceSslErr h = some e →
      ("Warning: Could not set Force SSL for " ++ h ++ ": " ++ e) ∈
        (pzForceSslPhase B zoneId false cur f ds).changes := by
  intro ds
  induction ds with
  | nil => intro h e hobj hmem; simp at hmem
  | cons d rest ih =>
    intro h e hobj hmem hlk hf hse
    rw [pzForceSslPhase]
    rcases List.mem_cons.mp hmem with hmem | hmem
    · subst hmem
      simp only [hlk]
      rw [if_neg (by simp [hf])]
      simp only [Bool.false_eq_true, if_false, hse]
      simp
    · have hrec := ih h e hobj hmem hlk hf hse
      rcases hlk0 : dictLookup cur (strLower d) with _ | hobj0
      · simp only [hlk0]
        exact hrec
      · simp only [hlk0]
        by_cases hf0 : (hobj0.force_ssl == f) = true
        · rw [if_pos hf0]
          exact hrec
        · rw [if_neg hf0]
          simp only [Bool.false_eq_true, if_false]
          rcases hse0 : B.setForceSslErr d with _ | e0 <;> simp only [hse0]
          · exact List.mem_cons_of_mem _ hrec
          · exact List.mem_cons_of_mem _ (List.mem_cons_of_mem _ hrec)

lemma pzHostnameSync_warnings (B : PzBehavior) (zone : PullZone)
    (desired : List String) (fs : Option Bool)
    (hadd : ∀ h, B.addHostnameErr h = none) :
    (∀ h f e, h ∈ (pzHostnameSync B false zone desired fs).added →
       fs = some f → B.setForceSslErr h = some e →
       ("Warning: Could not set Force SSL for " ++ h ++ ": " ++ e) ∈
         (pzHostnameSync B false zone desired fs).changes) ∧
    (∀ h hobj e, h ∈ desired →
       dictLookup (buildCurrentHostnames zone.hostnames) (strLower h) =
         some hobj →
       hobj.has_certificate = false → B.loadCertErr h = some e →
       ("Warning: Could not load certificate for " ++ h ++ ": " ++ e) ∈
         (pzHostnameSync B false zone desired fs).changes) ∧
    (∀ h hobj f e, h ∈ desired →
       dictLookup (buildCurrentHostnames zone.hostnames) (strLower h) =
         some hobj →
       fs = some f → (hobj.force_ssl == f) = false →
       B.setForceSslErr h = some e →
       ("Warning: Could not set Force SSL for " ++ h ++ ": " ++ e) ∈
         (pzHostnameSync B false zone desired fs).changes) := by
  obtain ⟨ha1, -⟩ := pzAddPhase_mut B zone.id false
    (buildCurrentHostnames zone.hostnames) fs hadd desired
  have hcond : ((pzAddPhase B zone.id false
      (buildCurrentHostnames zone.hostnames) fs desired).err.isSome = true) =
      False := by
    simp [ha1]
  rw [pzHostnameSync]
  simp only [hcond, if_false]
  refine ⟨?_, ?_, ?_⟩
  · intro h f e hmem hfs hse
    subst hfs
    exact List.mem_append_left _ (List.mem_append_left _
      (List.mem_append_left _
        (pzAddPhase_ssl_warning B zone.id _ f hadd desired h e hmem hse)))
  · intro h hobj e hmem hlk hcert hce
    exact List.mem_append_left _ (List.mem_append_left _
      (List.mem_append_right _
        (pzCertRetryPhase_warning B _ desired h e hobj hmem hlk hcert hce)))
  · intro h hobj f e hmem hlk hfs hf hse
    subst hfs
    exact List.mem_append_left _ (List.mem_append_right _
      (pzForceSslPhase_warning B zone.id _ f desired h e hobj hmem hlk hf
        hse))

/-- C9.  Best-effort side operations: under a behaviour whose create,
update, add-hostname and remove-hostname calls succeed, a live pull-zone
sync returns a report whose zone, created/updated flags and added/removed
hostname lists equal those of the all-success run, and every best-effort
failure is recorded as a warning note: a failed certificate load or a
failed Force-SSL call for an added hostname, a failed certificate retry
for a desired hostname lacking a certificate, and a failed Force-SSL
correction for a desired hostname whose flag differs; conversely, a
successful run of any of the three reconcilers implies every issued call
other than the pull-zone certificate/Force-SSL calls succeeded, so those
are the only remote failures recovered from. -/
theorem claim_pullzone_best_effort (B : PzBehavior) (name : String)
    (cfg : PZConfig) (zones : List PullZone) (fid : Nat)
    (hmut : pzMutOk B) :
    (∃ r r₀, (pzSyncZone B name cfg false zones fid).result = .ok r ∧
       (pzSyncZone noFailPz name cfg false zones fid).result = .ok r₀ ∧
       r.zone = r₀.zone ∧ r.created = r₀.created ∧ r.updated = r₀.updated ∧
       r.hostnames_added = r₀.hostnames_added ∧
       r.hostnames_removed = r₀.hostnames_removed ∧
       (∀ h e, h ∈ r.hostnames_added → B.loadCertErr h = some e →
          ("Warning: Could not load certificate for " ++ h ++ ": " ++ e) ∈
            r.changes) ∧
       (∀ h f e, h ∈ r.hostnames_added → cfg.force_ssl = some f →
          B.setForceSslErr h = some e →
          ("Warning: Could not set Force SSL for " ++ h ++ ": " ++ e) ∈
            r.changes)) ∧
    (∀ zone0 r h hobj,
       pzFindZone zones name = some zone0 →
       (pzSyncZone B name cfg false zones fid).result = .ok r →
       h ∈ pySetList cfg.hostnames →
       dictLookup (buildCurrentHostnames zone0.hostnames) (strLower h) =
         some hobj →
       (∀ e, hobj.has_certificate = false → B.loadCertErr h = some e →
          ("Warning: Could not load certificate for " ++ h ++ ": " ++ e) ∈
            r.changes) ∧
       (∀ f e, cfg.force_ssl = some f → (hobj.force_ssl == f) = false →
          B.setForceSslErr h = some e →
          ("Warning: Could not set Force SSL for " ++ h ++ ": " ++ e) ∈
            r.changes)) ∧
    (∀ (Bp : PzBehavior) (dryRun : Bool) (r : PzReport),
       (pzSyncZone Bp name cfg dryRun zones fid).result = .ok r →
       ∀ call ∈ (pzSyncZone Bp name cfg dryRun zones fid).trace,
         pzStrictCallErr Bp call = none) ∧
    (∀ (Bd : DnsBehavior) (domain : String) (desired : List DNSRecord)
       (dryRun deleteExtra : Bool) (dz : List DnsZone) (nzid nrid : Nat)
       (rd : DnsReport),
       (dnsSyncZone Bd domain desired dryRun deleteExtra dz nzid
         nrid).result = .ok rd →
       ∀ call ∈ (dnsSyncZone Bd domain desired dryRun deleteExtra dz nzid
         nrid).trace, dnsCallErr Bd call = none) ∧
    (∀ (Be : EdgeBehavior) (zoneId : Nat) (cur : List EdgeRule)
       (cfgs : List LogicalRule) (dryRun : Bool) (re : EdgeReport),
       (edgeSyncRules Be zoneId cur cfgs dryRun).result = .ok re →
       ∀ call ∈ (edgeSyncRules Be zoneId cur cfgs dryRun).trace,
         edgeCallErr Be call = none) := by
  obtain ⟨hmc, hmu, hma, hmr⟩ := hmut
  refine ⟨?_, ?_, fun Bp dryRun r hok => pzSyncZone_ok_calls Bp name cfg
      dryRun zones fid r hok,
    fun Bd domain desired dryRun de dz nzid nrid rd hok =>
      dnsSyncZone_ok_calls Bd domain desired dryRun de dz nzid nrid rd hok,
    fun Be zoneId cur cfgs dryRun re hok =>
      edgeSyncRules_ok_calls Be zoneId cur cfgs dryRun re hok⟩
  · -- live run versus the all-success run, with the add-path warnings
    have key : ∀ (z : PullZone),
        (pzHostnameSync B false z (pySetList cfg.hostnames)
          cfg.force_ssl).err = none ∧
        (pzHostnameSync noFailPz false z (pySetList cfg.hostnames)
          cfg.force_ssl).err = none ∧
        (pzHostnameSync B false z (pySetList cfg.hostnames)
          cfg.force_ssl).added =
          (pzHostnameSync noFailPz false z (pySetList cfg.hostnames)
            cfg.force_ssl).added ∧
        (pzHostnameSync B false z (pySetList cfg.hostnames)
          cfg.force_ssl).removed =
          (pzHostnameSync noFailPz false z (pySetList cfg.hostnames)
            cfg.force_ssl).removed ∧
        (∀ h e, h ∈ (pzHostnameSync B false z (pySetList cfg.hostnames)
            cfg.force_ssl).added →
          B.loadCertErr h = some e →
          ("Warning: Could not load certificate for " ++ h ++ ": " ++ e) ∈
            (pzHostnameSync B false z (pySetList cfg.hostnames)
              cfg.force_ssl).changes) ∧
        (∀ h f e, h ∈ (pzHostnameSync B false z (pySetList cfg.hostnames)
            cfg.force_ssl).added →
          cfg.force_ssl = some f → B.setForceSslErr h = some e →
          ("Warning: Could not set Force SSL for " ++ h ++ ": " ++ e) ∈
            (pzHostnameSync B false z (pySetList cfg.hostnames)
              cfg.force_ssl).changes) := by
      intro z
      obtain ⟨h1, h2, h3, h4⟩ := pzHostnameSync_mut B false z
        (pySetList cfg.hostnames) cfg.force_ssl hma hmr
      obtain ⟨g1, g2, g3, -⟩ := pzHostnameSync_mut noFailPz false z
        (pySetList cfg.hostnames) cfg.force_ssl (fun _ => rfl) (fun _ => rfl)
      obtain ⟨w1, -, -⟩ := pzHostnameSync_warnings B z
        (pySetList cfg.hostnames) cfg.force_ssl hma
      exact ⟨h1, g1, h2.trans g2.symm, h3.trans g3.symm,
        fun h e hmem hce => h4 h e rfl hmem hce, w1⟩
    have hnfc : noFailPz.createZoneErr = (none : Option ApiError) := rfl
    have hnfu : noFailPz.updateZoneErr = (none : Option ApiError) := rfl
    rcases hfz : pzFindZone zones name with _ | zone0
    · simp only [pzSyncZone, hfz, Bool.false_eq_true, if_false, hmc, hnfc]
      obtain ⟨h1, g1, hadded, hremoved, hwarn, hwssl⟩ :=
        key (applyZoneUpdate (freshZone fid)
          (pzConfigZone name cfg).to_api_payload)
      simp only [h1, g1]
      refine ⟨_, _, rfl, rfl, rfl, rfl, rfl, hadded, hremoved, ?_, ?_⟩
      · intro h e hmem hce
        exact List.mem_cons_of_mem _ (hwarn h e hmem hce)
      · intro h f e hmem hfs hse
        exact List.mem_cons_of_mem _ (hwssl h f e hmem hfs hse)
    · simp only [pzSyncZone, hfz, Bool.not_false, Bool.and_true]
      by_cases hd : (pzDiff zone0 (pzConfigZone name cfg)).2 = true
      · simp only [if_pos hd, hmu, hnfu]
        obtain ⟨h1, g1, hadded, hremoved, hwarn, hwssl⟩ :=
          key (applyZoneUpdate zone0 (pzConfigZone name cfg).to_api_payload)
        simp only [h1, g1]
        refine ⟨_, _, rfl, rfl, rfl, rfl, rfl, hadded, hremoved, ?_, ?_⟩
        · intro h e hmem hce
          exact List.mem_append_right _ (hwarn h e hmem hce)
        · intro h f e hmem hfs hse
          exact List.mem_append_right _ (hwssl h f e hmem hfs hse)
      · simp only [if_neg hd]
        obtain ⟨h1, g1, hadded, hremoved, hwarn, hwssl⟩ := key zone0
        simp only [h1, g1]
        refine ⟨_, _, rfl, rfl, rfl, rfl, rfl, hadded, hremoved, ?_, ?_⟩
        · intro h e hmem hce
          exact List.mem_append_right _ (hwarn h e hmem hce)
        · intro h f e hmem hfs hse
          exact List.mem_append_right _ (hwssl h f e hmem hfs hse)
  · -- correction-path warnings for an existing zone
    intro zone0 r h hobj hfz hok hmem hlk
    simp only [pzSyncZone, hfz, Bool.not_false, Bool.and_true] at hok
    by_cases hd : (pzDiff zone0 (pzConfigZone name cfg)).2 = true
    · rw [if_pos hd] at hok
      simp only [hmu] at hok
      have hzh : (applyZoneUpdate zone0
          (pzConfigZone name cfg).to_api_payload).hostnames =
          zone0.hostnames :=
        (applyZoneUpdate_payload_frame zone0 (pzConfigZone name cfg)).1
      obtain ⟨he, -, -, -⟩ := pzHostnameSync_mut B false
        (applyZoneUpdate zone0 (pzConfigZone name cfg).to_api_payload)
        (pySetList cfg.hostnames) cfg.force_ssl hma hmr
      simp only [he] at hok
      obtain ⟨-, w2, w3⟩ := pzHostnameSync_warnings B
        (applyZoneUpdate zone0 (pzConfigZone name cfg).to_api_payload)
        (pySetList cfg.hostnames) cfg.force_ssl hma
      rw [hzh] at w2 w3
      rcases hok with ⟨rfl⟩
      constructor
      · intro e hcert hce
        exact List.mem_append_right _ (w2 h hobj e hmem hlk hcert hce)
      · intro f e hfs hf hse
        exact List.mem_append_right _ (w3 h hobj f e hmem hlk hfs hf hse)
    · rw [if_neg hd] at hok
      obtain ⟨he, -, -, -⟩ := pzHostnameSync_mut B false zone0
        (pySetList cfg.hostnames) cfg.force_ssl hma hmr
      simp only [he] at hok
      obtain ⟨-, w2, w3⟩ := pzHostnameSync_warnings B zone0
        (pySetList cfg.hostnames) cfg.force_ssl hma
      rcases hok with ⟨rfl⟩
      constructor
      · intro e hcert hce
        exact List.mem_append_right _ (w2 h hobj e hmem hlk hcert hce)
      · intro f e hfs hf hse
        exact List.mem_append_right _ (w3 h hobj f e hmem hlk hfs hf hse)

/-- A behaviour whose only failures are the best-effort certificate and
Force-SSL calls. -/
def demoSideFailB : PzBehavior :=
  ⟨none, none, fun _ => none, fun _ => none, fun _ => some "boom",
   fun _ => some "tls"⟩

/-- An existing non-system hostname without a certificate and with
Force SSL off. -/
def demoNoCertHost : Hostname :=
  ⟨"img.example.com", some 3, false, false, false⟩

/-- A remote zone whose non-system hostname still lacks a certificate. -/
def demoZone2 : PullZone :=
  ⟨"MyZone", some 5, some "https://origin.example.com", none, 0, true,
   [demoSysHost, demoNoCertHost], true, true, true, true, true⟩

/-- A configuration adding one hostname, keeping the certificate-less one
and requesting Force SSL. -/
def demoCfgSsl : PZConfig :=
  ⟨some "https://origin.example.com", none, none,
   ["www.example.com", "img.example.com"], some true, none⟩

/-- A configuration desiring one new hostname next to the demonstration
zone's current ones. -/
def demoCfgAdd : PZConfig :=
  ⟨some "https://origin.example.com", none, none, ["www.example.com"],
   none, none⟩

/-- The change notes of a pull-zone sync outcome (empty on a failed run). -/
def pzChangesOf (o : PzOutcome) : List String :=
  match o.result with
  | .ok r => r.changes
  | .error _ => []

theorem claim_pullzone_best_effort_witness :
    pzMutOk demoSideFailB ∧
    "www.example.com" ∈
      pzAddedOf (pzSyncZone demoSideFailB "MyZone" demoCfgSsl false
        [demoZone2] 9) ∧
    ("Warning: Could not load certificate for www.example.com: boom") ∈
      pzChangesOf (pzSyncZone demoSideFailB "MyZone" demoCfgSsl false
        [demoZone2] 9) ∧
    ("Warning: Could not set Force SSL for www.example.com: tls") ∈
      pzChangesOf (pzSyncZone demoSideFailB "MyZone" demoCfgSsl false
        [demoZone2] 9) ∧
    ("Warning: Could not load certificate for img.example.com: boom") ∈
      pzChangesOf (pzSyncZone demoSideFailB "MyZone" demoCfgSsl false
        [demoZone2] 9) ∧
    ("Warning: Could not set Force SSL for img.example.com: tls") ∈
      pzChangesOf (pzSyncZone demoSideFailB "MyZone" demoCfgSsl false
        [demoZone2] 9) ∧
    (∃ r r₀,
      (pzSyncZone demoSideFailB "MyZone" demoCfgSsl false [demoZone2]
        9).result = .ok r ∧
      (pzSyncZone noFailPz "MyZone" demoCfgSsl false [demoZone2] 9).result =
        .ok r₀ ∧
      r.zone = r₀.zone ∧ r.created = r₀.created ∧ r.updated = r₀.updated ∧
      r.hostnames_added = r₀.hostnames_added ∧
      r.hostnames_removed = r₀.hostnames_removed ∧
      (∀ h e, h ∈ r.hostnames_added →
        demoSideFailB.loadCertErr h = some e →
        ("Warning: Could not load certificate for " ++ h ++ ": " ++ e) ∈
          r.changes) ∧
      (∀ h f e, h ∈ r.hostnames_added → demoCfgSsl.force_ssl = some f →
        demoSideFailB.setForceSslErr h = some e →
        ("Warning: Could not set Force SSL for " ++ h ++ ": " ++ e) ∈
          r.changes)) ∧
    (∀ zone0 r h hobj,
      pzFindZone [demoZone2] "MyZone" = some zone0 →
      (pzSyncZone demoSideFailB "MyZone" demoCfgSsl false [demoZone2]
        9).result = .ok r →
      h ∈ pySetList demoCfgSsl.hostnames →
      dictLookup (buildCurrentHostnames zone0.hostnames) (strLower h) =
        some hobj →
      (∀ e, hobj.has_certificate = false →
        demoSideFailB.loadCertErr h = some e →
        ("Warning: Could not load certificate for " ++ h ++ ": " ++ e) ∈
          r.changes) ∧
      (∀ f e, demoCfgSsl.force_ssl = some f →
        (hobj.force_ssl == f) = false →
        demoSideFailB.setForceSslErr h = some e →
        ("Warning: Could not set Force SSL for " ++ h ++ ": " ++ e) ∈
          r.changes)) :=
  ⟨⟨rfl, rfl, fun _ => rfl, fun _ => rfl⟩, by decide, by decide, by decide,
   by decide, by decide,
   (claim_pullzone_best_effort demoSideFailB "MyZone" demoCfgSsl [demoZone2]
     9 ⟨rfl, rfl, fun _ => rfl, fun _ => rfl⟩).1,
   (claim_pullzone_best_effort demoSideFailB "MyZone" demoCfgSsl [demoZone2]
     9 ⟨rfl, rfl, fun _ => rfl, fun _ => rfl⟩).2.1⟩

lemma processDesired_dry (B : DnsBehavior) (zoneId : Option Nat)
    (snapshot : List DNSRecord) :
    ∀ (ds st : List DNSRecord) (nid : Nat),
      processDesired B zoneId true snapshot ds st nid =
        ⟨(ds.filter (isCreateB snapshot)).map descStr,
         (ds.filter (isUpdateB snapshot)).map descStr,
         (ds.filter (isUnchangedB snapshot)).map descStr,
         consumedOf snapshot ds, [], st, nid, none⟩ := by
  intro ds
  induction ds with
  | nil => intro st nid; simp [processDesired, consumedOf]
  | cons d rest ih =>
    intro st nid
    rw [processDesired]
    rcases hcl : classifyRec snapshot d with _ | c | c
    · have hfm : findMatch snapshot d = none := by
        rw [classifyRec] at hcl
        rcases hf : findMatch snapshot d with _ | c
        · rfl
        · rw [hf] at hcl
          by_cases hu : c.needs_update d = true <;> simp [hu] at hcl
      simp only [if_true]
      rw [ih]
      simp [isCreateB, isUpdateB, isUnchangedB, hcl, consumedOf, hfm, descStr]
    · have hfm : findMatch snapshot d = some c := by
        rw [classifyRec] at hcl
        rcases hf : findMatch snapshot d with _ | c'
        · rw [hf] at hcl; simp at hcl
        · rw [hf] at hcl
          by_cases hu : c'.needs_update d = true <;> simp [hu] at hcl
          · simp [hcl]
      simp only [if_true]
      rw [ih]
      simp [isCreateB, isUpdateB, isUnchangedB, hcl, consumedOf, hfm]
    · have hfm : findMatch snapshot d = some c := by
        rw [classifyRec] at hcl
        rcases hf : findMatch snapshot d with _ | c'
        · rw [hf] at hcl; simp at hcl
        · rw [hf] at hcl
          by_cases hu : c'.needs_update d = true <;> simp [hu] at hcl
          · simp [hcl]
      rw [ih]
      simp [isCreateB, isUpdateB, isUnchangedB, hcl, consumedOf, hfm]

lemma processDeletes_dry (B : DnsBehavior) (zoneId : Option Nat)
    (consumed : List (Option Nat)) :
    ∀ (snap st : List DNSRecord),
      processDeletes B zoneId true consumed snap st =
        ⟨(unconsumed consumed snap).map descStr, [], st, none⟩ := by
  intro snap
  induction snap with
  | nil => intro st; simp [processDeletes, unconsumed]
  | cons c rest ih =>
    intro st
    rw [processDeletes]
    by_cases hm : c.id ∈ consumed
    · rw [if_pos hm, ih]
      have h1 : unconsumed consumed (c :: rest) = unconsumed consumed rest := by
        simp [unconsumed, List.filter_cons, hm]
      simp [h1]
    · rw [if_neg hm]
      simp only [if_true]
      rw [ih]
      have h1 : unconsumed consumed (c :: rest) = c :: unconsumed consumed rest := by
        simp [unconsumed, List.filter_cons, hm]
      simp [h1]

lemma syncRecords_dry (B : DnsBehavior) (zoneId : Option Nat)
    (deleteExtra : Bool) (snapshot desired : List DNSRecord) (nid : Nat) :
    syncRecords B zoneId true deleteExtra snapshot desired nid =
      ⟨[], snapshot, nid,
       .ok ⟨(desired.filter (isCreateB snapshot)).map descStr,
            (desired.filter (isUpdateB snapshot)).map descStr,
            if deleteExtra then
              (unconsumed (consumedOf snapshot desired) snapshot).map descStr
            else [],
            (desired.filter (isUnchangedB snapshot)).map descStr⟩⟩ := by
  rw [syncRecords, processDesired_dry]
  cases deleteExtra with
  | false => simp
  | true =>
    simp only [if_true]
    rw [processDeletes_dry]
    simp

lemma dnsSyncZone_dry_eq (B : DnsBehavior) (domain : String)
    (desired : List DNSRecord) (deleteExtra : Bool) (zones : List DnsZone)
    (nzid nrid : Nat) :
    (dnsSyncZone B domain desired true deleteExtra zones nzid nrid).trace =
      [] ∧
    (dnsSyncZone B domain desired true deleteExtra zones nzid nrid).result =
      (dnsSyncZone noFailDns domain desired false deleteExtra zones nzid
        nrid).result := by
  have hnf : noFailDns.createZoneErr domain = none := rfl
  rcases hfz : findZone zones domain with _ | z
  · refine ⟨by simp [dnsSyncZone, hfz], ?_⟩
    simp only [dnsSyncZone, hfz, Bool.false_eq_true, if_false, if_true, hnf]
    rw [syncRecords_noFail]
    have h1 : desired.filter (isCreateB []) = desired :=
      List.filter_eq_self.mpr (fun d _ => rfl)
    have h2 : desired.filter (isUpdateB []) = [] :=
      List.filter_eq_nil_iff.mpr (fun d _ => by
        simp [isUpdateB, classifyRec, findMatch])
    have h3 : desired.filter (isUnchangedB []) = [] :=
      List.filter_eq_nil_iff.mpr (fun d _ => by
        simp [isUnchangedB, classifyRec, findMatch])
    have h4 : unconsumed (consumedOf [] desired) [] = [] := rfl
    simp [h1, h2, h3, h4]
  · simp only [dnsSyncZone, hfz]
    rw [syncRecords_dry, syncRecords_noFail]
    exact ⟨rfl, rfl⟩

lemma pzAddPhase_dry (B : PzBehavior) (zoneId : Option Nat)
    (cur : List (String × Hostname)) (fs : Option Bool) :
    ∀ (ds : List String),
      pzAddPhase B zoneId true cur fs ds =
        ⟨ds.filter (fun h => (dictLookup cur (strLower h)).isNone),
         [],
         (ds.filter (fun h => (dictLookup cur (strLower h)).isNone)).map
           (fun h => "Adding hostname: " ++ h),
         [], none⟩ := by
  intro ds
  induction ds with
  | nil => rfl
  | cons h rest ih =>
    rw [pzAddPhase, List.filter_cons]
    by_cases hl : (dictLookup cur (strLower h)).isNone = true
    · have hl' : dictLookup cur (strLower h) = none :=
        Option.isNone_iff_eq_none.mp hl
      simp [if_pos hl, hl', ih]
    · have hl' : ¬dictLookup cur (strLower h) = none := by
        intro he
        exact hl (by simp [he])
      simp [if_neg hl, hl', ih]

lemma pzCertRetryPhase_dry (B : PzBehavior)
    (cur : List (String × Hostname)) :
    ∀ (ds : List String),
      (pzCertRetryPhase B true cur ds).certs = [] ∧
      (pzCertRetryPhase B true cur ds).trace = [] := by
  intro ds
  induction ds with
  | nil => exact ⟨rfl, rfl⟩
  | cons h rest ih =>
    obtain ⟨ih1, ih2⟩ := ih
    rw [pzCertRetryPhase]
    rcases hlk : dictLookup cur (strLower h) with _ | hobj
    · exact ⟨ih1, ih2⟩
    · by_cases hcert : hobj.has_certificate = true
      · simp [hcert, ih1, ih2]
      · simp [hcert, ih1, ih2]

lemma pzForceSslPhase_dry (B : PzBehavior) (zoneId : Option Nat)
    (cur : List (String × Hostname)) (f : Bool) :
    ∀ (ds : List String),
      (pzForceSslPhase B zoneId true cur f ds).certs = [] ∧
      (pzForceSslPhase B zoneId true cur f ds).trace = [] := by
  intro ds
  induction ds with
  | nil => exact ⟨rfl, rfl⟩
  | cons h rest ih =>
    obtain ⟨ih1, ih2⟩ := ih
    rw [pzForceSslPhase]
    rcases hlk : dictLookup cur (strLower h) with _ | hobj
    · exact ⟨ih1, ih2⟩
    · by_cases hf : (hobj.force_ssl == f) = true
      · simp [hf, ih1, ih2]
      · simp [hf, ih1, ih2]

lemma pzRemovePhase_dry (B : PzBehavior) (zoneId : Option Nat)
    (dl : List String) :
    ∀ (cur : List (String × Hostname)),
      (pzRemovePhase B zoneId true dl cur).err = none ∧
      (pzRemovePhase B zoneId true dl cur).removed =
        (cur.filter (fun kv => !dl.contains kv.1)).map
          (fun kv => kv.2.value) ∧
      (pzRemovePhase B zoneId true dl cur).trace = [] := by
  intro cur
  induction cur with
  | nil => exact ⟨rfl, rfl, rfl⟩
  | cons kv rest ih =>
    obtain ⟨k, hobj⟩ := kv
    rw [pzRemovePhase, List.filter_cons]
    by_cases hk : dl.contains k = true
    · have hneg : (!dl.contains (k, hobj).1) = false := by
        show (!dl.contains k) = false
        rw [hk]
        rfl
      simp only [if_pos hk, hneg, Bool.false_eq_true, if_false]
      exact ih
    · have hkf : dl.contains k = false := Bool.eq_false_iff.mpr hk
      have hpos : (!dl.contains (k, hobj).1) = true := by
        show (!dl.contains k) = true
        rw [hkf]
        rfl
      simp only [if_neg hk, if_pos hpos, if_true]
      simpa using ih

lemma pzHostnameSync_dry (B : PzBehavior) (zone : PullZone)
    (desired : List String) (fs : Option Bool) :
    (pzHostnameSync B true zone desired fs).err = none ∧
    (pzHostnameSync B true zone desired fs).trace = [] ∧
    (pzHostnameSync B true zone desired fs).added =
      desired.filter (fun h =>
        (dictLookup (buildCurrentHostnames zone.hostnames)
          (strLower h)).isNone) ∧
    (pzHostnameSync B true zone desired fs).removed =
      ((buildCurrentHostnames zone.hostnames).filter
        (fun kv => !(desired.map strLower).contains kv.1)).map
        (fun kv => kv.2.value) := by
  obtain ⟨hr1, hr2, hr3⟩ := pzRemovePhase_dry B zone.id
    (desired.map strLower) (buildCurrentHostnames zone.hostnames)
  obtain ⟨hc1, hc2⟩ := pzCertRetryPhase_dry B
    (buildCurrentHostnames zone.hostnames) desired
  have hs2 : (pzSslPhaseOpt B zone.id true
      (buildCurrentHostnames zone.hostnames) fs desired).trace = [] := by
    rcases fs with _ | f
    · rfl
    · exact (pzForceSslPhase_dry B zone.id _ f desired).2
  rw [pzHostnameSync, pzAddPhase_dry]
  simp [hr1, hr2, hr3, hc2, hs2]

/-- C1.  Dry-run behaviour of the three reconcilers: a dry run issues no
remote call whatever the behaviour; the DNS and edge-rule dry reports
equal the all-success live reports; the pull-zone dry report matches the
all-success live report on the zone name, the created and updated flags
and the added/removed hostname lists (but not, in general, on
`certificates_loaded` or the live-only change notes). -/
theorem claim_dry_run_invariance :
    (∀ (Bd : DnsBehavior) (domain : String) (desired : List DNSRecord)
       (deleteExtra : Bool) (dz : List DnsZone) (nzid nrid : Nat),
       (dnsSyncZone Bd domain desired true deleteExtra dz nzid nrid).trace =
         [] ∧
       (dnsSyncZone Bd domain desired true deleteExtra dz nzid
         nrid).result =
         (dnsSyncZone noFailDns domain desired false deleteExtra dz nzid
           nrid).result) ∧
    (∀ (Be : EdgeBehavior) (zoneId : Nat) (cur : List EdgeRule)
       (cfgs : List LogicalRule),
       (edgeSyncRules Be zoneId cur cfgs true).trace = [] ∧
       (edgeSyncRules Be zoneId cur cfgs true).result =
         (edgeSyncRules noFailEdge zoneId cur cfgs false).result) ∧
    (∀ (Bp : PzBehavior) (name : String) (cfg : PZConfig)
       (zones : List PullZone) (fid : Nat),
       (pzSyncZone Bp name cfg true zones fid).trace = [] ∧
       ∃ r r₀, (pzSyncZone Bp name cfg true zones fid).result = .ok r ∧
         (pzSyncZone noFailPz name cfg false zones fid).result = .ok r₀ ∧
         r.zone = r₀.zone ∧ r.created = r₀.created ∧ r.updated = r₀.updated ∧
         r.hostnames_added = r₀.hostnames_added ∧
         r.hostnames_removed = r₀.hostnames_removed) := by
  refine ⟨fun Bd domain desired de dz nzid nrid =>
      dnsSyncZone_dry_eq Bd domain desired de dz nzid nrid,
    fun Be zoneId cur cfgs => by
      rw [edgeSyncRules_dry, edgeSyncRules_noFail_live]
      exact ⟨rfl, rfl⟩, ?_⟩
  intro Bp name cfg zones fid
  have hnfc : noFailPz.createZoneErr = (none : Option ApiError) := rfl
  have hnfu : noFailPz.updateZoneErr = (none : Option ApiError) := rfl
  rcases hfz : pzFindZone zones name with _ | zone0
  · refine ⟨by simp [pzSyncZone, hfz], ?_⟩
    simp only [pzSyncZone, hfz, if_true, Bool.false_eq_true, if_false, hnfc]
    obtain ⟨g1, g2, g3, -⟩ := pzHostnameSync_mut noFailPz false
      (applyZoneUpdate (freshZone fid) (pzConfigZone name cfg).to_api_payload)
      (pySetList cfg.hostnames) cfg.force_ssl (fun _ => rfl) (fun _ => rfl)
    have hzh : (applyZoneUpdate (freshZone fid)
        (pzConfigZone name cfg).to_api_payload).hostnames = [] :=
      (applyZoneUpdate_payload_frame (freshZone fid)
        (pzConfigZone name cfg)).1
    rw [hzh] at g2 g3
    have hadd : (pySetList cfg.hostnames).filter (fun h =>
        (dictLookup (buildCurrentHostnames []) (strLower h)).isNone) =
        pySetList cfg.hostnames :=
      List.filter_eq_self.mpr (fun h _ => rfl)
    rw [hadd] at g2
    simp only [g1, g2, g3]
    exact ⟨_, _, rfl, rfl, rfl, rfl, rfl, rfl, rfl⟩
  · simp only [pzSyncZone, hfz, Bool.not_true, Bool.and_false,
      Bool.false_eq_true, if_false, Bool.not_false, Bool.and_true]
    obtain ⟨d1, d2, d3, d4⟩ := pzHostnameSync_dry Bp zone0
      (pySetList cfg.hostnames) cfg.force_ssl
    simp only [d1]
    by_cases hd : (pzDiff zone0 (pzConfigZone name cfg)).2 = true
    · simp only [if_pos hd, hnfu]
      obtain ⟨g1, g2, g3, -⟩ := pzHostnameSync_mut noFailPz false
        (applyZoneUpdate zone0 (pzConfigZone name cfg).to_api_payload)
        (pySetList cfg.hostnames) cfg.force_ssl (fun _ => rfl) (fun _ => rfl)
      have hzh : (applyZoneUpdate zone0
          (pzConfigZone name cfg).to_api_payload).hostnames =
          zone0.hostnames :=
        (applyZoneUpdate_payload_frame zone0 (pzConfigZone name cfg)).1
      rw [hzh] at g2 g3
      simp only [g1]
      exact ⟨d2, _, _, rfl, rfl, rfl, rfl, hd, d3.trans g2.symm,
        d4.trans g3.symm⟩
    · simp only [if_neg hd]
      obtain ⟨g1, g2, g3, -⟩ := pzHostnameSync_mut noFailPz false zone0
        (pySetList cfg.hostnames) cfg.force_ssl (fun _ => rfl) (fun _ => rfl)
      simp only [g1]
      exact ⟨d2, _, _, rfl, rfl, rfl, rfl, rfl, d3.trans g2.symm,
        d4.trans g3.symm⟩

theorem claim_dry_run_invariance_counterexample :
    pzCertsOf (pzSyncZone noFailPz "MyZone" demoCfgAdd true [demoZone] 9) =
      [] ∧
    pzCertsOf (pzSyncZone noFailPz "MyZone" demoCfgAdd false [demoZone] 9) =
      ["www.example.com"] ∧
    pzCertsOf (pzSyncZone noFailPz "MyZone" demoCfgAdd true [demoZone] 9) ≠
      pzCertsOf (pzSyncZone noFailPz "MyZone" demoCfgAdd false [demoZone] 9) := by
  decide

theorem claim_dry_run_invariance_witness :
    ((dnsSyncZone noFailDns "example.com"
        [⟨"A", "w", "1.2.3.4", 300, none, none, none, none⟩] true true
        [] 1 1).trace = [] ∧
     (dnsSyncZone noFailDns "example.com"
        [⟨"A", "w", "1.2.3.4", 300, none, none, none, none⟩] true true
        [] 1 1).result =
       (dnsSyncZone noFailDns "example.com"
          [⟨"A", "w", "1.2.3.4", 300, none, none, none, none⟩] false true
          [] 1 1).result) ∧
    ((pzSyncZone noFailPz "MyZone" demoCfgAdd true [demoZone] 9).trace =
       [] ∧
     ∃ r r₀,
       (pzSyncZone noFailPz "MyZone" demoCfgAdd true [demoZone] 9).result =
         .ok r ∧
       (pzSyncZone noFailPz "MyZone" demoCfgAdd false [demoZone] 9).result =
         .ok r₀ ∧
       r.zone = r₀.zone ∧ r.created = r₀.created ∧ r.updated = r₀.updated ∧
       r.hostnames_added = r₀.hostnames_added ∧
       r.hostnames_removed = r₀.hostnames_removed) :=
  ⟨claim_dry_run_invariance.1 noFailDns "example.com"
      [⟨"A", "w", "1.2.3.4", 300, none, none, none, none⟩] true [] 1 1,
   claim_dry_run_invariance.2.2 noFailPz "MyZone" demoCfgAdd [demoZone] 9⟩

end BunnyDns
